import Mathlib

/-!
# CS-330 scene renderer: texture registry, materials, transforms and procedural meshes

A shallow embedding of `SceneManager.cpp` and `ShapeMeshes.cpp`.

* Calls into the graphics device and the image decoder are represented by their
  results: the decoder is a function from a path to an optional image header and
  `glGenTextures` is the handle it writes.
* `float` arithmetic is taken over an arbitrary field `α`; the trigonometric
  functions, the square root and the constant `kPi` are parameters, so every
  definition is executable and the theorems instantiate them with the real ones.
-/

namespace CS330

/-! ## Texture registry (`SceneManager.cpp`) -/

/-- A GLuint value converted to `int`: the conversion of the assignment
`textureID = m_textureIDs[index].ID` in `FindTextureID` (32-bit two's complement). -/
def GLuint.toInt (n : Nat) : Int :=
  if n % 2 ^ 32 < 2 ^ 31 then ((n % 2 ^ 32 : Nat) : Int) else ((n % 2 ^ 32 : Nat) : Int) - 2 ^ 32

/-- Modelled from the spec: the record type TEXTURE_INFO is declared in SceneManager.h, which is
not among the sources; the registry stores a (tag, handle) record, the handle being the GLuint
written by `glGenTextures`. -/
structure TEXTURE_INFO where
  ID : Nat
  tag : String
deriving DecidableEq, Repr, Inhabited

/-- Modelled from the spec: the members of class SceneManager are declared in SceneManager.h,
which is not among the sources. `m_textureIDs` is the fixed-size array of registry entries (its
length is the capacity) and `m_loadedTextures` the number of registered entries, set to 0 by the
constructor and only ever incremented. -/
structure SceneManager where
  m_textureIDs : List TEXTURE_INFO
  m_loadedTextures : Nat
deriving DecidableEq, Repr

/-- The array element `m_textureIDs[i]`. -/
def SceneManager.entry (s : SceneManager) (i : Nat) : TEXTURE_INFO :=
  s.m_textureIDs.getD i default

/-- The header data `stbi_load` writes for a decoded image. -/
structure StbImage where
  width : Int
  height : Int
  colorChannels : Int
deriving DecidableEq, Repr

/-- The method `SceneManager::CreateGLTexture`. `stbi_load` gives the decoder's result for a path (`none`
is the null pointer of a failed decode), `glGenTextures` is the handle the device writes into
`textureID`. The result is `none` when the registration writes past the end of the
fixed-size array (undefined behaviour), otherwise the returned flag and the new state. -/
def CreateGLTexture (stbi_load : String → Option StbImage) (glGenTextures : Nat)
    (filename tag : String) (s : SceneManager) : Option (Bool × SceneManager) :=
  match stbi_load filename with
  | some image =>
    let textureID := glGenTextures
    if image.colorChannels = 3 then
      if s.m_loadedTextures < s.m_textureIDs.length then
        some (true, { m_textureIDs := s.m_textureIDs.set s.m_loadedTextures ⟨textureID, tag⟩,
                      m_loadedTextures := s.m_loadedTextures + 1 })
      else none
    else if image.colorChannels = 4 then
      if s.m_loadedTextures < s.m_textureIDs.length then
        some (true, { m_textureIDs := s.m_textureIDs.set s.m_loadedTextures ⟨textureID, tag⟩,
                      m_loadedTextures := s.m_loadedTextures + 1 })
      else none
    else
      some (false, s)
  | none => some (false, s)

/-- The loop of `SceneManager::FindTextureID` from `index` on; `fuel` bounds the number of
iterations (the caller passes `m_loadedTextures`, which the loop never exceeds). -/
def FindTextureID.loop (s : SceneManager) (tag : String) : Nat → Nat → Int
  | 0, _ => -1
  | fuel + 1, index =>
    if index < s.m_loadedTextures then
      if (s.entry index).tag = tag then GLuint.toInt (s.entry index).ID
      else FindTextureID.loop s tag fuel (index + 1)
    else -1

/-- The method `SceneManager::FindTextureID`. -/
def FindTextureID (tag : String) (s : SceneManager) : Int :=
  FindTextureID.loop s tag s.m_loadedTextures 0

/-- The loop of `SceneManager::FindTextureSlot` from `index` on; `fuel` as in
`FindTextureID.loop`. -/
def FindTextureSlot.loop (s : SceneManager) (tag : String) : Nat → Nat → Int
  | 0, _ => -1
  | fuel + 1, index =>
    if index < s.m_loadedTextures then
      if (s.entry index).tag = tag then (index : Int)
      else FindTextureSlot.loop s tag fuel (index + 1)
    else -1

/-- The method `SceneManager::FindTextureSlot`. -/
def FindTextureSlot (tag : String) (s : SceneManager) : Int :=
  FindTextureSlot.loop s tag s.m_loadedTextures 0

/-- A run of `CreateGLTexture` calls issued one after the other (as `PrepareScene` does), each
given as (filename, tag, handle written by `glGenTextures`); the flags the calls returned, in
order, and the final state. -/
def CreateGLTextures (stbi_load : String → Option StbImage) :
    List (String × String × Nat) → SceneManager → Option (List Bool × SceneManager)
  | [], s => some ([], s)
  | (filename, tag, glGenTextures) :: rest, s =>
    match CreateGLTexture stbi_load glGenTextures filename tag s with
    | none => none
    | some (b, s1) =>
      match CreateGLTextures stbi_load rest s1 with
      | none => none
      | some (bs, s2) => some (b :: bs, s2)

/-! ## Vectors and matrices (GLM) -/

/-- The GLM type `glm::vec3`. -/
structure glm.vec3 (α : Type) where
  x : α
  y : α
  z : α
deriving DecidableEq, Repr

/-- The GLM type `glm::mat4`, as a mathematical 4x4 matrix (row, column); GLM stores it by
columns, `m[c][r]`, and its `*` is the matrix product. -/
abbrev glm.mat4 (α : Type) := Matrix (Fin 4) (Fin 4) α

section Field

variable {α : Type} [Field α]

/-- Addition of `glm::vec3`. -/
def glm.vec3.add (a b : glm.vec3 α) : glm.vec3 α := ⟨a.x + b.x, a.y + b.y, a.z + b.z⟩

/-- Subtraction of `glm::vec3`. -/
def glm.vec3.sub (a b : glm.vec3 α) : glm.vec3 α := ⟨a.x - b.x, a.y - b.y, a.z - b.z⟩

/-- The GLM function `glm::dot` on `glm::vec3`. -/
def glm.dot (a b : glm.vec3 α) : α := a.x * b.x + a.y * b.y + a.z * b.z

/-- The GLM function `glm::cross` on `glm::vec3`. -/
def glm.cross (a b : glm.vec3 α) : glm.vec3 α :=
  ⟨a.y * b.z - b.y * a.z, a.z * b.x - b.z * a.x, a.x * b.y - b.x * a.y⟩

/-- The GLM function `glm::normalize`: `v * inversesqrt(dot(v, v))`. -/
def glm.normalize (sqrtf : α → α) (v : glm.vec3 α) : glm.vec3 α :=
  let inversesqrt := 1 / sqrtf (glm.dot v v)
  ⟨v.x * inversesqrt, v.y * inversesqrt, v.z * inversesqrt⟩

/-- The GLM function `glm::length`: `sqrt(dot(v, v))`. -/
def glm.length (sqrtf : α → α) (v : glm.vec3 α) : α := sqrtf (glm.dot v v)

/-- The GLM function `glm::radians`: degrees times pi / 180. -/
def glm.radians (kPi : α) (degrees : α) : α := degrees * (kPi / 180)

/-- The GLM function `glm::scale(v)` of `glm/gtx/transform.hpp`: the identity with its first three diagonal
entries scaled by `v`. -/
def glm.scale (v : glm.vec3 α) : glm.mat4 α :=
  !![v.x, 0, 0, 0;
     0, v.y, 0, 0;
     0, 0, v.z, 0;
     0, 0, 0, 1]

/-- The GLM function `glm::translate(v)` of `glm/gtx/transform.hpp`: the identity with `v` as fourth column. -/
def glm.translate (v : glm.vec3 α) : glm.mat4 α :=
  !![1, 0, 0, v.x;
     0, 1, 0, v.y;
     0, 0, 1, v.z;
     0, 0, 0, 1]

/-- The GLM function `glm::rotate(angle, v)` of `glm/gtx/transform.hpp` (the rotation applied to the identity):
with `axis = normalize(v)` and `temp = (1 - c) * axis`, GLM fills `Rotate[col][row]`; entry
(row, col) below is GLM's `Rotate[col][row]`. -/
def glm.rotate (cosf sinf sqrtf : α → α) (angle : α) (v : glm.vec3 α) : glm.mat4 α :=
  let c := cosf angle
  let s := sinf angle
  let axis := glm.normalize sqrtf v
  let temp : glm.vec3 α := ⟨(1 - c) * axis.x, (1 - c) * axis.y, (1 - c) * axis.z⟩
  !![c + temp.x * axis.x, temp.y * axis.x - s * axis.z, temp.z * axis.x + s * axis.y, 0;
     temp.x * axis.y + s * axis.z, c + temp.y * axis.y, temp.z * axis.y - s * axis.x, 0;
     temp.x * axis.z - s * axis.y, temp.y * axis.z + s * axis.x, c + temp.z * axis.z, 0;
     0, 0, 0, 1]

/-- A point as the homogeneous `glm::vec4` (x, y, z, 1). -/
def glm.point (p : glm.vec3 α) : Fin 4 → α := ![p.x, p.y, p.z, 1]

/-! ## Transformations and materials (`SceneManager.cpp`) -/

/-- The method `SceneManager::SetTransformations`: the model matrix the method computes and passes to
`setMat4Value("model", model)` (when the shader manager is not NULL). -/
def SetTransformations (cosf sinf sqrtf : α → α) (kPi : α)
    (scaleXYZ : glm.vec3 α) (XrotationDegrees YrotationDegrees ZrotationDegrees : α)
    (positionXYZ : glm.vec3 α) (offset : glm.vec3 α) : glm.mat4 α :=
  let scale := glm.scale scaleXYZ
  let rotationX := glm.rotate cosf sinf sqrtf (glm.radians kPi XrotationDegrees) ⟨1, 0, 0⟩
  let rotationY := glm.rotate cosf sinf sqrtf (glm.radians kPi YrotationDegrees) ⟨0, 1, 0⟩
  let rotationZ := glm.rotate cosf sinf sqrtf (glm.radians kPi ZrotationDegrees) ⟨0, 0, 1⟩
  let translation := glm.translate (positionXYZ.add offset)
  translation * rotationZ * rotationY * rotationX * scale

end Field

/-- Modelled from the spec: the record type OBJECT_MATERIAL is declared in SceneManager.h,
which is not among the sources; a material is a bundle of diffuse colour, specular colour and
shininess keyed by a tag string (the fields `FindMaterial` reads and writes). -/
structure OBJECT_MATERIAL (α : Type) where
  diffuseColor : glm.vec3 α
  specularColor : glm.vec3 α
  shininess : α
  tag : String
deriving DecidableEq, Repr

/-- The loop of `SceneManager::FindMaterial` from `index` on, acting on the output parameter
`material`; `fuel` bounds the number of iterations (the caller passes the list's size). -/
def FindMaterial.loop {α : Type} (m_objectMaterials : List (OBJECT_MATERIAL α)) (tag : String) :
    Nat → Nat → OBJECT_MATERIAL α → OBJECT_MATERIAL α
  | 0, _, material => material
  | fuel + 1, index, material =>
    if h : index < m_objectMaterials.length then
      if m_objectMaterials[index].tag = tag then
        { material with diffuseColor := m_objectMaterials[index].diffuseColor,
                        specularColor := m_objectMaterials[index].specularColor,
                        shininess := m_objectMaterials[index].shininess }
      else FindMaterial.loop m_objectMaterials tag fuel (index + 1) material
    else material

/-- The method `SceneManager::FindMaterial`: the returned flag and the output parameter `material` after
the call. -/
def FindMaterial {α : Type} (m_objectMaterials : List (OBJECT_MATERIAL α)) (tag : String)
    (material : OBJECT_MATERIAL α) : Bool × OBJECT_MATERIAL α :=
  if m_objectMaterials.length = 0 then (false, material)
  else (true, FindMaterial.loop m_objectMaterials tag m_objectMaterials.length 0 material)

/-! ## Procedural meshes (`ShapeMeshes.cpp`) -/

/-- One vertex of the interleaved buffer: position, normal and texture coordinate, the 8 floats
of one `vertices.insert(vertices.end(), { ... })`. -/
structure Vertex (α : Type) where
  position : glm.vec3 α
  normal : glm.vec3 α
  u : α
  v : α
deriving DecidableEq, Repr

/-- The vertex written as the 8 floats x, y, z, nx, ny, nz, u, v. -/
def vtx {α : Type} (x y z nx ny nz u v : α) : Vertex α := ⟨⟨x, y, z⟩, ⟨nx, ny, nz⟩, u, v⟩

/-- The 8 floats of a vertex, in buffer order. -/
def Vertex.floats {α : Type} (w : Vertex α) : List α :=
  [w.position.x, w.position.y, w.position.z, w.normal.x, w.normal.y, w.normal.z, w.u, w.v]

/-- The float array `vertices` holding the given vertices one after the other. -/
def floatBuffer {α : Type} (vs : List (Vertex α)) : List α := vs.flatMap Vertex.floats

/-- What a `Load...Mesh` method leaves behind: the float array uploaded with `glBufferData`
(attribute layout 3 + 3 + 2 floats, stride 8) and the recorded vertex count. -/
structure Mesh (α : Type) where
  vertices : List α
  vertexCount : Nat
deriving DecidableEq, Repr

/-- The vertices read from a float array with stride 8 (the `glVertexAttribPointer` layout). -/
def decodeVertices {α : Type} : List α → List (Vertex α)
  | x :: y :: z :: nx :: ny :: nz :: u :: v :: rest => vtx x y z nx ny nz u v :: decodeVertices rest
  | _ => []

/-- The vertices a `Draw...Mesh` call submits: `glDrawArrays(GL_TRIANGLES, 0, vertexCount)`
reads the first `vertexCount` vertices of the buffer. -/
def Mesh.drawn {α : Type} (m : Mesh α) : List (Vertex α) :=
  (decodeVertices m.vertices).take m.vertexCount

/-- A triangle of a `GL_TRIANGLES` draw: three consecutive vertices A, B, C. -/
structure Triangle (α : Type) where
  A : Vertex α
  B : Vertex α
  C : Vertex α
deriving DecidableEq, Repr

/-- The triangle list assembled from a vertex stream by `GL_TRIANGLES`. -/
def triangles {α : Type} : List (Vertex α) → List (Triangle α)
  | a :: b :: c :: rest => ⟨a, b, c⟩ :: triangles rest
  | _ => []

/-- The triangles a `Draw...Mesh` call renders. -/
def Mesh.triangles {α : Type} (m : Mesh α) : List (Triangle α) := CS330.triangles m.drawn

/-- A mesh whose float buffer has 8 floats per recorded vertex, whose recorded vertex count is
`n` and which renders exactly `t` triangles, `n` being 3 times `t`. -/
def Mesh.HasCount {α : Type} (m : Mesh α) (n t : Nat) : Prop :=
  m.vertices.length = 8 * m.vertexCount ∧ m.vertexCount = n ∧
    m.triangles.length = t ∧ m.vertexCount = 3 * m.triangles.length

/-- The winding vector (B - A) x (C - A) of a triangle. -/
def Triangle.winding {α : Type} [Field α] (t : Triangle α) : glm.vec3 α :=
  glm.cross (t.B.position.sub t.A.position) (t.C.position.sub t.A.position)

/-- A triangle is non-degenerate when its three positions are affinely independent: the
winding vector (B - A) x (C - A) is not the zero vector. -/
def Triangle.NonDegenerate {α : Type} [Field α] (t : Triangle α) : Prop :=
  t.winding ≠ ⟨0, 0, 0⟩

/-- Every triangle the mesh renders is non-degenerate. -/
def Mesh.NonDegenerate {α : Type} [Field α] (m : Mesh α) : Prop :=
  ∀ t, t ∈ m.triangles → t.NonDegenerate

/-- Every normal of the vertices the mesh draws has Euclidean length 1 within 1e-6, over the
reals. -/
def Mesh.NormalsUnit (m : Mesh ℝ) : Prop :=
  ∀ w, w ∈ m.drawn → |glm.length Real.sqrt w.normal - 1| ≤ 0.000001

section Meshes

variable {α : Type} [Field α]

/-- The array `vertices` of `ShapeMeshes::LoadPlaneMesh`. -/
def planeVertices : List (Vertex α) := [
    vtx (-0.5) 0 (-0.5) 0 1 0 0 0,
    vtx 0.5 0 (-0.5) 0 1 0 1 0,
    vtx 0.5 0 0.5 0 1 0 1 1,
    vtx (-0.5) 0 (-0.5) 0 1 0 0 0,
    vtx 0.5 0 0.5 0 1 0 1 1,
    vtx (-0.5) 0 0.5 0 1 0 0 1
  ]

/-- The method `ShapeMeshes::LoadPlaneMesh`: the count is the literal 6. -/
def LoadPlaneMesh : Mesh α := ⟨floatBuffer planeVertices, 6⟩

/-- The loop body of `ShapeMeshes::LoadHollowCylinderMesh` for segment `i`. -/
def hollowCylinderSegment (cosf sinf : α → α) (kPi : α) (segments : Nat) (i : Nat) :
    List (Vertex α) :=
  let height : α := 1
  let halfHeight : α := height * 0.5
  let outerRadius : α := 1
  let innerRadius : α := 0.8
  let u0 : α := (i : α) / (segments : α)
  let u1 : α := ((i + 1 : Nat) : α) / (segments : α)
  let angle0 := u0 * 2 * kPi
  let angle1 := u1 * 2 * kPi
  let c0 := cosf angle0
  let s0 := sinf angle0
  let c1 := cosf angle1
  let s1 := sinf angle1
  -- Outer surface
  let p0x := outerRadius * c0
  let p0z := outerRadius * s0
  let p1x := outerRadius * c1
  let p1z := outerRadius * s1
  let n0 : glm.vec3 α := ⟨c0, 0, s0⟩
  let n1 : glm.vec3 α := ⟨c1, 0, s1⟩
  -- Inner surface (normals inward)
  let ip0x := innerRadius * c0
  let ip0z := innerRadius * s0
  let ip1x := innerRadius * c1
  let ip1z := innerRadius * s1
  let in0 : glm.vec3 α := ⟨-c0, 0, -s0⟩
  let in1 : glm.vec3 α := ⟨-c1, 0, -s1⟩
  [ -- Triangle 1
    vtx p0x (-halfHeight) p0z n0.x n0.y n0.z u0 0,
    vtx p1x (-halfHeight) p1z n1.x n1.y n1.z u1 0,
    vtx p1x halfHeight p1z n1.x n1.y n1.z u1 1,
    -- Triangle 2
    vtx p0x (-halfHeight) p0z n0.x n0.y n0.z u0 0,
    vtx p1x halfHeight p1z n1.x n1.y n1.z u1 1,
    vtx p0x halfHeight p0z n0.x n0.y n0.z u0 1,
    -- Inner surface
    vtx ip0x (-halfHeight) ip0z in0.x in0.y in0.z u0 0,
    vtx ip1x halfHeight ip1z in1.x in1.y in1.z u1 1,
    vtx ip1x (-halfHeight) ip1z in1.x in1.y in1.z u1 0,
    vtx ip0x (-halfHeight) ip0z in0.x in0.y in0.z u0 0,
    vtx ip0x halfHeight ip0z in0.x in0.y in0.z u0 1,
    vtx ip1x halfHeight ip1z in1.x in1.y in1.z u1 1 ]

/-- The vertices `ShapeMeshes::LoadHollowCylinderMesh` appends, `segments = 64`. -/
def hollowCylinderVertices (cosf sinf : α → α) (kPi : α) : List (Vertex α) :=
  let segments : Nat := 64
  (List.range segments).flatMap (hollowCylinderSegment cosf sinf kPi segments)

/-- The method `ShapeMeshes::LoadHollowCylinderMesh`. -/
def LoadHollowCylinderMesh (cosf sinf : α → α) (kPi : α) : Mesh α :=
  let vertices := floatBuffer (hollowCylinderVertices cosf sinf kPi)
  ⟨vertices, vertices.length / 8⟩

/-- The lambda `makeVertex` of `ShapeMeshes::LoadTorusMesh`. -/
def torusMakeVertex (cosf sinf sqrtf : α → α) (u v angleU angleV : α) : Vertex α :=
  let majorRadius : α := 0.9
  let minorRadius : α := 0.15
  let cosU := cosf angleU
  let sinU := sinf angleU
  let cosV := cosf angleV
  let sinV := sinf angleV
  let x := (majorRadius + minorRadius * cosV) * cosU
  let y := minorRadius * sinV
  let z := (majorRadius + minorRadius * cosV) * sinU
  let normal := glm.normalize sqrtf ⟨cosU * cosV, sinV, sinU * cosV⟩
  vtx x y z normal.x normal.y normal.z u v

/-- The inner loop body of `ShapeMeshes::LoadTorusMesh` for major segment `i`, minor
segment `j`. -/
def torusQuad (cosf sinf sqrtf : α → α) (kPi : α) (majorSegments minorSegments : Nat)
    (i j : Nat) : List (Vertex α) :=
  let u0 : α := (i : α) / (majorSegments : α)
  let u1 : α := ((i + 1 : Nat) : α) / (majorSegments : α)
  let angle0 := u0 * 2 * kPi
  let angle1 := u1 * 2 * kPi
  let v0 : α := (j : α) / (minorSegments : α)
  let v1 : α := ((j + 1 : Nat) : α) / (minorSegments : α)
  let angleV0 := v0 * 2 * kPi
  let angleV1 := v1 * 2 * kPi
  let makeVertex := torusMakeVertex cosf sinf sqrtf
  [ -- Triangle 1
    makeVertex u0 v0 angle0 angleV0,
    makeVertex u1 v0 angle1 angleV0,
    makeVertex u1 v1 angle1 angleV1,
    -- Triangle 2
    makeVertex u0 v0 angle0 angleV0,
    makeVertex u1 v1 angle1 angleV1,
    makeVertex u0 v1 angle0 angleV1 ]

/-- The vertices `ShapeMeshes::LoadTorusMesh` appends: major segments `majorStart = 0` up to
`majorEnd = majorSegments / 2` (half a torus), all minor segments. -/
def torusVertices (cosf sinf sqrtf : α → α) (kPi : α) : List (Vertex α) :=
  let majorSegments : Nat := 64
  let minorSegments : Nat := 24
  let majorEnd : Nat := majorSegments / 2
  (List.range majorEnd).flatMap fun i =>
    (List.range minorSegments).flatMap fun j =>
      torusQuad cosf sinf sqrtf kPi majorSegments minorSegments i j

/-- The method `ShapeMeshes::LoadTorusMesh`. -/
def LoadTorusMesh (cosf sinf sqrtf : α → α) (kPi : α) : Mesh α :=
  let vertices := floatBuffer (torusVertices cosf sinf sqrtf kPi)
  ⟨vertices, vertices.length / 8⟩

/-- The lambda `makeVertex` of `ShapeMeshes::LoadFlatSphereMesh`. -/
def flatSphereMakeVertex (cosf sinf sqrtf : α → α) (u v theta phi : α) : Vertex α :=
  let radius : α := 0.5
  let sinTheta := sinf theta
  let cosTheta := cosf theta
  let sinPhi := sinf phi
  let cosPhi := cosf phi
  let x := radius * sinTheta * cosPhi
  let y := radius * cosTheta
  let z := radius * sinTheta * sinPhi
  let normal := glm.normalize sqrtf ⟨x, y, z⟩
  vtx x y z normal.x normal.y normal.z u v

/-- The inner loop body of `ShapeMeshes::LoadFlatSphereMesh` for latitude band `i`,
longitude segment `j`. -/
def flatSphereQuad (cosf sinf sqrtf : α → α) (kPi : α)
    (latitudeSegments longitudeSegments : Nat) (i j : Nat) : List (Vertex α) :=
  let v0 : α := (i : α) / (latitudeSegments : α)
  let v1 : α := ((i + 1 : Nat) : α) / (latitudeSegments : α)
  let theta0 := v0 * kPi
  let theta1 := v1 * kPi
  let u0 : α := (j : α) / (longitudeSegments : α)
  let u1 : α := ((j + 1 : Nat) : α) / (longitudeSegments : α)
  let phi0 := u0 * 2 * kPi
  let phi1 := u1 * 2 * kPi
  let makeVertex := flatSphereMakeVertex cosf sinf sqrtf
  [ -- Triangle 1
    makeVertex u0 v0 theta0 phi0,
    makeVertex u1 v0 theta0 phi1,
    makeVertex u1 v1 theta1 phi1,
    -- Triangle 2
    makeVertex u0 v0 theta0 phi0,
    makeVertex u1 v1 theta1 phi1,
    makeVertex u0 v1 theta1 phi0 ]

/-- The vertices `ShapeMeshes::LoadFlatSphereMesh` appends. -/
def flatSphereVertices (cosf sinf sqrtf : α → α) (kPi : α) : List (Vertex α) :=
  let latitudeSegments : Nat := 24
  let longitudeSegments : Nat := 48
  (List.range latitudeSegments).flatMap fun i =>
    (List.range longitudeSegments).flatMap fun j =>
      flatSphereQuad cosf sinf sqrtf kPi latitudeSegments longitudeSegments i j

/-- The method `ShapeMeshes::LoadFlatSphereMesh`. -/
def LoadFlatSphereMesh (cosf sinf sqrtf : α → α) (kPi : α) : Mesh α :=
  let vertices := floatBuffer (flatSphereVertices cosf sinf sqrtf kPi)
  ⟨vertices, vertices.length / 8⟩

/-- The array `vertices` of `ShapeMeshes::LoadWedgeMesh`. -/
def wedgeVertices : List (Vertex α) :=
  let slopeNormalY : α := 0.70710678
  let slopeNormalZ : α := -0.70710678
  [
    -- Bottom face (y = 0)
    vtx (-0.5) 0 (-0.5) 0 (-1) 0 0 0,
    vtx 0.5 0 (-0.5) 0 (-1) 0 1 0,
    vtx 0.5 0 0.5 0 (-1) 0 1 1,
    vtx (-0.5) 0 (-0.5) 0 (-1) 0 0 0,
    vtx 0.5 0 0.5 0 (-1) 0 1 1,
    vtx (-0.5) 0 0.5 0 (-1) 0 0 1,
    -- Top sloped face
    vtx (-0.5) 0 (-0.5) 0 slopeNormalY slopeNormalZ 0 0,
    vtx 0.5 0 (-0.5) 0 slopeNormalY slopeNormalZ 1 0,
    vtx 0.5 1 0.5 0 slopeNormalY slopeNormalZ 1 1,
    vtx (-0.5) 0 (-0.5) 0 slopeNormalY slopeNormalZ 0 0,
    vtx 0.5 1 0.5 0 slopeNormalY slopeNormalZ 1 1,
    vtx (-0.5) 1 0.5 0 slopeNormalY slopeNormalZ 0 1,
    -- Back face (z = 0.5)
    vtx (-0.5) 0 0.5 0 0 1 0 0,
    vtx 0.5 0 0.5 0 0 1 1 0,
    vtx 0.5 1 0.5 0 0 1 1 1,
    vtx (-0.5) 0 0.5 0 0 1 0 0,
    vtx 0.5 1 0.5 0 0 1 1 1,
    vtx (-0.5) 1 0.5 0 0 1 0 1,
    -- Left face (x = -0.5)
    vtx (-0.5) 0 (-0.5) (-1) 0 0 0 0,
    vtx (-0.5) 0 0.5 (-1) 0 0 1 0,
    vtx (-0.5) 1 0.5 (-1) 0 0 1 1,
    -- Right face (x = 0.5)
    vtx 0.5 0 (-0.5) 1 0 0 0 0,
    vtx 0.5 1 0.5 1 0 0 1 1,
    vtx 0.5 0 0.5 1 0 0 1 0
  ]

/-- The method `ShapeMeshes::LoadWedgeMesh`: the count is `sizeof(vertices) / (8 * sizeof(float))`. -/
def LoadWedgeMesh : Mesh α :=
  let vertices := floatBuffer (wedgeVertices : List (Vertex α))
  ⟨vertices, (vertices.length * 4) / (8 * 4)⟩

/-- The array `vertices` of `ShapeMeshes::LoadBoxMesh`. -/
def boxVertices : List (Vertex α) := [
    -- Front face (+Z)
    vtx (-0.5) (-0.5) 0.5 0 0 1 0 0,
    vtx 0.5 (-0.5) 0.5 0 0 1 1 0,
    vtx 0.5 0.5 0.5 0 0 1 1 1,
    vtx (-0.5) (-0.5) 0.5 0 0 1 0 0,
    vtx 0.5 0.5 0.5 0 0 1 1 1,
    vtx (-0.5) 0.5 0.5 0 0 1 0 1,
    -- Back face (-Z)
    vtx 0.5 (-0.5) (-0.5) 0 0 (-1) 0 0,
    vtx (-0.5) (-0.5) (-0.5) 0 0 (-1) 1 0,
    vtx (-0.5) 0.5 (-0.5) 0 0 (-1) 1 1,
    vtx 0.5 (-0.5) (-0.5) 0 0 (-1) 0 0,
    vtx (-0.5) 0.5 (-0.5) 0 0 (-1) 1 1,
    vtx 0.5 0.5 (-0.5) 0 0 (-1) 0 1,
    -- Left face (-X)
    vtx (-0.5) (-0.5) (-0.5) (-1) 0 0 0 0,
    vtx (-0.5) (-0.5) 0.5 (-1) 0 0 1 0,
    vtx (-0.5) 0.5 0.5 (-1) 0 0 1 1,
    vtx (-0.5) (-0.5) (-0.5) (-1) 0 0 0 0,
    vtx (-0.5) 0.5 0.5 (-1) 0 0 1 1,
    vtx (-0.5) 0.5 (-0.5) (-1) 0 0 0 1,
    -- Right face (+X)
    vtx 0.5 (-0.5) 0.5 1 0 0 0 0,
    vtx 0.5 (-0.5) (-0.5) 1 0 0 1 0,
    vtx 0.5 0.5 (-0.5) 1 0 0 1 1,
    vtx 0.5 (-0.5) 0.5 1 0 0 0 0,
    vtx 0.5 0.5 (-0.5) 1 0 0 1 1,
    vtx 0.5 0.5 0.5 1 0 0 0 1,
    -- Top face (+Y)
    vtx (-0.5) 0.5 0.5 0 1 0 0 0,
    vtx 0.5 0.5 0.5 0 1 0 1 0,
    vtx 0.5 0.5 (-0.5) 0 1 0 1 1,
    vtx (-0.5) 0.5 0.5 0 1 0 0 0,
    vtx 0.5 0.5 (-0.5) 0 1 0 1 1,
    vtx (-0.5) 0.5 (-0.5) 0 1 0 0 1,
    -- Bottom face (-Y)
    vtx (-0.5) (-0.5) (-0.5) 0 (-1) 0 0 0,
    vtx 0.5 (-0.5) (-0.5) 0 (-1) 0 1 0,
    vtx 0.5 (-0.5) 0.5 0 (-1) 0 1 1,
    vtx (-0.5) (-0.5) (-0.5) 0 (-1) 0 0 0,
    vtx 0.5 (-0.5) 0.5 0 (-1) 0 1 1,
    vtx (-0.5) (-0.5) 0.5 0 (-1) 0 0 1
  ]

/-- The method `ShapeMeshes::LoadBoxMesh`: the count is `sizeof(vertices) / (8 * sizeof(float))`. -/
def LoadBoxMesh : Mesh α :=
  let vertices := floatBuffer (boxVertices : List (Vertex α))
  ⟨vertices, (vertices.length * 4) / (8 * 4)⟩

/-- The loop body of `ShapeMeshes::LoadCylinderMesh` for segment `i`. -/
def cylinderSegment (cosf sinf : α → α) (kPi : α) (segments : Nat) (i : Nat) :
    List (Vertex α) :=
  let radius : α := 0.5
  let halfLength : α := 0.5
  let u0 : α := (i : α) / (segments : α)
  let u1 : α := ((i + 1 : Nat) : α) / (segments : α)
  let angle0 := u0 * 2 * kPi
  let angle1 := u1 * 2 * kPi
  let y0 := radius * cosf angle0
  let z0 := radius * sinf angle0
  let y1 := radius * cosf angle1
  let z1 := radius * sinf angle1
  let n0 : glm.vec3 α := ⟨0, cosf angle0, sinf angle0⟩
  let n1 : glm.vec3 α := ⟨0, cosf angle1, sinf angle1⟩
  [ -- Triangle 1
    vtx (-halfLength) y0 z0 n0.x n0.y n0.z u0 0,
    vtx halfLength y0 z0 n0.x n0.y n0.z u0 1,
    vtx halfLength y1 z1 n1.x n1.y n1.z u1 1,
    -- Triangle 2
    vtx (-halfLength) y0 z0 n0.x n0.y n0.z u0 0,
    vtx halfLength y1 z1 n1.x n1.y n1.z u1 1,
    vtx (-halfLength) y1 z1 n1.x n1.y n1.z u1 0 ]

/-- The vertices `ShapeMeshes::LoadCylinderMesh` appends, `segments = 64`. -/
def cylinderVertices (cosf sinf : α → α) (kPi : α) : List (Vertex α) :=
  let segments : Nat := 64
  (List.range segments).flatMap (cylinderSegment cosf sinf kPi segments)

/-- The method `ShapeMeshes::LoadCylinderMesh`. -/
def LoadCylinderMesh (cosf sinf : α → α) (kPi : α) : Mesh α :=
  let vertices := floatBuffer (cylinderVertices cosf sinf kPi)
  ⟨vertices, vertices.length / 8⟩

/-- The lambda `makeVertex` of `ShapeMeshes::LoadHemisphereMesh`. -/
def hemisphereMakeVertex (cosf sinf sqrtf : α → α) (u v phi theta : α) : Vertex α :=
  let radius : α := 0.5
  let cosPhi := cosf phi
  let sinPhi := sinf phi
  let cosTheta := cosf theta
  let sinTheta := sinf theta
  let x := radius * cosPhi
  let y := radius * sinPhi * cosTheta
  let z := radius * sinPhi * sinTheta
  let normal := glm.normalize sqrtf ⟨x, y, z⟩
  vtx x y z normal.x normal.y normal.z u v

/-- The inner loop body of `ShapeMeshes::LoadHemisphereMesh` for latitude band `i`,
longitude segment `j`. -/
def hemisphereQuad (cosf sinf sqrtf : α → α) (kPi : α)
    (latitudeSegments longitudeSegments : Nat) (i j : Nat) : List (Vertex α) :=
  let v0 : α := (i : α) / (latitudeSegments : α)
  let v1 : α := ((i + 1 : Nat) : α) / (latitudeSegments : α)
  let phi0 := v0 * (kPi * 0.5)
  let phi1 := v1 * (kPi * 0.5)
  let u0 : α := (j : α) / (longitudeSegments : α)
  let u1 : α := ((j + 1 : Nat) : α) / (longitudeSegments : α)
  let theta0 := u0 * 2 * kPi
  let theta1 := u1 * 2 * kPi
  let makeVertex := hemisphereMakeVertex cosf sinf sqrtf
  [ -- Triangle 1
    makeVertex u0 v0 phi0 theta0,
    makeVertex u1 v0 phi0 theta1,
    makeVertex u1 v1 phi1 theta1,
    -- Triangle 2
    makeVertex u0 v0 phi0 theta0,
    makeVertex u1 v1 phi1 theta1,
    makeVertex u0 v1 phi1 theta0 ]

/-- The vertices `ShapeMeshes::LoadHemisphereMesh` appends. -/
def hemisphereVertices (cosf sinf sqrtf : α → α) (kPi : α) : List (Vertex α) :=
  let latitudeSegments : Nat := 16
  let longitudeSegments : Nat := 48
  (List.range latitudeSegments).flatMap fun i =>
    (List.range longitudeSegments).flatMap fun j =>
      hemisphereQuad cosf sinf sqrtf kPi latitudeSegments longitudeSegments i j

/-- The method `ShapeMeshes::LoadHemisphereMesh`. -/
def LoadHemisphereMesh (cosf sinf sqrtf : α → α) (kPi : α) : Mesh α :=
  let vertices := floatBuffer (hemisphereVertices cosf sinf sqrtf kPi)
  ⟨vertices, vertices.length / 8⟩

/-- The element `ring[i]` of `ShapeMeshes::LoadPentagonalPrismMesh`, as its first loop
computes it. -/
def prismRing (cosf sinf : α → α) (kPi : α) (i : Nat) : glm.vec3 α :=
  let radius : α := 0.5
  let angle := glm.radians kPi (90 - (i : α) * 72)
  ⟨radius * cosf angle, 0, radius * sinf angle⟩

/-- The body of the side-face loop of `ShapeMeshes::LoadPentagonalPrismMesh`. -/
def prismSide (cosf sinf sqrtf : α → α) (kPi : α) (sides : Nat) (i : Nat) : List (Vertex α) :=
  let halfHeight : α := 0.5
  let next := (i + 1) % sides
  let p0 := prismRing cosf sinf kPi i
  let p1 := prismRing cosf sinf kPi next
  let normal := glm.normalize sqrtf ⟨p0.z - p1.z, 0, p1.x - p0.x⟩
  let v00 : glm.vec3 α := ⟨p0.x, -halfHeight, p0.z⟩
  let v01 : glm.vec3 α := ⟨p1.x, -halfHeight, p1.z⟩
  let v10 : glm.vec3 α := ⟨p0.x, halfHeight, p0.z⟩
  let v11 : glm.vec3 α := ⟨p1.x, halfHeight, p1.z⟩
  let u0 : α := (i : α) / (sides : α)
  let u1 : α := ((i + 1 : Nat) : α) / (sides : α)
  [ -- Triangle 1
    vtx v00.x v00.y v00.z normal.x normal.y normal.z u0 0,
    vtx v11.x v11.y v11.z normal.x normal.y normal.z u1 1,
    vtx v10.x v10.y v10.z normal.x normal.y normal.z u0 1,
    -- Triangle 2
    vtx v00.x v00.y v00.z normal.x normal.y normal.z u0 0,
    vtx v01.x v01.y v01.z normal.x normal.y normal.z u1 0,
    vtx v11.x v11.y v11.z normal.x normal.y normal.z u1 1 ]

/-- The body of the top-cap loop of `ShapeMeshes::LoadPentagonalPrismMesh`. -/
def prismTop (cosf sinf : α → α) (kPi : α) (sides : Nat) (i : Nat) : List (Vertex α) :=
  let radius : α := 0.5
  let halfHeight : α := 0.5
  let topCenter : glm.vec3 α := ⟨0, halfHeight, 0⟩
  let topNormal : glm.vec3 α := ⟨0, 1, 0⟩
  let next := (i + 1) % sides
  let p0 := prismRing cosf sinf kPi i
  let p1 := prismRing cosf sinf kPi next
  let u0 := (p0.x / radius + 1) * 0.5
  let v0 := (p0.z / radius + 1) * 0.5
  let u1 := (p1.x / radius + 1) * 0.5
  let v1 := (p1.z / radius + 1) * 0.5
  [ vtx topCenter.x topCenter.y topCenter.z topNormal.x topNormal.y topNormal.z 0.5 0.5,
    vtx p0.x halfHeight p0.z topNormal.x topNormal.y topNormal.z u0 v0,
    vtx p1.x halfHeight p1.z topNormal.x topNormal.y topNormal.z u1 v1 ]

/-- The body of the bottom-cap loop of `ShapeMeshes::LoadPentagonalPrismMesh`. -/
def prismBottom (cosf sinf : α → α) (kPi : α) (sides : Nat) (i : Nat) : List (Vertex α) :=
  let radius : α := 0.5
  let halfHeight : α := 0.5
  let bottomCenter : glm.vec3 α := ⟨0, -halfHeight, 0⟩
  let bottomNormal : glm.vec3 α := ⟨0, -1, 0⟩
  let next := (i + 1) % sides
  let p0 := prismRing cosf sinf kPi i
  let p1 := prismRing cosf sinf kPi next
  let u0 := (p0.x / radius + 1) * 0.5
  let v0 := (p0.z / radius + 1) * 0.5
  let u1 := (p1.x / radius + 1) * 0.5
  let v1 := (p1.z / radius + 1) * 0.5
  [ vtx bottomCenter.x bottomCenter.y bottomCenter.z bottomNormal.x bottomNormal.y
      bottomNormal.z 0.5 0.5,
    vtx p1.x (-halfHeight) p1.z bottomNormal.x bottomNormal.y bottomNormal.z u1 v1,
    vtx p0.x (-halfHeight) p0.z bottomNormal.x bottomNormal.y bottomNormal.z u0 v0 ]

/-- The vertices `ShapeMeshes::LoadPentagonalPrismMesh` appends: side faces, top cap, bottom
cap, `sides = 5`. -/
def pentagonalPrismVertices (cosf sinf sqrtf : α → α) (kPi : α) : List (Vertex α) :=
  let sides : Nat := 5
  (List.range sides).flatMap (prismSide cosf sinf sqrtf kPi sides)
    ++ (List.range sides).flatMap (prismTop cosf sinf kPi sides)
    ++ (List.range sides).flatMap (prismBottom cosf sinf kPi sides)

/-- The method `ShapeMeshes::LoadPentagonalPrismMesh`. -/
def LoadPentagonalPrismMesh (cosf sinf sqrtf : α → α) (kPi : α) : Mesh α :=
  let vertices := floatBuffer (pentagonalPrismVertices cosf sinf sqrtf kPi)
  ⟨vertices, vertices.length / 8⟩

end Meshes

/-! ## Texture units and texture names of the graphics device -/

/-- The texture-unit state of the graphics device: the unit selected by `glActiveTexture` and
the GL_TEXTURE_2D binding of every unit (0 is no texture). -/
structure TextureUnits where
  activeTexture : Nat
  binding : Nat → Nat

/-- The device calls `BindGLTextures` issues: `glActiveTexture(GL_TEXTURE0 + unit)` and
`glBindTexture(GL_TEXTURE_2D, texture)`. -/
inductive TexCommand where
  | glActiveTexture (unit : Nat)
  | glBindTexture (texture : Nat)
deriving DecidableEq, Repr

/-- The effect of one call on the texture units: `glActiveTexture` selects a unit,
`glBindTexture` binds the texture to the selected unit. -/
def TextureUnits.exec (d : TextureUnits) : TexCommand → TextureUnits
  | .glActiveTexture unit => { d with activeTexture := unit }
  | .glBindTexture texture =>
    { d with binding := fun i => if i = d.activeTexture then texture else d.binding i }

/-- The effect of a sequence of calls on the texture units. -/
def TextureUnits.run (d : TextureUnits) (cmds : List TexCommand) : TextureUnits :=
  cmds.foldl TextureUnits.exec d

/-- The (texture unit, handle) bindings a sequence of calls makes, in order, when it starts
with `active` as the selected unit. -/
def TexCommand.bindings : List TexCommand → Nat → List (Nat × Nat)
  | [], _ => []
  | .glActiveTexture unit :: rest, _ => TexCommand.bindings rest unit
  | .glBindTexture texture :: rest, active =>
    (active, texture) :: TexCommand.bindings rest active

/-- The device calls of the method `SceneManager::BindGLTextures`: its loop body for every
`i` from 0 up to `m_loadedTextures - 1`. -/
def BindGLTextures.commands (s : SceneManager) : List TexCommand :=
  (List.range s.m_loadedTextures).flatMap fun i =>
    [TexCommand.glActiveTexture i, TexCommand.glBindTexture (s.entry i).ID]

/-- The method `SceneManager::BindGLTextures`: the object after the call (no member is
assigned) and the texture units after its device calls. -/
def BindGLTextures (s : SceneManager) (d : TextureUnits) : SceneManager × TextureUnits :=
  (s, d.run (BindGLTextures.commands s))

/-- The loop of `SceneManager::DestroyGLTextures` from `index` on: each iteration calls
`glGenTextures(1, &m_textureIDs[index].ID)`, which makes the device hand out a texture name
(`glGenTextures live` for the names `live` in use), marks it in use and stores it in the
entry. `fuel` bounds the number of iterations. -/
def DestroyGLTextures.loop (glGenTextures : List Nat → Nat) :
    Nat → Nat → SceneManager → List Nat → SceneManager × List Nat
  | 0, _, s, live => (s, live)
  | fuel + 1, index, s, live =>
    if index < s.m_loadedTextures then
      let name := glGenTextures live
      DestroyGLTextures.loop glGenTextures fuel (index + 1)
        { s with m_textureIDs := s.m_textureIDs.set index { s.entry index with ID := name } }
        (live ++ [name])
    else (s, live)

/-- The method `SceneManager::DestroyGLTextures`, acting on the registry and on the texture
names in use on the device; `glGenTextures live` is the name the device generates when the
names `live` are in use. -/
def DestroyGLTextures (glGenTextures : List Nat → Nat) (s : SceneManager) (live : List Nat) :
    SceneManager × List Nat :=
  DestroyGLTextures.loop glGenTextures s.m_loadedTextures 0 s live

/-! ## Shader program facade (`ShaderManager.cpp`) -/

/-- The GLM type `glm::vec4`. -/
structure glm.vec4 (α : Type) where
  x : α
  y : α
  z : α
  w : α
deriving DecidableEq, Repr

/-- The GLM type `glm::vec2`. -/
structure glm.vec2 (α : Type) where
  x : α
  y : α
deriving DecidableEq, Repr

/-- A value held by a uniform variable of the program, by the device call that wrote it. -/
inductive UniformValue (α : Type) where
  | mat4 (value : glm.mat4 α)
  | vec4 (value : glm.vec4 α)
  | vec3 (value : glm.vec3 α)
  | vec2 (value : glm.vec2 α)
  | float (value : α)
  | int (value : Int)

/-- The uniform variables of the program on the device, by location: `none` where nothing was
written. -/
abbrev Uniforms (α : Type) := Int → Option (UniformValue α)

/-- The device call `glUniformMatrix4fv(location, 1, GL_FALSE, value)`. -/
def glUniformMatrix4fv {α : Type} (location : Int) (value : glm.mat4 α) (u : Uniforms α) :
    Uniforms α :=
  Function.update u location (some (UniformValue.mat4 value))

/-- The device call `glUniform4fv(location, 1, value)`. -/
def glUniform4fv {α : Type} (location : Int) (value : glm.vec4 α) (u : Uniforms α) :
    Uniforms α :=
  Function.update u location (some (UniformValue.vec4 value))

/-- The device call `glUniform3fv(location, 1, value)`. -/
def glUniform3fv {α : Type} (location : Int) (value : glm.vec3 α) (u : Uniforms α) :
    Uniforms α :=
  Function.update u location (some (UniformValue.vec3 value))

/-- The device call `glUniform2fv(location, 1, value)`. -/
def glUniform2fv {α : Type} (location : Int) (value : glm.vec2 α) (u : Uniforms α) :
    Uniforms α :=
  Function.update u location (some (UniformValue.vec2 value))

/-- The device call `glUniform1f(location, value)`. -/
def glUniform1f {α : Type} (location : Int) (value : α) (u : Uniforms α) : Uniforms α :=
  Function.update u location (some (UniformValue.float value))

/-- The device call `glUniform1i(location, value)`. -/
def glUniform1i {α : Type} (location : Int) (value : Int) (u : Uniforms α) : Uniforms α :=
  Function.update u location (some (UniformValue.int value))

/-- The member of class ShaderManager (`ShaderManager.h`). -/
structure ShaderManager where
  m_programId : Nat
deriving DecidableEq, Repr

section Setters

variable {α : Type} (glGetUniformLocation : Nat → String → Int)

/-- The method `ShaderManager::setMat4Value`; `glGetUniformLocation program name` is the
location the device reports. -/
def ShaderManager.setMat4Value (sm : ShaderManager) (name : String) (value : glm.mat4 α)
    (u : Uniforms α) : Uniforms α :=
  let location := glGetUniformLocation sm.m_programId name
  if location ≥ 0 then glUniformMatrix4fv location value u else u

/-- The method `ShaderManager::setVec4Value`. -/
def ShaderManager.setVec4Value (sm : ShaderManager) (name : String) (value : glm.vec4 α)
    (u : Uniforms α) : Uniforms α :=
  let location := glGetUniformLocation sm.m_programId name
  if location ≥ 0 then glUniform4fv location value u else u

/-- The method `ShaderManager::setVec3Value`. -/
def ShaderManager.setVec3Value (sm : ShaderManager) (name : String) (value : glm.vec3 α)
    (u : Uniforms α) : Uniforms α :=
  let location := glGetUniformLocation sm.m_programId name
  if location ≥ 0 then glUniform3fv location value u else u

/-- The method `ShaderManager::setVec2Value`. -/
def ShaderManager.setVec2Value (sm : ShaderManager) (name : String) (value : glm.vec2 α)
    (u : Uniforms α) : Uniforms α :=
  let location := glGetUniformLocation sm.m_programId name
  if location ≥ 0 then glUniform2fv location value u else u

/-- The method `ShaderManager::setFloatValue`. -/
def ShaderManager.setFloatValue (sm : ShaderManager) (name : String) (value : α)
    (u : Uniforms α) : Uniforms α :=
  let location := glGetUniformLocation sm.m_programId name
  if location ≥ 0 then glUniform1f location value u else u

/-- The method `ShaderManager::setIntValue`. -/
def ShaderManager.setIntValue (sm : ShaderManager) (name : String) (value : Int)
    (u : Uniforms α) : Uniforms α :=
  let location := glGetUniformLocation sm.m_programId name
  if location ≥ 0 then glUniform1i location value u else u

/-- The method `ShaderManager::setSampler2DValue`. -/
def ShaderManager.setSampler2DValue (sm : ShaderManager) (name : String) (value : Int)
    (u : Uniforms α) : Uniforms α :=
  let location := glGetUniformLocation sm.m_programId name
  if location ≥ 0 then glUniform1i location value u else u

end Setters

/-- A call of one of the uniform setters of the shader manager, with its arguments. -/
inductive ShaderCall (α : Type) where
  | setMat4Value (name : String) (value : glm.mat4 α)
  | setVec4Value (name : String) (value : glm.vec4 α)
  | setVec3Value (name : String) (value : glm.vec3 α)
  | setVec2Value (name : String) (value : glm.vec2 α)
  | setFloatValue (name : String) (value : α)
  | setIntValue (name : String) (value : Int)
  | setSampler2DValue (name : String) (value : Int)

/-- The uniform name a setter call is given. -/
def ShaderCall.name {α : Type} : ShaderCall α → String
  | .setMat4Value name _ => name
  | .setVec4Value name _ => name
  | .setVec3Value name _ => name
  | .setVec2Value name _ => name
  | .setFloatValue name _ => name
  | .setIntValue name _ => name
  | .setSampler2DValue name _ => name

/-- The value a setter call passes to the device. -/
def ShaderCall.value {α : Type} : ShaderCall α → UniformValue α
  | .setMat4Value _ value => UniformValue.mat4 value
  | .setVec4Value _ value => UniformValue.vec4 value
  | .setVec3Value _ value => UniformValue.vec3 value
  | .setVec2Value _ value => UniformValue.vec2 value
  | .setFloatValue _ value => UniformValue.float value
  | .setIntValue _ value => UniformValue.int value
  | .setSampler2DValue _ value => UniformValue.int value

/-- The effect of a setter call on the uniforms. -/
def ShaderManager.call {α : Type} (glGetUniformLocation : Nat → String → Int)
    (sm : ShaderManager) : ShaderCall α → Uniforms α → Uniforms α
  | .setMat4Value name value => sm.setMat4Value glGetUniformLocation name value
  | .setVec4Value name value => sm.setVec4Value glGetUniformLocation name value
  | .setVec3Value name value => sm.setVec3Value glGetUniformLocation name value
  | .setVec2Value name value => sm.setVec2Value glGetUniformLocation name value
  | .setFloatValue name value => sm.setFloatValue glGetUniformLocation name value
  | .setIntValue name value => sm.setIntValue glGetUniformLocation name value
  | .setSampler2DValue name value => sm.setSampler2DValue glGetUniformLocation name value

/-- The effect of a sequence of setter calls on the uniforms. -/
def ShaderManager.run {α : Type} (glGetUniformLocation : Nat → String → Int)
    (sm : ShaderManager) (calls : List (ShaderCall α)) (u : Uniforms α) : Uniforms α :=
  calls.foldl (fun u c => sm.call glGetUniformLocation c u) u

/-! ## Shader state set by the scene manager (`SceneManager.cpp`) -/

/-- The global `g_ModelName`. -/
def g_ModelName : String := "model"

/-- The global `g_ColorValueName`. -/
def g_ColorValueName : String := "objectColor"

/-- The global `g_TextureValueName`. -/
def g_TextureValueName : String := "objectTexture"

/-- The global `g_UseTextureName`. -/
def g_UseTextureName : String := "bUseTexture"

/-- The global `g_UseLightingName`. -/
def g_UseLightingName : String := "bUseLighting"

/-- The setter calls of the method `SceneManager::SetTransformations`: the model matrix is
passed to `setMat4Value` when the shader manager is not NULL. -/
def SetTransformations.calls {α : Type} [Field α] (cosf sinf sqrtf : α → α) (kPi : α)
    (m_pShaderManager : Option ShaderManager)
    (scaleXYZ : glm.vec3 α) (XrotationDegrees YrotationDegrees ZrotationDegrees : α)
    (positionXYZ : glm.vec3 α) (offset : glm.vec3 α) : List (ShaderCall α) :=
  let model := SetTransformations cosf sinf sqrtf kPi scaleXYZ XrotationDegrees
    YrotationDegrees ZrotationDegrees positionXYZ offset
  match m_pShaderManager with
  | some _ => [ShaderCall.setMat4Value g_ModelName model]
  | none => []

/-- The setter calls of the method `SceneManager::SetShaderColor` (`false` is passed as the
int 0). -/
def SetShaderColor {α : Type} (m_pShaderManager : Option ShaderManager)
    (redColorValue greenColorValue blueColorValue alphaValue : α) : List (ShaderCall α) :=
  let currentColor : glm.vec4 α := ⟨redColorValue, greenColorValue, blueColorValue, alphaValue⟩
  match m_pShaderManager with
  | some _ =>
    [ShaderCall.setIntValue g_UseTextureName 0,
     ShaderCall.setVec4Value g_ColorValueName currentColor]
  | none => []

/-- The setter calls of the method `SceneManager::SetShaderTexture` (`true` is passed as the
int 1). -/
def SetShaderTexture {α : Type} (m_pShaderManager : Option ShaderManager)
    (textureTag : String) (s : SceneManager) : List (ShaderCall α) :=
  match m_pShaderManager with
  | some _ =>
    let textureID := FindTextureSlot textureTag s
    [ShaderCall.setIntValue g_UseTextureName 1,
     ShaderCall.setSampler2DValue g_TextureValueName textureID]
  | none => []

/-- The setter calls of the method `SceneManager::SetTextureUVScale`. -/
def SetTextureUVScale {α : Type} (m_pShaderManager : Option ShaderManager) (u v : α) :
    List (ShaderCall α) :=
  match m_pShaderManager with
  | some _ => [ShaderCall.setVec2Value "UVscale" ⟨u, v⟩]
  | none => []

/-! ## Rotations about the coordinate axes, as the specification words them -/

/-- Spec-side definition: the rotation of a point about the X axis by `angle` radians. -/
def specRotateX {α : Type} [Field α] (cosf sinf : α → α) (angle : α) (p : glm.vec3 α) :
    glm.vec3 α :=
  ⟨p.x, cosf angle * p.y - sinf angle * p.z, sinf angle * p.y + cosf angle * p.z⟩

/-- Spec-side definition: the rotation of a point about the Y axis by `angle` radians. -/
def specRotateY {α : Type} [Field α] (cosf sinf : α → α) (angle : α) (p : glm.vec3 α) :
    glm.vec3 α :=
  ⟨cosf angle * p.x + sinf angle * p.z, p.y, cosf angle * p.z - sinf angle * p.x⟩

/-- Spec-side definition: the rotation of a point about the Z axis by `angle` radians. -/
def specRotateZ {α : Type} [Field α] (cosf sinf : α → α) (angle : α) (p : glm.vec3 α) :
    glm.vec3 α :=
  ⟨cosf angle * p.x - sinf angle * p.y, sinf angle * p.x + cosf angle * p.y, p.z⟩

/-- Spec-side definition: the componentwise product of the scale and a point. -/
def specScale {α : Type} [Field α] (scale p : glm.vec3 α) : glm.vec3 α :=
  ⟨scale.x * p.x, scale.y * p.y, scale.z * p.z⟩

/-- Spec-side definition: scale first, then rotate about X, then Y, then Z (angles in
degrees), then translate by position + offset. -/
def specModel {α : Type} [Field α] (cosf sinf : α → α) (kPi : α) (scale : glm.vec3 α)
    (xDegrees yDegrees zDegrees : α) (position offset p : glm.vec3 α) : glm.vec3 α :=
  (position.add offset).add
    (specRotateZ cosf sinf (glm.radians kPi zDegrees)
      (specRotateY cosf sinf (glm.radians kPi yDegrees)
        (specRotateX cosf sinf (glm.radians kPi xDegrees) (specScale scale p))))

/-! ## Loading the shader program (`ShaderManager.cpp`) -/

/-- The shader objects and program objects that exist on the device. -/
structure ShaderObjects where
  shaders : List Nat
  programs : List Nat
deriving DecidableEq, Repr

/-- The device call `glDeleteShader`. -/
def glDeleteShader (shader : Nat) (dev : ShaderObjects) : ShaderObjects :=
  { dev with shaders := dev.shaders.filter (fun x => x ≠ shader) }

/-- The device call `glDeleteProgram`. -/
def glDeleteProgram (program : Nat) (dev : ShaderObjects) : ShaderObjects :=
  { dev with programs := dev.programs.filter (fun x => x ≠ program) }

/-- What the device answers during one call of `LoadShaders`: the names `glCreateShader` and
`glCreateProgram` return (0 on failure) and the compile and link status of the objects. -/
structure ShaderAnswers where
  vertexShaderId : Nat
  vertexCompileStatus : Bool
  fragmentShaderId : Nat
  fragmentCompileStatus : Bool
  programId : Nat
  linkStatus : Bool
deriving DecidableEq, Repr

/-- The helper `ReadTextFile`: the text of the file, the empty string when it cannot be
opened; `files` gives the text of every file that can be opened. -/
def ReadTextFile (files : String → Option String) (filePath : String) : String :=
  match files filePath with
  | none => ""
  | some text => text

/-- The helper `CompileShader`; `glCreateShader` is the name the device returns and
`compileStatus` the GL_COMPILE_STATUS of that shader (`glGetShaderiv` on the name 0 writes
nothing, so `success` stays GL_FALSE). -/
def CompileShader (glCreateShader : Nat) (compileStatus : Bool) (source : String)
    (dev : ShaderObjects) : Nat × ShaderObjects :=
  if source = "" then (0, dev)
  else
    let shaderId := glCreateShader
    let dev1 : ShaderObjects :=
      if shaderId = 0 then dev else { dev with shaders := dev.shaders ++ [shaderId] }
    let success : Bool := if shaderId = 0 then false else compileStatus
    if success = false then (0, glDeleteShader shaderId dev1)
    else (shaderId, dev1)

/-- The method `ShaderManager::LoadShaders`: the returned flag, the object after the call and
the device objects after the call. -/
def LoadShaders (files : String → Option String) (gl : ShaderAnswers)
    (vertexShaderPath fragmentShaderPath : String) (sm : ShaderManager) (dev : ShaderObjects) :
    Bool × ShaderManager × ShaderObjects :=
  let vertexSource := ReadTextFile files vertexShaderPath
  let fragmentSource := ReadTextFile files fragmentShaderPath
  let vertex := CompileShader gl.vertexShaderId gl.vertexCompileStatus vertexSource dev
  let fragment :=
    CompileShader gl.fragmentShaderId gl.fragmentCompileStatus fragmentSource vertex.2
  let vertexShader := vertex.1
  let fragmentShader := fragment.1
  if vertexShader = 0 ∨ fragmentShader = 0 then (false, sm, fragment.2)
  else
    let created := gl.programId
    let dev1 : ShaderObjects :=
      if created = 0 then fragment.2
      else { fragment.2 with programs := fragment.2.programs ++ [created] }
    let success : Bool := if created = 0 then false else gl.linkStatus
    let programId : Nat := if success = false then 0 else created
    let dev2 := if success = false then glDeleteProgram created dev1 else dev1
    let dev3 := glDeleteShader fragmentShader (glDeleteShader vertexShader dev2)
    if programId = 0 then (false, sm, dev3)
    else
      let dev4 := if sm.m_programId ≠ 0 then glDeleteProgram sm.m_programId dev3 else dev3
      (true, { m_programId := programId }, dev4)

/-- The uniforms after the setter calls a scene-manager method makes through
`m_pShaderManager`; with a NULL shader manager no call is made. -/
def applyCalls {α : Type} (glGetUniformLocation : Nat → String → Int)
    (m_pShaderManager : Option ShaderManager) (calls : List (ShaderCall α)) (u : Uniforms α) :
    Uniforms α :=
  match m_pShaderManager with
  | some sm => sm.run glGetUniformLocation calls u
  | none => u

/-- A function on the uniforms that changes nothing when `location` is negative and otherwise
writes `value` at `location` and nothing else. -/
def WritesOnly {α : Type} (f : Uniforms α → Uniforms α) (location : Int)
    (value : UniformValue α) : Prop :=
  (location < 0 → ∀ u, f u = u) ∧
  (0 ≤ location → ∀ u, f u location = some value ∧ ∀ l, l ≠ location → f u l = u l)

/-- A selection made before a draw call: a named texture (`SetShaderTexture`) or a flat
colour (`SetShaderColor`). -/
inductive Selection (α : Type) where
  | texture (textureTag : String)
  | color (redColorValue greenColorValue blueColorValue alphaValue : α)

/-- The setter calls of a selection. -/
def Selection.calls {α : Type} (m_pShaderManager : Option ShaderManager) (s : SceneManager) :
    Selection α → List (ShaderCall α)
  | .texture textureTag => SetShaderTexture m_pShaderManager textureTag s
  | .color r g b a => SetShaderColor m_pShaderManager r g b a

/-- The value of `bUseTexture` a selection stands for: 1 for a texture, 0 for a colour. -/
def Selection.flag {α : Type} : Selection α → Int
  | .texture _ => 1
  | .color _ _ _ _ => 0

/-- The value the last call of the sequence that names the uniform `name` passes for it;
`none` when no call names it. -/
def ShaderCall.lastValue {α : Type} : List (ShaderCall α) → String → Option (UniformValue α)
  | [], _ => none
  | c :: rest, name =>
    match ShaderCall.lastValue rest name with
    | some value => some value
    | none => if c.name = name then some c.value else none

/-! ## The frame (`SceneManager::RenderScene`) -/

/-- The draw methods of the mesh library (`m_basicMeshes->Draw...Mesh()`). -/
inductive DrawCall where
  | DrawPlaneMesh
  | DrawHollowCylinderMesh
  | DrawTorusMesh
  | DrawFlatSphereMesh
  | DrawWedgeMesh
  | DrawBoxMesh
  | DrawCylinderMesh
  | DrawHemisphereMesh
  | DrawPentagonalPrismMesh
deriving DecidableEq, Repr

/-- The device constants `RenderScene` passes to `glEnable`, `glDisable` and `glCullFace`. -/
inductive GLenum where
  | GL_CULL_FACE
  | GL_BACK
  | GL_FRONT
deriving DecidableEq, Repr

/-- A statement of `RenderScene` that acts on the device: a setter called directly on the
shader manager, a call of one of the scene manager's own methods, a draw call of the mesh
library, or a device call. -/
inductive Call (α : Type) where
  | shader (call : ShaderCall α)
  | SetTransformations (scaleXYZ : glm.vec3 α)
      (XrotationDegrees YrotationDegrees ZrotationDegrees : α)
      (positionXYZ : glm.vec3 α) (offset : glm.vec3 α)
  | SetShaderColor (redColorValue greenColorValue blueColorValue alphaValue : α)
  | SetShaderTexture (textureTag : String)
  | SetTextureUVScale (u v : α)
  | draw (mesh : DrawCall)
  | glEnable (cap : GLenum)
  | glDisable (cap : GLenum)
  | glCullFace (mode : GLenum)

/-- A block `if (NULL != m_pShaderManager) { m_pShaderManager->set...; ... }` of
`RenderScene`. -/
def ifShaderManager {α : Type} (m_pShaderManager : Option ShaderManager)
    (calls : List (ShaderCall α)) : List (Call α) :=
  match m_pShaderManager with
  | some _ => calls.map Call.shader
  | none => []

section RenderScene

variable {α : Type} [Field α]

/-- Modelled from the spec: the default value of the parameter `offset` of
`SetTransformations` is declared in SceneManager.h, which is not among the sources; the
translation is position + offset and a call without offset translates by the position. -/
def SetTransformations.defaultOffset : glm.vec3 α := ⟨0, 0, 0⟩

/-- The first three coordinates of a `glm::vec4`: the conversion `glm::vec3(v)`. -/
def glm.vec3.ofVec4 (v : Fin 4 → α) : glm.vec3 α := ⟨v 0, v 1, v 2⟩

/-- The lighting block of `RenderScene` (the setter calls inside its first
`if (NULL != m_pShaderManager)`). -/
def RenderScene.lighting (cosf sqrtf : α → α) (kPi : α) : List (ShaderCall α) :=
  let currentAmbient : glm.vec3 α := ⟨0.28, 0.28, 0.28⟩
  let directionalAmbientDefault := currentAmbient
  let spotLightPosition : glm.vec3 α := ⟨-7.3, 4.2, -2.15⟩
  let screenTarget : glm.vec3 α := ⟨-7.3, 3.0, 1.0⟩
  let spotLightDirection := glm.normalize sqrtf (screenTarget.sub spotLightPosition)
  [ ShaderCall.setIntValue g_UseLightingName 1,
    ShaderCall.setVec3Value "material.diffuseColor" ⟨1, 1, 1⟩,
    ShaderCall.setVec3Value "material.specularColor" ⟨0.35, 0.35, 0.35⟩,
    ShaderCall.setFloatValue "material.shininess" 32,
    -- Soft directional light
    ShaderCall.setVec3Value "directionalLight.direction" ⟨-0.2, -1.0, -0.1⟩,
    ShaderCall.setVec3Value "directionalLight.ambient" directionalAmbientDefault,
    ShaderCall.setVec3Value "directionalLight.diffuse" ⟨0.18, 0.18, 0.18⟩,
    ShaderCall.setVec3Value "directionalLight.specular" ⟨0.22, 0.22, 0.22⟩,
    ShaderCall.setIntValue "directionalLight.bActive" 1 ]
  -- Disable unused point lights.
  ++ (List.range 5).map (fun i =>
      let lightBase := "pointLights[" ++ toString i ++ "]"
      ShaderCall.setIntValue (lightBase ++ ".bActive") 0)
  ++ [ -- Disable the monitor point light glow
    ShaderCall.setIntValue "pointLights[0].bActive" 0,
    -- Soft point light fill
    ShaderCall.setVec3Value "pointLights[1].position" ⟨-12.5, 18.0, 0.0⟩,
    ShaderCall.setVec3Value "pointLights[1].ambient" ⟨0, 0, 0⟩,
    ShaderCall.setVec3Value "pointLights[1].diffuse" ⟨0.35, 0.35, 0.35⟩,
    ShaderCall.setVec3Value "pointLights[1].specular" ⟨0.25, 0.25, 0.25⟩,
    ShaderCall.setIntValue "pointLights[1].bActive" 1,
    -- Monitor spotlight
    ShaderCall.setVec3Value "spotLight.position" spotLightPosition,
    ShaderCall.setVec3Value "spotLight.direction" spotLightDirection,
    ShaderCall.setFloatValue "spotLight.cutOff" (cosf (glm.radians kPi 20)),
    ShaderCall.setFloatValue "spotLight.outerCutOff" (cosf (glm.radians kPi 32)),
    ShaderCall.setFloatValue "spotLight.constant" 1.0,
    ShaderCall.setFloatValue "spotLight.linear" 0.30,
    ShaderCall.setFloatValue "spotLight.quadratic" 0.28,
    ShaderCall.setVec3Value "spotLight.ambient" ⟨0, 0, 0⟩,
    ShaderCall.setVec3Value "spotLight.diffuse" ⟨8.50, 5.75, 10.50⟩,
    ShaderCall.setVec3Value "spotLight.specular" ⟨5.50, 4.00, 6.50⟩,
    ShaderCall.setIntValue "spotLight.bActive" 1 ]

/-- The walls, floor and roof of `RenderScene`: back wall, floor, left wall, right wall, front
wall, roof. -/
def RenderScene.room (m_pShaderManager : Option ShaderManager) : List (Call α) :=
  -- draw back wall
  [ Call.SetTransformations ⟨104, 1, 50⟩ 90 0 0 ⟨-12.5, 10, -37.5⟩
      SetTransformations.defaultOffset ]
  ++ ifShaderManager m_pShaderManager [ShaderCall.setIntValue g_UseLightingName 0]
  ++ [ Call.SetShaderTexture "background",
       Call.SetTextureUVScale 1 (-1),
       Call.draw DrawCall.DrawPlaneMesh ]
  ++ ifShaderManager m_pShaderManager [ShaderCall.setIntValue g_UseLightingName 1]
  ++ [ -- draw floor
       Call.SetTransformations ⟨104, 1, 75⟩ 0 0 0 ⟨-12.5, -15, 0⟩
         SetTransformations.defaultOffset,
       Call.SetShaderTexture "afromosia_floor",
       Call.SetTextureUVScale 6 6,
       Call.draw DrawCall.DrawPlaneMesh,
       -- draw left wall
       Call.SetTransformations ⟨75, 1, 50⟩ 90 90 0 ⟨-64.5, 10, 0⟩
         SetTransformations.defaultOffset,
       Call.SetShaderTexture "brick_wall",
       Call.SetTextureUVScale 4 2,
       Call.draw DrawCall.DrawPlaneMesh,
       -- draw right wall
       Call.SetTransformations ⟨75, 1, 50⟩ 90 (-90) 0 ⟨39.5, 10, 0⟩
         SetTransformations.defaultOffset,
       Call.SetShaderTexture "brick_wall",
       Call.SetTextureUVScale 4 2,
       Call.draw DrawCall.DrawPlaneMesh,
       -- draw front wall
       Call.SetTransformations ⟨104, 1, 50⟩ 90 180 0 ⟨-12.5, 10, 37.5⟩
         SetTransformations.defaultOffset,
       Call.SetShaderTexture "brick_wall",
       Call.SetTextureUVScale 6 2,
       Call.draw DrawCall.DrawPlaneMesh,
       -- draw roof
       Call.SetTransformations ⟨104, 1, 75⟩ 180 0 0 ⟨-12.5, 35, 0⟩
         SetTransformations.defaultOffset,
       Call.SetShaderTexture "roof",
       Call.SetTextureUVScale (-1) 1,
       Call.draw DrawCall.DrawPlaneMesh ]

/-- The array `legOffsets` of `RenderScene`. -/
def RenderScene.legOffsets : List (glm.vec3 α) :=
  let tableHalfX : α := 20
  let tableHalfZ : α := 5
  let legInsetX : α := 1.5
  let legInsetZ : α := 1
  [ ⟨tableHalfX - legInsetX, 0, tableHalfZ - legInsetZ⟩,
    ⟨-(tableHalfX - legInsetX), 0, tableHalfZ - legInsetZ⟩,
    ⟨tableHalfX - legInsetX, 0, -(tableHalfZ - legInsetZ)⟩,
    ⟨-(tableHalfX - legInsetX), 0, -(tableHalfZ - legInsetZ)⟩ ]

/-- The table of `RenderScene`: the table top and the loop over the four legs, each a box
with a flat-sphere foot. -/
def RenderScene.table (m_pShaderManager : Option ShaderManager) : List (Call α) :=
  let tableBottomY : α := -0.7
  let floorY : α := -15
  let legHeight := tableBottomY - floorY
  let legCenterY := floorY + (legHeight * 0.5)
  let legSize : α := 1.2
  let footScale : glm.vec3 α := ⟨2.4, 0.4, 2.4⟩
  let footCenterY := floorY
  [ Call.SetTransformations ⟨40, 0.6, 10⟩ 0 180 0 ⟨0, -0.4, 0⟩
      SetTransformations.defaultOffset ]
  ++ ifShaderManager m_pShaderManager
      [ ShaderCall.setVec3Value "material.diffuseColor" ⟨1, 1, 1⟩,
        ShaderCall.setVec3Value "material.specularColor" ⟨1.2, 1.2, 1.2⟩,
        ShaderCall.setFloatValue "material.shininess" 128 ]
  ++ [ Call.SetShaderTexture "bark",
       Call.SetTextureUVScale 4 4,
       Call.draw DrawCall.DrawBoxMesh,
       -- draw table legs
       Call.SetShaderTexture "black_metal",
       Call.SetTextureUVScale 1 1 ]
  ++ (List.range 4).flatMap (fun i =>
      let legOffset : glm.vec3 α := RenderScene.legOffsets.getD i ⟨0, 0, 0⟩
      let legPos : glm.vec3 α := ⟨legOffset.x, legCenterY, legOffset.z⟩
      let footPos : glm.vec3 α := ⟨legOffset.x, footCenterY, legOffset.z⟩
      [ Call.SetTransformations ⟨legSize, legHeight, legSize⟩ 0 0 0 legPos
          SetTransformations.defaultOffset,
        Call.draw DrawCall.DrawBoxMesh,
        Call.SetTransformations footScale 0 0 0 footPos SetTransformations.defaultOffset,
        Call.draw DrawCall.DrawFlatSphereMesh ])

/-- The mouse pad, keyboard and keyboard wedge of `RenderScene`. -/
def RenderScene.desk : List (Call α) :=
  [ -- draw mouse pad
    Call.SetTransformations ⟨17, 1, 5⟩ 0 0 0 ⟨-4.5, -0.05, 1.5⟩
      SetTransformations.defaultOffset,
    Call.SetShaderTexture "surface_imperfections",
    Call.SetTextureUVScale 1 1,
    Call.draw DrawCall.DrawPlaneMesh,
    -- draw keyboard
    Call.SetTransformations ⟨8.4, 1, 2.74⟩ (-15) 190 0 ⟨-7.3, 0.317, 1.13⟩
      SetTransformations.defaultOffset,
    Call.SetShaderTexture "keyboard",
    Call.SetTextureUVScale (-1) 1,
    Call.draw DrawCall.DrawPlaneMesh,
    -- draw keyboard wedge
    Call.SetTransformations ⟨8.4, 0.71, 2.74⟩ 0 190 0 ⟨-7.3, -0.05, 1.13⟩
      SetTransformations.defaultOffset,
    Call.SetShaderTexture "black_leather",
    Call.SetTextureUVScale 1 1,
    Call.draw DrawCall.DrawWedgeMesh ]

/-- The mouse of `RenderScene`: a cylinder between two hemispheres. -/
def RenderScene.mouse (cosf sinf sqrtf : α → α) (kPi : α)
    (m_pShaderManager : Option ShaderManager) : List (Call α) :=
  let mouseLength : α := 0.113
  let mouseWidth : α := 0.057
  let mouseHeight : α := 0.021
  let mouseScaleFactor : α := 15
  let cylinderLength := (mouseLength - mouseWidth) * mouseScaleFactor
  let mouseHeightScaled := mouseHeight * mouseScaleFactor
  let mouseWidthScaled := mouseWidth * mouseScaleFactor
  let mouseYaw : α := -45
  let mousePosition : glm.vec3 α := ⟨-1.04, -0.05 + (mouseHeightScaled * 0.5), 1.13⟩
  let cylinderScale : glm.vec3 α := ⟨cylinderLength, mouseHeightScaled, mouseWidthScaled⟩
  let capScale : glm.vec3 α := ⟨mouseWidthScaled, mouseHeightScaled, mouseWidthScaled⟩
  let mouseRotation := glm.rotate cosf sinf sqrtf (glm.radians kPi mouseYaw) ⟨0, 1, 0⟩
  let frontOffset : glm.vec3 α := ⟨cylinderLength * 0.5, 0, 0⟩
  let backOffset : glm.vec3 α := ⟨-cylinderLength * 0.5, 0, 0⟩
  let frontPosition :=
    mousePosition.add (glm.vec3.ofVec4 (Matrix.mulVec mouseRotation (glm.point frontOffset)))
  let backPosition :=
    mousePosition.add (glm.vec3.ofVec4 (Matrix.mulVec mouseRotation (glm.point backOffset)))
  ifShaderManager m_pShaderManager
      [ ShaderCall.setVec3Value "material.specularColor" ⟨0.7, 0.7, 0.7⟩,
        ShaderCall.setFloatValue "material.shininess" 128 ]
  ++ [ Call.SetShaderColor 1 1 1 1,
       -- middle cylinder
       Call.SetTransformations cylinderScale 0 mouseYaw 0 mousePosition
         SetTransformations.defaultOffset,
       Call.draw DrawCall.DrawCylinderMesh,
       -- front hemisphere
       Call.SetTransformations capScale 0 mouseYaw 0 frontPosition
         SetTransformations.defaultOffset,
       Call.draw DrawCall.DrawHemisphereMesh,
       -- back hemisphere
       Call.SetTransformations capScale 0 (mouseYaw + 180) 0 backPosition
         SetTransformations.defaultOffset,
       Call.draw DrawCall.DrawHemisphereMesh ]

/-- The monitor of `RenderScene`: base, neck, frame and screen. -/
def RenderScene.monitor : List (Call α) :=
  let screenWidth : α := 8.4
  let screenHeight := screenWidth * (9 / 16)
  let frameHeight := screenHeight + 0.5
  let screenWidthInner := screenWidth - 0.1
  let screenHeightInner := screenHeight - 0.1
  [ -- draw monitor base
    Call.SetTransformations ⟨3, 0.2, 3⟩ 0 180 0 ⟨-7.3, 0, -2.5⟩
      SetTransformations.defaultOffset,
    Call.SetShaderColor 0.12 0.12 0.12 1,
    Call.draw DrawCall.DrawFlatSphereMesh,
    -- draw monitor neck
    Call.SetTransformations ⟨0.7, 1.5, 0.5⟩ 0 180 0 ⟨-7.3, 1, -2.5⟩
      SetTransformations.defaultOffset,
    Call.SetShaderColor 0.18 0.18 0.18 1,
    Call.draw DrawCall.DrawPentagonalPrismMesh,
    -- draw monitor frame
    Call.SetTransformations ⟨screenWidth, 0.12, frameHeight⟩ (-90) 180 0 ⟨-7.3, 4.2, -2.30⟩
      SetTransformations.defaultOffset,
    Call.SetShaderColor 0.08 0.08 0.08 1,
    Call.draw DrawCall.DrawBoxMesh,
    -- draw monitor screen
    Call.SetTransformations ⟨screenWidthInner, 1, screenHeightInner⟩ (-90) 180 0
      ⟨-7.3, 4.2 + 0.25, -2.22⟩ SetTransformations.defaultOffset,
    Call.SetShaderTexture "jojo",
    Call.SetTextureUVScale 1 1,
    Call.draw DrawCall.DrawPlaneMesh ]

/-- The mug of `RenderScene`: hollow body drawn twice, inner lining, base and handle. -/
def RenderScene.mug (m_pShaderManager : Option ShaderManager) : List (Call α) :=
  [ -- draw hollow mug body
    Call.SetTransformations ⟨2, 4, 2⟩ 0 0 0 ⟨10, 2, -2.5⟩ SetTransformations.defaultOffset ]
  ++ ifShaderManager m_pShaderManager
      [ ShaderCall.setVec3Value "material.diffuseColor" ⟨1, 1, 1⟩,
        ShaderCall.setVec3Value "material.specularColor" ⟨0.3, 0.3, 0.3⟩,
        ShaderCall.setFloatValue "material.shininess" 16 ]
  ++ [ Call.glEnable GLenum.GL_CULL_FACE,
       Call.glCullFace GLenum.GL_BACK,
       Call.SetShaderTexture "painted_plaster",
       Call.SetTextureUVScale 1 1,
       Call.draw DrawCall.DrawHollowCylinderMesh,
       Call.glCullFace GLenum.GL_FRONT,
       Call.SetShaderTexture "blue_plaster",
       Call.SetTextureUVScale 1 1,
       Call.draw DrawCall.DrawHollowCylinderMesh,
       Call.glDisable GLenum.GL_CULL_FACE,
       -- draw thin inner cylinder
       Call.SetTransformations ⟨1.99, 4, 1.99⟩ 0 0 0 ⟨10, 2, -2.5⟩
         SetTransformations.defaultOffset,
       Call.glEnable GLenum.GL_CULL_FACE,
       Call.glCullFace GLenum.GL_FRONT,
       Call.SetShaderTexture "painted_plaster",
       Call.SetTextureUVScale 1 1,
       Call.draw DrawCall.DrawHollowCylinderMesh,
       Call.glDisable GLenum.GL_CULL_FACE,
       -- draw mug base
       Call.SetTransformations ⟨4, 0.2, 4⟩ 0 0 0 ⟨10, 0.1, -2.5⟩
         SetTransformations.defaultOffset,
       Call.SetShaderTexture "surface_imperfections",
       Call.SetTextureUVScale 1 1,
       Call.draw DrawCall.DrawFlatSphereMesh,
       -- draw mug handle
       Call.SetTransformations ⟨1.6, 1.6, 1.6⟩ 90 0 90 ⟨12, 2, -2.5⟩
         SetTransformations.defaultOffset,
       Call.SetShaderTexture "blue_plaster",
       Call.SetTextureUVScale 1 1,
       Call.draw DrawCall.DrawTorusMesh ]

/-- The method `SceneManager::RenderScene`: its statements that act on the device, in
order. -/
def RenderScene (cosf sinf sqrtf : α → α) (kPi : α) (m_pShaderManager : Option ShaderManager) :
    List (Call α) :=
  ifShaderManager m_pShaderManager (RenderScene.lighting cosf sqrtf kPi)
  ++ RenderScene.room m_pShaderManager
  ++ RenderScene.table m_pShaderManager
  ++ RenderScene.desk
  ++ RenderScene.mouse cosf sinf sqrtf kPi m_pShaderManager
  ++ RenderScene.monitor
  ++ RenderScene.mug m_pShaderManager

end RenderScene

/-- Whether face culling is enabled after a statement, given whether it was before. -/
def Call.culling {α : Type} : Call α → Bool → Bool
  | .glEnable GLenum.GL_CULL_FACE, _ => true
  | .glDisable GLenum.GL_CULL_FACE, _ => false
  | _, enabled => enabled

/-- The draw calls of a sequence of statements, each with the state of face culling it is
issued under, when the sequence starts with culling `enabled`. -/
def Call.drawLog {α : Type} : List (Call α) → Bool → List (DrawCall × Bool)
  | [], _ => []
  | .draw mesh :: rest, enabled => (mesh, enabled) :: Call.drawLog rest enabled
  | c :: rest, enabled => Call.drawLog rest (c.culling enabled)

/-- Whether face culling is enabled after a sequence of statements that starts with culling
`enabled`. -/
def Call.cullingAfter {α : Type} (calls : List (Call α)) (enabled : Bool) : Bool :=
  calls.foldl (fun e c => c.culling e) enabled

/-- The int a sequence of setter calls last passes for the uniform `name` through
`setIntValue`; `none` when the last call naming it is not a `setIntValue`, or there is none. -/
def ShaderCall.lastInt {α : Type} (calls : List (ShaderCall α)) (name : String) : Option Int :=
  match ShaderCall.lastValue calls name with
  | some (UniformValue.int value) => some value
  | _ => none

/-- The statements of a sequence that come before its first draw call. -/
def Call.beforeFirstDraw {α : Type} : List (Call α) → List (Call α)
  | [] => []
  | .draw _ :: _ => []
  | c :: rest => c :: Call.beforeFirstDraw rest

/-- The setter calls one statement of `RenderScene` makes on the shader manager: the call
itself, or the calls of the scene-manager method it invokes; `s` is the texture registry. -/
def Call.shaderCalls {α : Type} [Field α] (cosf sinf sqrtf : α → α) (kPi : α)
    (m_pShaderManager : Option ShaderManager) (s : SceneManager) :
    Call α → List (ShaderCall α)
  | .shader call => [call]
  | .SetTransformations scaleXYZ x y z positionXYZ offset =>
    CS330.SetTransformations.calls cosf sinf sqrtf kPi m_pShaderManager scaleXYZ x y z positionXYZ
      offset
  | .SetShaderColor r g b a => CS330.SetShaderColor m_pShaderManager r g b a
  | .SetShaderTexture textureTag => CS330.SetShaderTexture m_pShaderManager textureTag s
  | .SetTextureUVScale u v => CS330.SetTextureUVScale m_pShaderManager u v
  | .draw _ => []
  | .glEnable _ => []
  | .glDisable _ => []
  | .glCullFace _ => []

/-- All setter calls of one `RenderScene`, in order. -/
def RenderScene.setterCalls {α : Type} [Field α] (cosf sinf sqrtf : α → α) (kPi : α)
    (m_pShaderManager : Option ShaderManager) (s : SceneManager) : List (ShaderCall α) :=
  (RenderScene cosf sinf sqrtf kPi m_pShaderManager).flatMap
    (Call.shaderCalls cosf sinf sqrtf kPi m_pShaderManager s)

/-- The setter calls of one `RenderScene` that come before its first draw call. -/
def RenderScene.setterCallsBeforeFirstDraw {α : Type} [Field α] (cosf sinf sqrtf : α → α)
    (kPi : α) (m_pShaderManager : Option ShaderManager) (s : SceneManager) :
    List (ShaderCall α) :=
  (Call.beforeFirstDraw (RenderScene cosf sinf sqrtf kPi m_pShaderManager)).flatMap
    (Call.shaderCalls cosf sinf sqrtf kPi m_pShaderManager s)

/-! ## Preparing the scene (`SceneManager::PrepareScene`) -/

/-- The thirteen `CreateGLTexture(filename, tag)` calls of `SceneManager::PrepareScene`, in
order. -/
def PrepareScene.textures : List (String × String) :=
  [ ("textures/bark_5-4K/bark_5-4K/4K-bark_5-diffuse.jpg", "bark"),
    ("textures/blue_plaster_19-4K/blue_plaster_19-4K/4K-plaster_19.jpg-diffuse.jpg",
      "blue_plaster"),
    ("textures/PaintedPlaster002_4K-JPG/PaintedPlaster002_4K_Color.jpg", "painted_plaster"),
    ("textures/SurfaceImperfections016_4K-JPG/SurfaceImperfections016_4K_Color.jpg",
      "surface_imperfections"),
    ("textures/keyboard.jpg", "keyboard"),
    ("textures/black_leather_24-4K/black_leather_24-4K/4K-Leather_24_Base Color.jpg",
      "black_leather"),
    ("textures/mouse.png", "mouse"),
    ("textures/Jojo.jpg", "jojo"),
    ("textures/background.jpeg", "background"),
    ("textures/black_metal-4K/black_metal-4K/4K-metal_5-specular.jpg", "black_metal"),
    ("textures/brick_wall_001_4K-JPG/brick_wall_001/brick_wall_001_diffuse_4k.jpg",
      "brick_wall"),
    ("textures/Paper001_4K-JPG/Paper001_4K_Color.jpg", "roof"),
    ("textures/afromosia-4K/afromosia-4K/4K_afromosia_basecolor.png", "afromosia_floor") ]

/-- The calls of a list of (filename, tag) pairs with the handles the device writes:
`glGenTextures k` is the handle written in the `k`-th call of `glGenTextures`. -/
def PrepareScene.calls (glGenTextures : Nat → Nat) :
    Nat → List (String × String) → List (String × String × Nat)
  | _, [] => []
  | k, (filename, tag) :: rest =>
    (filename, tag, glGenTextures k) :: PrepareScene.calls glGenTextures (k + 1) rest

/-- The method `SceneManager::PrepareScene`, as far as the texture registry goes: the
thirteen `CreateGLTexture` calls, whose return values the method discards, and
`BindGLTextures`; the mesh loads and the two wrap-mode blocks (which look up "keyboard" and
"mouse" and set texture parameters on the device) assign no member of the registry. The
result is the flags the loads returned and the registry afterwards, `none` when a
registration writes past the end of the array. -/
def PrepareScene (stbi_load : String → Option StbImage) (glGenTextures : Nat → Nat)
    (s : SceneManager) (d : TextureUnits) : Option (List Bool × SceneManager) :=
  match CreateGLTextures stbi_load
      (PrepareScene.calls glGenTextures 0 PrepareScene.textures) s with
  | none => none
  | some (flags, s1) => some (flags, (BindGLTextures s1 d).1)

/-- The tags a sequence of statements passes to `SetShaderTexture`, in order. -/
def Call.textureTags {α : Type} : List (Call α) → List String
  | [] => []
  | .SetShaderTexture textureTag :: rest => textureTag :: Call.textureTags rest
  | _ :: rest => Call.textureTags rest

/-! ## Extent of a mesh -/

/-- The coordinate `coord` of the vertices a mesh draws ranges exactly over [lo, hi]: every
vertex has it between `lo` and `hi`, and both bounds are attained (over the reals). -/
def Mesh.Extent (m : Mesh ℝ) (coord : glm.vec3 ℝ → ℝ) (lo hi : ℝ) : Prop :=
  (∀ w, w ∈ m.drawn → lo ≤ coord w.position ∧ coord w.position ≤ hi) ∧
  (∃ w, w ∈ m.drawn ∧ coord w.position = lo) ∧
  (∃ w, w ∈ m.drawn ∧ coord w.position = hi)

/-! ## Where the frame places its meshes -/

/-- The arguments of one `SetTransformations` call. -/
structure Placement (α : Type) where
  scaleXYZ : glm.vec3 α
  XrotationDegrees : α
  YrotationDegrees : α
  ZrotationDegrees : α
  positionXYZ : glm.vec3 α
  offset : glm.vec3 α

/-- The model matrix `SetTransformations` builds from the arguments. -/
def Placement.model {α : Type} [Field α] (cosf sinf sqrtf : α → α) (kPi : α)
    (P : Placement α) : glm.mat4 α :=
  SetTransformations cosf sinf sqrtf kPi P.scaleXYZ P.XrotationDegrees P.YrotationDegrees
    P.ZrotationDegrees P.positionXYZ P.offset

/-- The world position of a local point under the model matrix: `model * vec4(p, 1)`, as
the vertex shader computes it. -/
def Placement.apply {α : Type} [Field α] (cosf sinf sqrtf : α → α) (kPi : α)
    (P : Placement α) (p : glm.vec3 α) : glm.vec3 α :=
  glm.vec3.ofVec4 (Matrix.mulVec (P.model cosf sinf sqrtf kPi) (glm.point p))

/-- The draw calls of a sequence of statements, each with the arguments of the last
`SetTransformations` call before it (the model matrix in effect when the draw is issued);
`current` is the one in effect before the sequence. -/
def Call.placements {α : Type} :
    List (Call α) → Option (Placement α) → List (DrawCall × Option (Placement α))
  | [], _ => []
  | .SetTransformations scaleXYZ x y z positionXYZ offset :: rest, _ =>
    Call.placements rest (some ⟨scaleXYZ, x, y, z, positionXYZ, offset⟩)
  | .draw mesh :: rest, current => (mesh, current) :: Call.placements rest current
  | _ :: rest, current => Call.placements rest current

/-- The end points of the mouse body in `RenderScene`: `frontPosition` and `backPosition`
as computed from `cylinderLength`, `mouseYaw` and `mousePosition` (the statements from
`mouseRotation` to `backPosition`). -/
def RenderScene.mouseEnds {α : Type} [Field α] (cosf sinf sqrtf : α → α) (kPi : α)
    (cylinderLength mouseYaw : α) (mousePosition : glm.vec3 α) : glm.vec3 α × glm.vec3 α :=
  let mouseRotation := glm.rotate cosf sinf sqrtf (glm.radians kPi mouseYaw) ⟨0, 1, 0⟩
  let frontOffset : glm.vec3 α := ⟨cylinderLength * 0.5, 0, 0⟩
  let backOffset : glm.vec3 α := ⟨-cylinderLength * 0.5, 0, 0⟩
  let frontPosition :=
    mousePosition.add (glm.vec3.ofVec4 (Matrix.mulVec mouseRotation (glm.point frontOffset)))
  let backPosition :=
    mousePosition.add (glm.vec3.ofVec4 (Matrix.mulVec mouseRotation (glm.point backOffset)))
  (frontPosition, backPosition)

/-! # Theorems -/

/-! ### Lemmas on the lookup loops -/

theorem GLuint.toInt_of_lt (n : Nat) (hn : n < 2 ^ 31) : GLuint.toInt n = (n : Int) := by
  have h32 : n % 2 ^ 32 = n := Nat.mod_eq_of_lt (by omega)
  unfold GLuint.toInt
  rw [h32, if_pos hn]

theorem FindTextureSlot.loop_spec (s : SceneManager) (tag : String) :
    ∀ (fuel index : Nat), fuel + index = s.m_loadedTextures →
      (∀ j, index ≤ j → j < s.m_loadedTextures → (s.entry j).tag ≠ tag) ∧
          FindTextureSlot.loop s tag fuel index = -1 ∧ FindTextureID.loop s tag fuel index = -1
      ∨ ∃ i, index ≤ i ∧ i < s.m_loadedTextures ∧ (s.entry i).tag = tag ∧
          (∀ j, index ≤ j → j < i → (s.entry j).tag ≠ tag) ∧
          FindTextureSlot.loop s tag fuel index = (i : Int) ∧
          FindTextureID.loop s tag fuel index = GLuint.toInt (s.entry i).ID := by
  intro fuel
  induction fuel with
  | zero =>
    intro index h
    left
    refine ⟨fun j hj hlt => by omega, rfl, rfl⟩
  | succ fuel ih =>
    intro index h
    have hlt : index < s.m_loadedTextures := by omega
    by_cases ht : (s.entry index).tag = tag
    · right
      refine ⟨index, le_refl _, hlt, ht, fun j h1 h2 => by omega, ?_, ?_⟩
      · simp [FindTextureSlot.loop, hlt, ht]
      · simp [FindTextureID.loop, hlt, ht]
    · have hs : FindTextureSlot.loop s tag (fuel + 1) index
          = FindTextureSlot.loop s tag fuel (index + 1) := by
        simp [FindTextureSlot.loop, hlt, ht]
      have hi : FindTextureID.loop s tag (fuel + 1) index
          = FindTextureID.loop s tag fuel (index + 1) := by
        simp [FindTextureID.loop, hlt, ht]
      rw [hs, hi]
      rcases ih (index + 1) (by omega) with ⟨hall, h1, h2⟩ | ⟨i, hi1, hi2, hi3, hi4, hi5, hi6⟩
      · left
        refine ⟨fun j hj hjl => ?_, h1, h2⟩
        rcases Nat.eq_or_lt_of_le hj with heq | hgt
        · subst heq; exact ht
        · exact hall j hgt hjl
      · right
        refine ⟨i, by omega, hi2, hi3, fun j hj hji => ?_, hi5, hi6⟩
        rcases Nat.eq_or_lt_of_le hj with heq | hgt
        · subst heq; exact ht
        · exact hi4 j hgt hji

/-- C7: `FindTextureSlot` returns the smallest registered index carrying the tag and
`FindTextureID` the ID (converted to `int`) of that same entry, so the first registration of a
tag wins; `FindTextureSlot` returns -1 exactly when no registered entry has the tag, and
`FindTextureID` returns -1 in that case. -/
theorem FindTexture_first_match (s : SceneManager) (tag : String) :
    ((∃ i, i < s.m_loadedTextures ∧ (s.entry i).tag = tag ∧
          (∀ j, j < i → (s.entry j).tag ≠ tag) ∧
          FindTextureSlot tag s = (i : Int) ∧
          FindTextureID tag s = GLuint.toInt (s.entry i).ID ∧
          ((s.entry i).ID < 2 ^ 31 → FindTextureID tag s = ((s.entry i).ID : Int)))
      ∨ ((∀ j, j < s.m_loadedTextures → (s.entry j).tag ≠ tag) ∧
          FindTextureSlot tag s = -1 ∧ FindTextureID tag s = -1))
    ∧ (FindTextureSlot tag s = -1 ↔ ∀ j, j < s.m_loadedTextures → (s.entry j).tag ≠ tag) := by
  have key := FindTextureSlot.loop_spec s tag s.m_loadedTextures 0 (by omega)
  have hconv : ∀ n : Nat, n < 2 ^ 31 → GLuint.toInt n = (n : Int) :=
    fun n hn => GLuint.toInt_of_lt n hn
  unfold FindTextureSlot FindTextureID
  rcases key with ⟨hall, h1, h2⟩ | ⟨i, _, hi2, hi3, hi4, hi5, hi6⟩
  · refine ⟨Or.inr ⟨fun j hj => hall j (Nat.zero_le _) hj, h1, h2⟩, ?_⟩
    exact ⟨fun _ j hj => hall j (Nat.zero_le _) hj, fun _ => h1⟩
  · refine ⟨Or.inl ⟨i, hi2, hi3, fun j hj => hi4 j (Nat.zero_le _) hj, hi5, hi6, ?_⟩, ?_⟩
    · intro hlt
      rw [hi6]
      exact hconv _ hlt
    · rw [hi5]
      constructor
      · intro h
        omega
      · intro h
        exact absurd hi3 (h i hi2)

/-! ### Lemmas on registration -/

theorem SceneManager.entry_set (l : List TEXTURE_INFO) (n m i : Nat) (e : TEXTURE_INFO)
    (hn : n < l.length) :
    (SceneManager.mk (l.set n e) m).entry i
      = if i = n then e else (SceneManager.mk l n).entry i := by
  unfold SceneManager.entry
  by_cases h : i = n
  · subst h
    simp [List.getD_eq_getElem?_getD, List.getElem?_set, hn]
  · have h2 : ¬ n = i := fun h3 => h h3.symm
    simp [List.getD_eq_getElem?_getD, List.getElem?_set, h, h2]

theorem CreateGLTexture_eq_true (stbi_load : String → Option StbImage) (gen : Nat)
    (filename tag : String) (s s1 : SceneManager)
    (h : CreateGLTexture stbi_load gen filename tag s = some (true, s1)) :
    s.m_loadedTextures < s.m_textureIDs.length ∧
    s1 = ⟨s.m_textureIDs.set s.m_loadedTextures ⟨gen, tag⟩, s.m_loadedTextures + 1⟩ ∧
    ∃ image, stbi_load filename = some image ∧
      (image.colorChannels = 3 ∨ image.colorChannels = 4) := by
  unfold CreateGLTexture at h
  split at h
  · rename_i image himg
    by_cases h3 : image.colorChannels = 3
    · by_cases hf : s.m_loadedTextures < s.m_textureIDs.length
      · simp [h3, hf] at h
        exact ⟨hf, h.symm, image, himg, Or.inl h3⟩
      · simp [h3, hf] at h
    · by_cases h4 : image.colorChannels = 4
      · by_cases hf : s.m_loadedTextures < s.m_textureIDs.length
        · simp [h3, h4, hf] at h
          exact ⟨hf, h.symm, image, himg, Or.inr h4⟩
        · simp [h3, h4, hf] at h
      · simp [h3, h4] at h
  · simp at h

theorem CreateGLTexture_eq_false (stbi_load : String → Option StbImage) (gen : Nat)
    (filename tag : String) (s s1 : SceneManager)
    (h : CreateGLTexture stbi_load gen filename tag s = some (false, s1)) : s1 = s := by
  unfold CreateGLTexture at h
  split at h
  · rename_i image himg
    by_cases h3 : image.colorChannels = 3
    · by_cases hf : s.m_loadedTextures < s.m_textureIDs.length
      · simp [h3, hf] at h
      · simp [h3, hf] at h
    · by_cases h4 : image.colorChannels = 4
      · by_cases hf : s.m_loadedTextures < s.m_textureIDs.length
        · simp [h3, h4, hf] at h
        · simp [h3, h4, hf] at h
      · simp [h3, h4] at h
        exact h.symm
  · simp at h
    exact h.symm

theorem CreateGLTexture_of_channels (stbi_load : String → Option StbImage) (gen : Nat)
    (filename tag : String) (s : SceneManager) (image : StbImage)
    (himg : stbi_load filename = some image)
    (hc : image.colorChannels = 3 ∨ image.colorChannels = 4)
    (hf : s.m_loadedTextures < s.m_textureIDs.length) :
    CreateGLTexture stbi_load gen filename tag s
      = some (true, ⟨s.m_textureIDs.set s.m_loadedTextures ⟨gen, tag⟩,
                     s.m_loadedTextures + 1⟩) := by
  unfold CreateGLTexture
  rw [himg]
  rcases hc with h3 | h4
  · simp [h3, hf]
  · have h3 : ¬ image.colorChannels = 3 := by omega
    simp [h3, h4, hf]

theorem FindTexture_of_first (s : SceneManager) (tag : String) (i : Nat)
    (hi : i < s.m_loadedTextures) (ht : (s.entry i).tag = tag)
    (hfirst : ∀ j, j < i → (s.entry j).tag ≠ tag) :
    FindTextureSlot tag s = (i : Int) ∧ FindTextureID tag s = GLuint.toInt (s.entry i).ID := by
  unfold FindTextureSlot FindTextureID
  rcases FindTextureSlot.loop_spec s tag s.m_loadedTextures 0 (by omega) with
    ⟨hall, _, _⟩ | ⟨k, _, hk2, hk3, hk4, hk5, hk6⟩
  · exact absurd ht (hall i (Nat.zero_le _) hi)
  · have hik : k = i := by
      rcases Nat.lt_trichotomy k i with hlt | heq | hgt
      · exact absurd hk3 (hfirst k hlt)
      · exact heq
      · exact absurd ht (hk4 i (Nat.zero_le _) hgt)
    subst hik
    exact ⟨hk5, hk6⟩

/-- After a successful registration the entries below the old count are as before and the
entry at the old count is the new (handle, tag) record. -/
theorem CreateGLTexture_entries (stbi_load : String → Option StbImage) (gen : Nat)
    (filename tag : String) (s s1 : SceneManager)
    (h : CreateGLTexture stbi_load gen filename tag s = some (true, s1)) :
    s1.m_loadedTextures = s.m_loadedTextures + 1 ∧
    s1.m_textureIDs.length = s.m_textureIDs.length ∧
    s1.entry s.m_loadedTextures = ⟨gen, tag⟩ ∧
    ∀ i, i ≠ s.m_loadedTextures → s1.entry i = s.entry i := by
  obtain ⟨hf, hs1, _⟩ := CreateGLTexture_eq_true stbi_load gen filename tag s s1 h
  subst hs1
  refine ⟨rfl, by simp, ?_, ?_⟩
  · rw [SceneManager.entry_set _ _ _ _ _ hf]
    simp
  · intro i hi
    rw [SceneManager.entry_set _ _ _ _ _ hf]
    simp [hi, SceneManager.entry]

/-! ### Claims on the texture registry -/

/-- C2 (as stated, refuted): with tag "a" already registered at index 0 under handle 1, a
successful `CreateGLTexture` of "a" with handle 2 registers at index 1, yet `FindTextureSlot`
returns 0 and `FindTextureID` returns 1, the first registration; and a successful load of a
fresh tag whose generated handle is 4294967295 makes `FindTextureID` return -1. -/
theorem CreateGLTexture_duplicate_tag_lookup :
    (CreateGLTexture (fun _ => some ⟨64, 64, 3⟩) 2 "a.jpg" "a" ⟨[⟨1, "a"⟩, ⟨0, ""⟩], 1⟩
        = some (true, ⟨[⟨1, "a"⟩, ⟨2, "a"⟩], 2⟩) ∧
      FindTextureSlot "a" ⟨[⟨1, "a"⟩, ⟨2, "a"⟩], 2⟩ = 0 ∧
      FindTextureSlot "a" ⟨[⟨1, "a"⟩, ⟨2, "a"⟩], 2⟩ ≠ 1 ∧
      FindTextureID "a" ⟨[⟨1, "a"⟩, ⟨2, "a"⟩], 2⟩ = 1 ∧
      FindTextureID "a" ⟨[⟨1, "a"⟩, ⟨2, "a"⟩], 2⟩ ≠ 2) ∧
    (CreateGLTexture (fun _ => some ⟨64, 64, 3⟩) 4294967295 "b.jpg" "b" ⟨[⟨0, ""⟩], 0⟩
        = some (true, ⟨[⟨4294967295, "b"⟩], 1⟩) ∧
      FindTextureID "b" ⟨[⟨4294967295, "b"⟩], 1⟩ = -1) := by
  refine ⟨⟨by decide, by decide, by decide, by decide, by decide⟩, by decide, by decide⟩

/-- C2 (amended): if `CreateGLTexture(path, tag)` returns true and no entry registered before
the call carries the tag, then immediately afterwards `FindTextureSlot(tag)` returns the index
at which the texture was registered (the old `m_loadedTextures`), which is not -1, and
`FindTextureID(tag)` returns the generated handle converted to `int`: the handle itself, and
not -1, for every handle below 2^31. -/
theorem CreateGLTexture_then_find (stbi_load : String → Option StbImage) (gen : Nat)
    (filename tag : String) (s s1 : SceneManager)
    (h : CreateGLTexture stbi_load gen filename tag s = some (true, s1))
    (hfresh : ∀ j, j < s.m_loadedTextures → (s.entry j).tag ≠ tag) :
    FindTextureSlot tag s1 = (s.m_loadedTextures : Int) ∧
    FindTextureSlot tag s1 ≠ -1 ∧
    FindTextureID tag s1 = GLuint.toInt gen ∧
    (gen < 2 ^ 31 → FindTextureID tag s1 = (gen : Int) ∧ FindTextureID tag s1 ≠ -1) := by
  obtain ⟨hcount, _, hnew, hold⟩ := CreateGLTexture_entries stbi_load gen filename tag s s1 h
  have hfind := FindTexture_of_first s1 tag s.m_loadedTextures (by omega)
    (by rw [hnew]) (fun j hj => by rw [hold j (by omega)]; exact hfresh j hj)
  rw [hnew] at hfind
  refine ⟨hfind.1, ?_, hfind.2, ?_⟩
  · rw [hfind.1]; omega
  · intro hlt
    rw [hfind.2, GLuint.toInt_of_lt gen hlt]
    exact ⟨rfl, by omega⟩

/-- Witness of C2 (amended): an empty two-entry registry, a 3-channel image, handle 7. -/
theorem CreateGLTexture_then_find_witness :
    FindTextureSlot "t1" ⟨[⟨7, "t1"⟩, ⟨0, ""⟩], 1⟩ = ((0 : Nat) : Int) ∧
    FindTextureSlot "t1" ⟨[⟨7, "t1"⟩, ⟨0, ""⟩], 1⟩ ≠ -1 ∧
    FindTextureID "t1" ⟨[⟨7, "t1"⟩, ⟨0, ""⟩], 1⟩ = GLuint.toInt 7 ∧
    (7 < 2 ^ 31 → FindTextureID "t1" ⟨[⟨7, "t1"⟩, ⟨0, ""⟩], 1⟩ = ((7 : Nat) : Int) ∧
      FindTextureID "t1" ⟨[⟨7, "t1"⟩, ⟨0, ""⟩], 1⟩ ≠ -1) :=
  CreateGLTexture_then_find (fun _ => some ⟨64, 64, 3⟩) 7 "t1.png" "t1"
    ⟨[⟨0, ""⟩, ⟨0, ""⟩], 0⟩ ⟨[⟨7, "t1"⟩, ⟨0, ""⟩], 1⟩ (by decide)
    (fun j hj => absurd hj (Nat.not_lt_zero j))

/-- C8: `CreateGLTexture` returns true only when the image decodes with 3 or 4 channels, and
does return true then whenever the registry array has a free entry; for a decode failure and
for a decoded image with any other channel count it returns false (state unchanged). -/
theorem CreateGLTexture_returns_true_iff (stbi_load : String → Option StbImage) (gen : Nat)
    (filename tag : String) (s : SceneManager) :
    ((∃ s1, CreateGLTexture stbi_load gen filename tag s = some (true, s1)) →
        ∃ image, stbi_load filename = some image ∧
          (image.colorChannels = 3 ∨ image.colorChannels = 4)) ∧
    (s.m_loadedTextures < s.m_textureIDs.length →
        ((∃ s1, CreateGLTexture stbi_load gen filename tag s = some (true, s1)) ↔
          ∃ image, stbi_load filename = some image ∧
            (image.colorChannels = 3 ∨ image.colorChannels = 4))) ∧
    (stbi_load filename = none →
        CreateGLTexture stbi_load gen filename tag s = some (false, s)) ∧
    (∀ image, stbi_load filename = some image →
        image.colorChannels ≠ 3 → image.colorChannels ≠ 4 →
        CreateGLTexture stbi_load gen filename tag s = some (false, s)) := by
  have hdir : (∃ s1, CreateGLTexture stbi_load gen filename tag s = some (true, s1)) →
      ∃ image, stbi_load filename = some image ∧
        (image.colorChannels = 3 ∨ image.colorChannels = 4) := by
    rintro ⟨s1, h⟩
    exact (CreateGLTexture_eq_true stbi_load gen filename tag s s1 h).2.2
  refine ⟨hdir, fun hf => ⟨hdir, ?_⟩, ?_, ?_⟩
  · rintro ⟨image, himg, hc⟩
    exact ⟨_, CreateGLTexture_of_channels stbi_load gen filename tag s image himg hc hf⟩
  · intro hnone
    simp [CreateGLTexture, hnone]
  · intro image himg h3 h4
    simp [CreateGLTexture, himg, h3, h4]

/-- Witness of C8: on a one-entry empty registry a 4-channel image loads, and a 2-channel image
and an undecodable file are rejected. -/
theorem CreateGLTexture_returns_true_iff_witness :
    (∃ s1, CreateGLTexture (fun _ => some ⟨32, 32, 4⟩) 5 "t.png" "t" ⟨[⟨0, ""⟩], 0⟩
        = some (true, s1)) ∧
    CreateGLTexture (fun _ => some ⟨32, 32, 2⟩) 5 "t.png" "t" ⟨[⟨0, ""⟩], 0⟩
        = some (false, ⟨[⟨0, ""⟩], 0⟩) ∧
    CreateGLTexture (fun _ => none) 5 "t.png" "t" ⟨[⟨0, ""⟩], 0⟩
        = some (false, ⟨[⟨0, ""⟩], 0⟩) :=
  ⟨((CreateGLTexture_returns_true_iff (fun _ => some ⟨32, 32, 4⟩) 5 "t.png" "t"
        ⟨[⟨0, ""⟩], 0⟩).2.1 (by decide)).2 ⟨⟨32, 32, 4⟩, rfl, Or.inr rfl⟩,
   (CreateGLTexture_returns_true_iff (fun _ => some ⟨32, 32, 2⟩) 5 "t.png" "t"
        ⟨[⟨0, ""⟩], 0⟩).2.2.2 ⟨32, 32, 2⟩ rfl (by decide) (by decide),
   (CreateGLTexture_returns_true_iff (fun _ => none) 5 "t.png" "t"
        ⟨[⟨0, ""⟩], 0⟩).2.2.1 rfl⟩

/-- C9: a `CreateGLTexture` call that returns false (it does so on a decode failure and on an
unsupported channel count such as 2) leaves the registry exactly as it was; a call that
returns true increases `m_loadedTextures` by one, stores the new (handle, tag) entry at the
old count and leaves all earlier entries unchanged. -/
theorem CreateGLTexture_registry_effect (stbi_load : String → Option StbImage) (gen : Nat)
    (filename tag : String) (s : SceneManager) :
    (∀ s1, CreateGLTexture stbi_load gen filename tag s = some (false, s1) →
        s1 = s ∧ s1.m_loadedTextures = s.m_loadedTextures ∧ ∀ i, s1.entry i = s.entry i) ∧
    (stbi_load filename = none →
        CreateGLTexture stbi_load gen filename tag s = some (false, s)) ∧
    (∀ image, stbi_load filename = some image → image.colorChannels = 2 →
        CreateGLTexture stbi_load gen filename tag s = some (false, s)) ∧
    (∀ s1, CreateGLTexture stbi_load gen filename tag s = some (true, s1) →
        s1.m_loadedTextures = s.m_loadedTextures + 1 ∧
        s1.entry s.m_loadedTextures = ⟨gen, tag⟩ ∧
        ∀ i, i < s.m_loadedTextures → s1.entry i = s.entry i) ∧
    (∀ image, stbi_load filename = some image →
        image.colorChannels = 3 ∨ image.colorChannels = 4 →
        s.m_loadedTextures < s.m_textureIDs.length →
        ∃ s1, CreateGLTexture stbi_load gen filename tag s = some (true, s1)) := by
  refine ⟨?_, ?_, ?_, ?_, fun image himg hc hf =>
    ⟨_, CreateGLTexture_of_channels stbi_load gen filename tag s image himg hc hf⟩⟩
  · intro s1 h
    have := CreateGLTexture_eq_false stbi_load gen filename tag s s1 h
    subst this
    exact ⟨rfl, rfl, fun _ => rfl⟩
  · intro hnone
    simp [CreateGLTexture, hnone]
  · intro image himg h2
    simp [CreateGLTexture, himg, h2]
  · intro s1 h
    obtain ⟨hcount, _, hnew, hold⟩ := CreateGLTexture_entries stbi_load gen filename tag s s1 h
    exact ⟨hcount, hnew, fun i hi => hold i (by omega)⟩

theorem CreateGLTextures_count (stbi_load : String → Option StbImage) :
    ∀ (calls : List (String × String × Nat)) (s0 s : SceneManager) (flags : List Bool),
      CreateGLTextures stbi_load calls s0 = some (flags, s) →
      s.m_loadedTextures = s0.m_loadedTextures + flags.count true := by
  intro calls
  induction calls with
  | nil =>
    intro s0 s flags h
    simp [CreateGLTextures] at h
    obtain ⟨h1, h2⟩ := h
    subst h1 h2
    simp
  | cons c rest ih =>
    intro s0 s flags h
    obtain ⟨filename, tag, gen⟩ := c
    unfold CreateGLTextures at h
    cases hc : CreateGLTexture stbi_load gen filename tag s0 with
    | none => simp [hc] at h
    | some r =>
      obtain ⟨b, s1⟩ := r
      cases hr : CreateGLTextures stbi_load rest s1 with
      | none => simp [hc, hr] at h
      | some r2 =>
        obtain ⟨bs, s2⟩ := r2
        simp [hc, hr] at h
        obtain ⟨h1, h2⟩ := h
        subst h1 h2
        have hrest := ih s1 s2 bs hr
        cases b with
        | true =>
          have := (CreateGLTexture_entries stbi_load gen filename tag s0 s1 hc).1
          simp [List.count_cons]
          omega
        | false =>
          have := CreateGLTexture_eq_false stbi_load gen filename tag s0 s1 hc
          subst this
          simp [List.count_cons]
          omega

/-- C10: from an empty registry (with room for two entries), loading a 3-channel image under
"t1" and then a 4-channel image under "t2" succeeds twice, registers two entries and gives
`FindTextureSlot("t1") = 0`, `FindTextureSlot("t2") = 1`, whatever the image sizes; in general,
after any run of loads from an empty registry, a successful load of a tag no registered entry
carries gets the number of earlier successful loads as its slot (the k-th success gets k-1). -/
theorem CreateGLTexture_slots_in_order (stbi_load : String → Option StbImage) :
    (∀ (f1 f2 : String) (img1 img2 : StbImage) (g1 g2 : Nat) (s0 : SceneManager),
        s0.m_loadedTextures = 0 → 2 ≤ s0.m_textureIDs.length →
        stbi_load f1 = some img1 → img1.colorChannels = 3 →
        stbi_load f2 = some img2 → img2.colorChannels = 4 →
        ∃ s1 s2, CreateGLTexture stbi_load g1 f1 "t1" s0 = some (true, s1) ∧
          CreateGLTexture stbi_load g2 f2 "t2" s1 = some (true, s2) ∧
          s2.m_loadedTextures = 2 ∧
          FindTextureSlot "t1" s2 = 0 ∧ FindTextureSlot "t2" s2 = 1) ∧
    (∀ (calls : List (String × String × Nat)) (s0 s s1 : SceneManager) (flags : List Bool)
        (filename tag : String) (gen : Nat),
        s0.m_loadedTextures = 0 →
        CreateGLTextures stbi_load calls s0 = some (flags, s) →
        (∀ j, j < s.m_loadedTextures → (s.entry j).tag ≠ tag) →
        CreateGLTexture stbi_load gen filename tag s = some (true, s1) →
        s.m_loadedTextures = flags.count true ∧
        FindTextureSlot tag s1 = ((flags.count true : Nat) : Int)) := by
  constructor
  · intro f1 f2 img1 img2 g1 g2 s0 h0 hcap hi1 hc1 hi2 hc2
    obtain ⟨s1, e1⟩ : ∃ s1, CreateGLTexture stbi_load g1 f1 "t1" s0 = some (true, s1) :=
      ⟨_, CreateGLTexture_of_channels stbi_load g1 f1 "t1" s0 img1 hi1 (Or.inl hc1) (by omega)⟩
    obtain ⟨n1, l1, new1, old1⟩ := CreateGLTexture_entries stbi_load g1 f1 "t1" s0 s1 e1
    rw [h0] at n1 new1
    obtain ⟨s2, e2⟩ : ∃ s2, CreateGLTexture stbi_load g2 f2 "t2" s1 = some (true, s2) :=
      ⟨_, CreateGLTexture_of_channels stbi_load g2 f2 "t2" s1 img2 hi2 (Or.inr hc2) (by omega)⟩
    obtain ⟨n2, _, new2, old2⟩ := CreateGLTexture_entries stbi_load g2 f2 "t2" s1 s2 e2
    rw [n1] at n2 new2 old2
    have h20 : s2.entry 0 = ⟨g1, "t1"⟩ := by rw [old2 0 (by omega), new1]
    refine ⟨s1, s2, e1, e2, n2, ?_, ?_⟩
    · have := FindTexture_of_first s2 "t1" 0 (by omega) (by rw [h20]) (fun j hj => by omega)
      simpa using this.1
    · have := FindTexture_of_first s2 "t2" 1 (by omega) (by rw [new2])
        (fun j hj => by
          have hj0 : j = 0 := by omega
          subst hj0
          rw [h20]
          show "t1" ≠ "t2"
          decide)
      simpa using this.1
  · intro calls s0 s s1 flags filename tag gen h0 hrun hfresh hcall
    have hcount := CreateGLTextures_count stbi_load calls s0 s flags hrun
    rw [h0, Nat.zero_add] at hcount
    obtain ⟨n1, _, new1, old1⟩ := CreateGLTexture_entries stbi_load gen filename tag s s1 hcall
    have := FindTexture_of_first s1 tag s.m_loadedTextures (by omega) (by rw [new1])
      (fun j hj => by rw [old1 j (by omega)]; exact hfresh j hj)
    exact ⟨hcount, by rw [← hcount]; exact this.1⟩

/-- Witness of C10: a 64x64 RGB image under "t1", then a 32x32 RGBA image under "t2", on an
empty registry of capacity 16. -/
theorem CreateGLTexture_slots_in_order_witness :
    ∃ s1 s2,
      CreateGLTexture (fun f => if f = "a.jpg" then some ⟨64, 64, 3⟩ else some ⟨32, 32, 4⟩)
        1 "a.jpg" "t1" ⟨List.replicate 16 default, 0⟩ = some (true, s1) ∧
      CreateGLTexture (fun f => if f = "a.jpg" then some ⟨64, 64, 3⟩ else some ⟨32, 32, 4⟩)
        2 "b.png" "t2" s1 = some (true, s2) ∧
      s2.m_loadedTextures = 2 ∧
      FindTextureSlot "t1" s2 = 0 ∧ FindTextureSlot "t2" s2 = 1 :=
  (CreateGLTexture_slots_in_order
      (fun f => if f = "a.jpg" then some ⟨64, 64, 3⟩ else some ⟨32, 32, 4⟩)).1
    "a.jpg" "b.png" ⟨64, 64, 3⟩ ⟨32, 32, 4⟩ 1 2 ⟨List.replicate 16 default, 0⟩
    rfl (by decide) (by decide) rfl (by decide) rfl

/-! ### Materials -/

theorem FindMaterial.loop_not_found {α : Type} (l : List (OBJECT_MATERIAL α)) (tag : String)
    (hno : ∀ e, e ∈ l → e.tag ≠ tag) (material : OBJECT_MATERIAL α) :
    ∀ (fuel index : Nat), FindMaterial.loop l tag fuel index material = material := by
  intro fuel
  induction fuel with
  | zero => intro index; rfl
  | succ fuel ih =>
    intro index
    unfold FindMaterial.loop
    by_cases h : index < l.length
    · have hmem : l[index] ∈ l := List.getElem_mem h
      simp [h, hno _ hmem, ih]
    · simp [h]

/-- For a tag no entry carries, `FindMaterial` leaves the output material unchanged; the flag
it returns is false for the empty list and true for every other list. -/
theorem FindMaterial_tag_absent {α : Type} (l : List (OBJECT_MATERIAL α)) (tag : String)
    (hno : ∀ e, e ∈ l → e.tag ≠ tag) (material : OBJECT_MATERIAL α) :
    FindMaterial l tag material = (!l.isEmpty, material) := by
  unfold FindMaterial
  cases l with
  | nil => rfl
  | cons e es =>
    simp [FindMaterial.loop_not_found (e :: es) tag hno material]

/-- C3 (code defect): with the one-entry material list [metal] and the undefined tag "wood",
`FindMaterial` leaves the output material unchanged but returns true, not false. -/
theorem FindMaterial_missing_tag_returns_true :
    FindMaterial [(⟨⟨1, 1, 1⟩, ⟨2, 2, 2⟩, 32, "metal"⟩ : OBJECT_MATERIAL ℚ)] "wood"
        ⟨⟨0, 0, 0⟩, ⟨0, 0, 0⟩, 0, ""⟩
      = (true, ⟨⟨0, 0, 0⟩, ⟨0, 0, 0⟩, 0, ""⟩) := by
  decide

/-! ### Transformations -/

/-- C1: with scale (2,1,1), rotation (0,90,0) degrees, position (5,0,0) and offset (0,1,0),
the model matrix of `SetTransformations` maps the local point (1,0,0) to the world point
(5,1,-2), over the reals. -/
theorem SetTransformations_example :
    Matrix.mulVec
        (SetTransformations Real.cos Real.sin Real.sqrt Real.pi ⟨2, 1, 1⟩ 0 90 0 ⟨5, 0, 0⟩
          ⟨0, 1, 0⟩)
        (glm.point ⟨1, 0, 0⟩)
      = glm.point ⟨5, 1, -2⟩ := by
  have h90 : (90 : ℝ) * (Real.pi / 180) = Real.pi / 2 := by ring
  ext i
  fin_cases i <;>
    simp [SetTransformations, glm.scale, glm.rotate, glm.translate, glm.radians, glm.normalize,
      glm.dot, glm.point, glm.vec3.add, h90, Matrix.mul_apply, Matrix.mulVec, Matrix.dotProduct,
      Fin.sum_univ_four]

/-! ### Buffers, vertex streams and triangle lists -/

theorem floatBuffer_length {α : Type} (vs : List (Vertex α)) :
    (floatBuffer vs).length = 8 * vs.length := by
  induction vs with
  | nil => rfl
  | cons w ws ih =>
    simp only [floatBuffer, List.flatMap_cons, List.length_append, List.length_cons] at ih ⊢
    simp only [Vertex.floats, List.length_cons, List.length_nil]
    omega

theorem decodeVertices_floatBuffer {α : Type} (vs : List (Vertex α)) :
    decodeVertices (floatBuffer vs) = vs := by
  induction vs with
  | nil => rfl
  | cons w ws ih =>
    have hcons : floatBuffer (w :: ws) = w.position.x :: w.position.y :: w.position.z ::
        w.normal.x :: w.normal.y :: w.normal.z :: w.u :: w.v :: floatBuffer ws := rfl
    rw [hcons]
    simp only [decodeVertices]
    rw [ih]
    rfl

/-- The vertices drawn from a buffer holding `vs` with the count `vs.length` are `vs`. -/
theorem Mesh.drawn_floatBuffer {α : Type} (vs : List (Vertex α)) (c : Nat)
    (hc : c = vs.length) : (Mesh.mk (floatBuffer vs) c).drawn = vs := by
  simp [Mesh.drawn, decodeVertices_floatBuffer, hc]

theorem length_flatMap_range {β : Type} (f : Nat → List β) (k : Nat)
    (hf : ∀ i, (f i).length = k) : ∀ n, ((List.range n).flatMap f).length = n * k := by
  intro n
  induction n with
  | zero => simp
  | succ n ih =>
    rw [List.range_succ, List.flatMap_append, List.length_append, ih]
    simp [hf, Nat.succ_mul]

theorem triangles_length {α : Type} : ∀ (n : Nat) (vs : List (Vertex α)),
    vs.length = 3 * n → (triangles vs).length = n := by
  intro n
  induction n with
  | zero =>
    intro vs h
    have : vs = [] := List.length_eq_zero.mp (by omega)
    subst this
    rfl
  | succ n ih =>
    intro vs h
    match vs, h with
    | a :: b :: c :: rest, h =>
      simp only [triangles, List.length_cons]
      rw [ih rest (by simp only [List.length_cons] at h; omega)]
    | [], h => simp at h
    | [_], h => simp at h; omega
    | [_, _], h => simp at h; omega

theorem Mesh.hasCount_of_length {α : Type} (vs : List (Vertex α)) (c n t : Nat)
    (hn : n = 3 * t) (hlen : vs.length = n) (hc : c = n) :
    (Mesh.mk (floatBuffer vs) c).HasCount n t := by
  subst hn
  have hc2 : c = vs.length := by omega
  have htri : (Mesh.mk (floatBuffer vs) c).triangles.length = t := by
    simp only [Mesh.triangles, Mesh.drawn_floatBuffer vs c hc2, triangles_length t vs hlen]
  refine ⟨?_, hc, htri, ?_⟩
  · simp [floatBuffer_length, hc, hlen]
  · rw [htri]; exact hc

/-! ### Vertex counts of the generated meshes -/

section Counts

variable {α : Type} [Field α] (cosf sinf sqrtf : α → α) (kPi : α)

theorem planeVertices_length : (planeVertices : List (Vertex α)).length = 6 := rfl

theorem boxVertices_length : (boxVertices : List (Vertex α)).length = 36 := rfl

theorem wedgeVertices_length : (wedgeVertices : List (Vertex α)).length = 24 := rfl

theorem cylinderVertices_length : (cylinderVertices cosf sinf kPi).length = 384 :=
  length_flatMap_range (cylinderSegment cosf sinf kPi 64) 6 (fun _ => rfl) 64

theorem hollowCylinderVertices_length : (hollowCylinderVertices cosf sinf kPi).length = 768 :=
  length_flatMap_range (hollowCylinderSegment cosf sinf kPi 64) 12 (fun _ => rfl) 64

theorem torusVertices_length : (torusVertices cosf sinf sqrtf kPi).length = 4608 :=
  length_flatMap_range
    (fun i => (List.range 24).flatMap fun j => torusQuad cosf sinf sqrtf kPi 64 24 i j) 144
    (fun i => length_flatMap_range (torusQuad cosf sinf sqrtf kPi 64 24 i) 6 (fun _ => rfl) 24)
    32

theorem flatSphereVertices_length : (flatSphereVertices cosf sinf sqrtf kPi).length = 6912 :=
  length_flatMap_range
    (fun i => (List.range 48).flatMap fun j => flatSphereQuad cosf sinf sqrtf kPi 24 48 i j) 288
    (fun i =>
      length_flatMap_range (flatSphereQuad cosf sinf sqrtf kPi 24 48 i) 6 (fun _ => rfl) 48)
    24

theorem hemisphereVertices_length : (hemisphereVertices cosf sinf sqrtf kPi).length = 4608 :=
  length_flatMap_range
    (fun i => (List.range 48).flatMap fun j => hemisphereQuad cosf sinf sqrtf kPi 16 48 i j) 288
    (fun i =>
      length_flatMap_range (hemisphereQuad cosf sinf sqrtf kPi 16 48 i) 6 (fun _ => rfl) 48)
    16

theorem pentagonalPrismVertices_length :
    (pentagonalPrismVertices cosf sinf sqrtf kPi).length = 60 := by
  unfold pentagonalPrismVertices
  simp only [List.length_append]
  rw [length_flatMap_range (prismSide cosf sinf sqrtf kPi 5) 6 (fun _ => rfl) 5,
    length_flatMap_range (prismTop cosf sinf kPi 5) 3 (fun _ => rfl) 5,
    length_flatMap_range (prismBottom cosf sinf kPi 5) 3 (fun _ => rfl) 5]

/-- C4: every mesh generator produces a float buffer of exactly 8 floats per recorded vertex,
and the recorded vertex count is 3 times the number of triangles rendered: plane 6, box 36,
wedge 24, cylinder 384 (64 x 2 triangles), hollow cylinder 768 (64 x 4), torus 4608
(32 x 24 x 2), flat sphere 6912 (24 x 48 x 2), hemisphere 4608 (16 x 48 x 2), pentagonal
prism 60 (10 + 5 + 5 triangles); this holds for any float arithmetic. -/
theorem mesh_vertex_counts :
    (LoadPlaneMesh : Mesh α).HasCount 6 2 ∧
    (LoadBoxMesh : Mesh α).HasCount 36 12 ∧
    (LoadWedgeMesh : Mesh α).HasCount 24 8 ∧
    (LoadCylinderMesh cosf sinf kPi).HasCount 384 (64 * 2) ∧
    (LoadHollowCylinderMesh cosf sinf kPi).HasCount 768 (64 * 4) ∧
    (LoadTorusMesh cosf sinf sqrtf kPi).HasCount 4608 (32 * 24 * 2) ∧
    (LoadFlatSphereMesh cosf sinf sqrtf kPi).HasCount 6912 (24 * 48 * 2) ∧
    (LoadHemisphereMesh cosf sinf sqrtf kPi).HasCount 4608 (16 * 48 * 2) ∧
    (LoadPentagonalPrismMesh cosf sinf sqrtf kPi).HasCount 60 (10 + 5 + 5) := by
  refine ⟨?_, ?_, ?_, ?_, ?_, ?_, ?_, ?_, ?_⟩
  · exact Mesh.hasCount_of_length _ _ 6 2 rfl planeVertices_length rfl
  · exact Mesh.hasCount_of_length _ _ 36 12 rfl boxVertices_length
      (by rw [floatBuffer_length, boxVertices_length])
  · exact Mesh.hasCount_of_length _ _ 24 8 rfl wedgeVertices_length
      (by rw [floatBuffer_length, wedgeVertices_length])
  · exact Mesh.hasCount_of_length _ _ 384 _ rfl (cylinderVertices_length cosf sinf kPi)
      (by rw [floatBuffer_length, cylinderVertices_length])
  · exact Mesh.hasCount_of_length _ _ 768 _ rfl (hollowCylinderVertices_length cosf sinf kPi)
      (by rw [floatBuffer_length, hollowCylinderVertices_length])
  · exact Mesh.hasCount_of_length _ _ 4608 _ rfl (torusVertices_length cosf sinf sqrtf kPi)
      (by rw [floatBuffer_length, torusVertices_length])
  · exact Mesh.hasCount_of_length _ _ 6912 _ rfl (flatSphereVertices_length cosf sinf sqrtf kPi)
      (by rw [floatBuffer_length, flatSphereVertices_length])
  · exact Mesh.hasCount_of_length _ _ 4608 _ rfl (hemisphereVertices_length cosf sinf sqrtf kPi)
      (by rw [floatBuffer_length, hemisphereVertices_length])
  · exact Mesh.hasCount_of_length _ _ 60 _ rfl
      (pentagonalPrismVertices_length cosf sinf sqrtf kPi)
      (by rw [floatBuffer_length, pentagonalPrismVertices_length])

end Counts

/-! ### The drawn vertices of each mesh -/

section Drawn

variable {α : Type} [Field α] (cosf sinf sqrtf : α → α) (kPi : α)

theorem LoadPlaneMesh_drawn : (LoadPlaneMesh : Mesh α).drawn = planeVertices :=
  Mesh.drawn_floatBuffer _ _ planeVertices_length.symm

theorem LoadBoxMesh_drawn : (LoadBoxMesh : Mesh α).drawn = boxVertices :=
  Mesh.drawn_floatBuffer boxVertices _ (by rw [floatBuffer_length, boxVertices_length])

theorem LoadWedgeMesh_drawn : (LoadWedgeMesh : Mesh α).drawn = wedgeVertices :=
  Mesh.drawn_floatBuffer wedgeVertices _ (by rw [floatBuffer_length, wedgeVertices_length])

theorem LoadCylinderMesh_drawn :
    (LoadCylinderMesh cosf sinf kPi).drawn = cylinderVertices cosf sinf kPi :=
  Mesh.drawn_floatBuffer (cylinderVertices cosf sinf kPi) _
    (by rw [floatBuffer_length, cylinderVertices_length])

theorem LoadHollowCylinderMesh_drawn :
    (LoadHollowCylinderMesh cosf sinf kPi).drawn = hollowCylinderVertices cosf sinf kPi :=
  Mesh.drawn_floatBuffer (hollowCylinderVertices cosf sinf kPi) _
    (by rw [floatBuffer_length, hollowCylinderVertices_length])

theorem LoadTorusMesh_drawn :
    (LoadTorusMesh cosf sinf sqrtf kPi).drawn = torusVertices cosf sinf sqrtf kPi :=
  Mesh.drawn_floatBuffer (torusVertices cosf sinf sqrtf kPi) _
    (by rw [floatBuffer_length, torusVertices_length])

theorem LoadFlatSphereMesh_drawn :
    (LoadFlatSphereMesh cosf sinf sqrtf kPi).drawn = flatSphereVertices cosf sinf sqrtf kPi :=
  Mesh.drawn_floatBuffer (flatSphereVertices cosf sinf sqrtf kPi) _
    (by rw [floatBuffer_length, flatSphereVertices_length])

theorem LoadHemisphereMesh_drawn :
    (LoadHemisphereMesh cosf sinf sqrtf kPi).drawn = hemisphereVertices cosf sinf sqrtf kPi :=
  Mesh.drawn_floatBuffer (hemisphereVertices cosf sinf sqrtf kPi) _
    (by rw [floatBuffer_length, hemisphereVertices_length])

theorem LoadPentagonalPrismMesh_drawn :
    (LoadPentagonalPrismMesh cosf sinf sqrtf kPi).drawn
      = pentagonalPrismVertices cosf sinf sqrtf kPi :=
  Mesh.drawn_floatBuffer (pentagonalPrismVertices cosf sinf sqrtf kPi) _
    (by rw [floatBuffer_length, pentagonalPrismVertices_length])

end Drawn

/-! ### Unit normals -/

theorem unit_of_dot_eq_one (n : glm.vec3 ℝ) (h : glm.dot n n = 1) :
    |glm.length Real.sqrt n - 1| ≤ 0.000001 := by
  simp only [glm.length, h, Real.sqrt_one, sub_self, abs_zero]
  norm_num

theorem dot_normalize (v : glm.vec3 ℝ) (hv : 0 < glm.dot v v) :
    glm.dot (glm.normalize Real.sqrt v) (glm.normalize Real.sqrt v) = 1 := by
  have hs : Real.sqrt (glm.dot v v) ^ 2 = glm.dot v v := Real.sq_sqrt hv.le
  have hs0 : Real.sqrt (glm.dot v v) ≠ 0 := (Real.sqrt_pos.mpr hv).ne'
  have hexp : glm.dot (glm.normalize Real.sqrt v) (glm.normalize Real.sqrt v)
      = glm.dot v v / Real.sqrt (glm.dot v v) ^ 2 := by
    simp only [glm.normalize, glm.dot]
    field_simp
    ring
  rw [hexp, hs]
  exact div_self hv.ne'

theorem unit_normalize (v : glm.vec3 ℝ) (hv : 0 < glm.dot v v) :
    |glm.length Real.sqrt (glm.normalize Real.sqrt v) - 1| ≤ 0.000001 :=
  unit_of_dot_eq_one _ (dot_normalize v hv)

theorem planeVertices_unit (w : Vertex ℝ) (hw : w ∈ (planeVertices : List (Vertex ℝ))) :
    glm.dot w.normal w.normal = 1 := by
  revert w
  simp [planeVertices, vtx, glm.dot]

theorem boxVertices_unit (w : Vertex ℝ) (hw : w ∈ (boxVertices : List (Vertex ℝ))) :
    glm.dot w.normal w.normal = 1 := by
  revert w
  simp [boxVertices, vtx, glm.dot]

theorem wedgeVertices_unit (w : Vertex ℝ) (hw : w ∈ (wedgeVertices : List (Vertex ℝ))) :
    glm.dot w.normal w.normal = 1 ∨
      glm.dot w.normal w.normal = 0.70710678 * 0.70710678 + 0.70710678 * 0.70710678 := by
  revert w
  simp [wedgeVertices, vtx, glm.dot]

theorem unit_wedge_slope :
    |Real.sqrt (0.70710678 * 0.70710678 + 0.70710678 * 0.70710678) - 1| ≤ 0.000001 := by
  have hle : Real.sqrt (0.70710678 * 0.70710678 + 0.70710678 * 0.70710678) ≤ 1 := by
    rw [Real.sqrt_le_iff]
    norm_num
  have hge : (1 - 0.000001 : ℝ)
      ≤ Real.sqrt (0.70710678 * 0.70710678 + 0.70710678 * 0.70710678) := by
    apply Real.le_sqrt_of_sq_le
    norm_num
  rw [abs_le]
  constructor <;> linarith

theorem sq_chord_pos (a b : ℝ) (h1 : -(2 * Real.pi) < a - b) (h2 : a - b < 2 * Real.pi)
    (h3 : a - b ≠ 0) :
    0 < (Real.sin a - Real.sin b) ^ 2 + (Real.cos b - Real.cos a) ^ 2 := by
  have key : (Real.sin a - Real.sin b) ^ 2 + (Real.cos b - Real.cos a) ^ 2
      = 2 - 2 * Real.cos (a - b) := by
    rw [Real.cos_sub]
    linear_combination (Real.sin_sq_add_cos_sq a) + (Real.sin_sq_add_cos_sq b)
  have hlt : Real.cos (a - b) < 1 :=
    lt_of_le_of_ne (Real.cos_le_one _)
      (fun h => h3 ((Real.cos_eq_one_iff_of_lt_of_lt h1 h2).mp h))
  rw [key]
  linarith

theorem cylinderVertices_unit (w : Vertex ℝ)
    (hw : w ∈ cylinderVertices Real.cos Real.sin Real.pi) :
    glm.dot w.normal w.normal = 1 := by
  simp only [cylinderVertices, List.mem_flatMap, List.mem_range] at hw
  obtain ⟨i, -, hw⟩ := hw
  simp only [cylinderSegment, List.mem_cons, List.mem_singleton, List.not_mem_nil,
    or_false] at hw
  rcases hw with rfl | rfl | rfl | rfl | rfl | rfl <;>
    simp [vtx, glm.dot, ← sq]

theorem hollowCylinderVertices_unit (w : Vertex ℝ)
    (hw : w ∈ hollowCylinderVertices Real.cos Real.sin Real.pi) :
    glm.dot w.normal w.normal = 1 := by
  simp only [hollowCylinderVertices, List.mem_flatMap, List.mem_range] at hw
  obtain ⟨i, -, hw⟩ := hw
  simp only [hollowCylinderSegment, List.mem_cons, List.mem_singleton, List.not_mem_nil,
    or_false] at hw
  rcases hw with rfl | rfl | rfl | rfl | rfl | rfl | rfl | rfl | rfl | rfl | rfl | rfl <;>
    simp [vtx, glm.dot, ← sq]

theorem torusMakeVertex_unit (u v angleU angleV : ℝ) :
    |glm.length Real.sqrt
        (torusMakeVertex Real.cos Real.sin Real.sqrt u v angleU angleV).normal - 1|
      ≤ 0.000001 := by
  have h1 : glm.dot (⟨Real.cos angleU * Real.cos angleV, Real.sin angleV,
      Real.sin angleU * Real.cos angleV⟩ : glm.vec3 ℝ) ⟨Real.cos angleU * Real.cos angleV,
      Real.sin angleV, Real.sin angleU * Real.cos angleV⟩ = 1 := by
    simp only [glm.dot]
    linear_combination (Real.cos angleV) ^ 2 * (Real.sin_sq_add_cos_sq angleU)
      + (Real.sin_sq_add_cos_sq angleV)
  exact unit_normalize _ (by rw [h1]; norm_num)

theorem flatSphereMakeVertex_unit (u v theta phi : ℝ) :
    |glm.length Real.sqrt
        (flatSphereMakeVertex Real.cos Real.sin Real.sqrt u v theta phi).normal - 1|
      ≤ 0.000001 := by
  have h1 : glm.dot (⟨0.5 * Real.sin theta * Real.cos phi, 0.5 * Real.cos theta,
      0.5 * Real.sin theta * Real.sin phi⟩ : glm.vec3 ℝ) ⟨0.5 * Real.sin theta * Real.cos phi,
      0.5 * Real.cos theta, 0.5 * Real.sin theta * Real.sin phi⟩ = 0.25 := by
    simp only [glm.dot]
    linear_combination (0.25 * (Real.sin theta) ^ 2) * (Real.sin_sq_add_cos_sq phi)
      + 0.25 * (Real.sin_sq_add_cos_sq theta)
  exact unit_normalize _ (by rw [h1]; norm_num)

theorem hemisphereMakeVertex_unit (u v phi theta : ℝ) :
    |glm.length Real.sqrt
        (hemisphereMakeVertex Real.cos Real.sin Real.sqrt u v phi theta).normal - 1|
      ≤ 0.000001 := by
  have h1 : glm.dot (⟨0.5 * Real.cos phi, 0.5 * Real.sin phi * Real.cos theta,
      0.5 * Real.sin phi * Real.sin theta⟩ : glm.vec3 ℝ) ⟨0.5 * Real.cos phi,
      0.5 * Real.sin phi * Real.cos theta, 0.5 * Real.sin phi * Real.sin theta⟩ = 0.25 := by
    simp only [glm.dot]
    linear_combination (0.25 * (Real.sin phi) ^ 2) * (Real.sin_sq_add_cos_sq theta)
      + 0.25 * (Real.sin_sq_add_cos_sq phi)
  exact unit_normalize _ (by rw [h1]; norm_num)

theorem prismRing_edge_pos (i : Nat) (hi : i < 5) :
    0 < glm.dot
      (⟨(prismRing Real.cos Real.sin Real.pi i).z
          - (prismRing Real.cos Real.sin Real.pi ((i + 1) % 5)).z, 0,
        (prismRing Real.cos Real.sin Real.pi ((i + 1) % 5)).x
          - (prismRing Real.cos Real.sin Real.pi i).x⟩ : glm.vec3 ℝ)
      ⟨(prismRing Real.cos Real.sin Real.pi i).z
          - (prismRing Real.cos Real.sin Real.pi ((i + 1) % 5)).z, 0,
        (prismRing Real.cos Real.sin Real.pi ((i + 1) % 5)).x
          - (prismRing Real.cos Real.sin Real.pi i).x⟩ := by
  have hpi := Real.pi_pos
  have h : ∀ a b : ℝ, -(2 * Real.pi) < a - b → a - b < 2 * Real.pi → a - b ≠ 0 →
      0 < glm.dot (⟨0.5 * Real.sin a - 0.5 * Real.sin b, 0,
          0.5 * Real.cos b - 0.5 * Real.cos a⟩ : glm.vec3 ℝ)
        ⟨0.5 * Real.sin a - 0.5 * Real.sin b, 0, 0.5 * Real.cos b - 0.5 * Real.cos a⟩ := by
    intro a b h1 h2 h3
    have hc := sq_chord_pos a b h1 h2 h3
    simp only [glm.dot]
    nlinarith
  interval_cases i
  all_goals
    refine h _ _ ?_ ?_ ?_
    · simp [glm.radians]; linarith
    · simp [glm.radians]; linarith
    · simp [glm.radians]; linarith

theorem pentagonalPrismVertices_unit (w : Vertex ℝ)
    (hw : w ∈ pentagonalPrismVertices Real.cos Real.sin Real.sqrt Real.pi) :
    |glm.length Real.sqrt w.normal - 1| ≤ 0.000001 := by
  simp only [pentagonalPrismVertices, List.mem_append, List.mem_flatMap, List.mem_range] at hw
  rcases hw with (⟨i, hi, hw⟩ | ⟨i, hi, hw⟩) | ⟨i, hi, hw⟩
  · simp only [prismSide, List.mem_cons, List.mem_singleton, List.not_mem_nil, or_false] at hw
    rcases hw with rfl | rfl | rfl | rfl | rfl | rfl <;>
      exact unit_normalize _ (prismRing_edge_pos i hi)
  · simp only [prismTop, List.mem_cons, List.mem_singleton, List.not_mem_nil, or_false] at hw
    rcases hw with rfl | rfl | rfl <;>
      exact unit_of_dot_eq_one _ (by simp [vtx, glm.dot])
  · simp only [prismBottom, List.mem_cons, List.mem_singleton, List.not_mem_nil, or_false] at hw
    rcases hw with rfl | rfl | rfl <;>
      exact unit_of_dot_eq_one _ (by simp [vtx, glm.dot])

/-- C6: every normal stored in every generated mesh (plane, box, wedge, cylinder, hollow
cylinder, torus, flat sphere, hemisphere, pentagonal prism) has Euclidean length 1 within
1e-6 over the reals, the wedge's slope normal (0, 0.70710678, -0.70710678) and the normalized
prism side normals included. -/
theorem normals_unit_length :
    (LoadPlaneMesh : Mesh ℝ).NormalsUnit ∧
    (LoadBoxMesh : Mesh ℝ).NormalsUnit ∧
    (LoadWedgeMesh : Mesh ℝ).NormalsUnit ∧
    (LoadCylinderMesh Real.cos Real.sin Real.pi).NormalsUnit ∧
    (LoadHollowCylinderMesh Real.cos Real.sin Real.pi).NormalsUnit ∧
    (LoadTorusMesh Real.cos Real.sin Real.sqrt Real.pi).NormalsUnit ∧
    (LoadFlatSphereMesh Real.cos Real.sin Real.sqrt Real.pi).NormalsUnit ∧
    (LoadHemisphereMesh Real.cos Real.sin Real.sqrt Real.pi).NormalsUnit ∧
    (LoadPentagonalPrismMesh Real.cos Real.sin Real.sqrt Real.pi).NormalsUnit := by
  refine ⟨?_, ?_, ?_, ?_, ?_, ?_, ?_, ?_, ?_⟩
  · intro w hw
    rw [LoadPlaneMesh_drawn] at hw
    exact unit_of_dot_eq_one _ (planeVertices_unit w hw)
  · intro w hw
    rw [LoadBoxMesh_drawn] at hw
    exact unit_of_dot_eq_one _ (boxVertices_unit w hw)
  · intro w hw
    rw [LoadWedgeMesh_drawn] at hw
    rcases wedgeVertices_unit w hw with h | h
    · exact unit_of_dot_eq_one _ h
    · simp only [glm.length, h]
      exact unit_wedge_slope
  · intro w hw
    rw [LoadCylinderMesh_drawn] at hw
    exact unit_of_dot_eq_one _ (cylinderVertices_unit w hw)
  · intro w hw
    rw [LoadHollowCylinderMesh_drawn] at hw
    exact unit_of_dot_eq_one _ (hollowCylinderVertices_unit w hw)
  · intro w hw
    rw [LoadTorusMesh_drawn] at hw
    simp only [torusVertices, List.mem_flatMap, List.mem_range] at hw
    obtain ⟨i, -, j, -, hw⟩ := hw
    simp only [torusQuad, List.mem_cons, List.mem_singleton, List.not_mem_nil, or_false] at hw
    rcases hw with rfl | rfl | rfl | rfl | rfl | rfl <;> exact torusMakeVertex_unit _ _ _ _
  · intro w hw
    rw [LoadFlatSphereMesh_drawn] at hw
    simp only [flatSphereVertices, List.mem_flatMap, List.mem_range] at hw
    obtain ⟨i, -, j, -, hw⟩ := hw
    simp only [flatSphereQuad, List.mem_cons, List.mem_singleton, List.not_mem_nil,
      or_false] at hw
    rcases hw with rfl | rfl | rfl | rfl | rfl | rfl <;>
      exact flatSphereMakeVertex_unit _ _ _ _
  · intro w hw
    rw [LoadHemisphereMesh_drawn] at hw
    simp only [hemisphereVertices, List.mem_flatMap, List.mem_range] at hw
    obtain ⟨i, -, j, -, hw⟩ := hw
    simp only [hemisphereQuad, List.mem_cons, List.mem_singleton, List.not_mem_nil,
      or_false] at hw
    rcases hw with rfl | rfl | rfl | rfl | rfl | rfl <;>
      exact hemisphereMakeVertex_unit _ _ _ _
  · intro w hw
    rw [LoadPentagonalPrismMesh_drawn] at hw
    exact pentagonalPrismVertices_unit w hw

/-! ### Triangle lists of concatenated blocks -/

theorem triangles_append {α : Type} : ∀ (k : Nat) (l1 l2 : List (Vertex α)),
    l1.length = 3 * k → triangles (l1 ++ l2) = triangles l1 ++ triangles l2 := by
  intro k
  induction k with
  | zero =>
    intro l1 l2 h
    have : l1 = [] := List.length_eq_zero.mp (by omega)
    subst this
    simp [triangles]
  | succ k ih =>
    intro l1 l2 h
    match l1, h with
    | a :: b :: c :: rest, h =>
      have hrest := ih rest l2 (by simp only [List.length_cons] at h; omega)
      show triangles (a :: b :: c :: (rest ++ l2)) = triangles (a :: b :: c :: rest) ++ _
      simp only [triangles, hrest, List.cons_append]
    | [], h => simp at h
    | [_], h => simp at h; omega
    | [_, _], h => simp at h; omega

theorem triangles_flatMap {α β : Type} (f : β → List (Vertex α)) (k : Nat)
    (hf : ∀ x, (f x).length = 3 * k) :
    ∀ L : List β, triangles (L.flatMap f) = L.flatMap (fun x => triangles (f x)) := by
  intro L
  induction L with
  | nil => simp [triangles]
  | cons x xs ih =>
    rw [List.flatMap_cons, List.flatMap_cons, triangles_append k _ _ (hf x), ih]

theorem triangles_six {α : Type} (a b c d e f : Vertex α) :
    triangles [a, b, c, d, e, f] = [⟨a, b, c⟩, ⟨d, e, f⟩] := rfl

theorem triangles_three {α : Type} (a b c : Vertex α) :
    triangles [a, b, c] = [⟨a, b, c⟩] := rfl

/-! ### Distinct points of a circle -/

theorem circle_ne (a b : ℝ) (h1 : -(2 * Real.pi) < a - b) (h2 : a - b < 2 * Real.pi)
    (h3 : a - b ≠ 0) : ¬ (Real.sin a = Real.sin b ∧ Real.cos a = Real.cos b) := by
  rintro ⟨hs, hc⟩
  have := sq_chord_pos a b h1 h2 h3
  rw [hs, hc] at this
  simp at this

theorem circle_step (n : Nat) (hn : 2 ≤ n) (i : Nat) :
    ¬ (Real.sin (((i + 1 : Nat) : ℝ) / (n : ℝ) * 2 * Real.pi)
          = Real.sin ((i : ℝ) / (n : ℝ) * 2 * Real.pi) ∧
        Real.cos (((i + 1 : Nat) : ℝ) / (n : ℝ) * 2 * Real.pi)
          = Real.cos ((i : ℝ) / (n : ℝ) * 2 * Real.pi)) := by
  have hpi := Real.pi_pos
  have hn0 : (0 : ℝ) < n := by exact_mod_cast (by omega : 0 < n)
  have hn2 : (2 : ℝ) ≤ n := by exact_mod_cast hn
  have hd : ((i + 1 : Nat) : ℝ) / (n : ℝ) * 2 * Real.pi - (i : ℝ) / (n : ℝ) * 2 * Real.pi
      = 2 * Real.pi / n := by
    push_cast
    field_simp
    ring
  have hpos : 0 < 2 * Real.pi / n := by positivity
  have hlt : 2 * Real.pi / n < 2 * Real.pi := by
    rw [div_lt_iff₀ hn0]
    nlinarith
  apply circle_ne
  · rw [hd]; linarith
  · rw [hd]; exact hlt
  · rw [hd]; exact hpos.ne'

/-! ### Non-degenerate triangles -/

theorem planeVertices_nondegenerate (t : Triangle ℝ)
    (ht : t ∈ triangles (planeVertices : List (Vertex ℝ))) : t.NonDegenerate := by
  revert t
  simp only [planeVertices, triangles, List.mem_cons, List.mem_singleton, List.not_mem_nil,
    or_false, forall_eq_or_imp, forall_eq]
  refine ⟨?_, ?_⟩ <;>
    (simp only [Triangle.NonDegenerate, Triangle.winding, glm.cross, glm.vec3.sub, vtx, ne_eq,
      glm.vec3.mk.injEq]; norm_num)

theorem boxVertices_nondegenerate (t : Triangle ℝ)
    (ht : t ∈ triangles (boxVertices : List (Vertex ℝ))) : t.NonDegenerate := by
  revert t
  simp only [boxVertices, triangles, List.mem_cons, List.mem_singleton, List.not_mem_nil,
    or_false, forall_eq_or_imp, forall_eq]
  refine ⟨?_, ?_, ?_, ?_, ?_, ?_, ?_, ?_, ?_, ?_, ?_, ?_⟩ <;>
    (simp only [Triangle.NonDegenerate, Triangle.winding, glm.cross, glm.vec3.sub, vtx, ne_eq,
      glm.vec3.mk.injEq]; norm_num)

theorem wedgeVertices_nondegenerate (t : Triangle ℝ)
    (ht : t ∈ triangles (wedgeVertices : List (Vertex ℝ))) : t.NonDegenerate := by
  revert t
  simp only [wedgeVertices, triangles, List.mem_cons, List.mem_singleton, List.not_mem_nil,
    or_false, forall_eq_or_imp, forall_eq]
  refine ⟨?_, ?_, ?_, ?_, ?_, ?_, ?_, ?_⟩ <;>
    (simp only [Triangle.NonDegenerate, Triangle.winding, glm.cross, glm.vec3.sub, vtx, ne_eq,
      glm.vec3.mk.injEq]; norm_num)

theorem cylinderSegment_nondegenerate (i : Nat) (t : Triangle ℝ)
    (ht : t ∈ triangles (cylinderSegment Real.cos Real.sin Real.pi 64 i)) :
    t.NonDegenerate := by
  have hstep := circle_step 64 (by norm_num) i
  simp only [cylinderSegment, triangles, List.mem_cons, List.mem_singleton, List.not_mem_nil,
    or_false] at ht
  rcases ht with rfl | rfl
  all_goals
    intro h
    have hy := congrArg glm.vec3.y h
    have hz := congrArg glm.vec3.z h
    simp only [Triangle.winding, glm.cross, glm.vec3.sub, vtx] at hy hz
    apply hstep
    constructor <;> linarith

theorem hollowCylinderSegment_nondegenerate (i : Nat) (t : Triangle ℝ)
    (ht : t ∈ triangles (hollowCylinderSegment Real.cos Real.sin Real.pi 64 i)) :
    t.NonDegenerate := by
  have hstep := circle_step 64 (by norm_num) i
  simp only [hollowCylinderSegment, triangles, List.mem_cons, List.mem_singleton,
    List.not_mem_nil, or_false] at ht
  rcases ht with rfl | rfl | rfl | rfl
  all_goals
    intro h
    have hx := congrArg glm.vec3.x h
    have hz := congrArg glm.vec3.z h
    simp only [Triangle.winding, glm.cross, glm.vec3.sub, vtx] at hx hz
    apply hstep
    constructor <;> linarith

theorem eq_of_mul_sub_eq_zero (k x y : ℝ) (hk : k ≠ 0) (h : k * (x - y) = 0) : x = y := by
  rcases mul_eq_zero.mp h with h0 | h0
  · exact absurd h0 hk
  · linarith

theorem sin_minor_step_ne (j : Nat) :
    Real.sin (((j + 1 : Nat) : ℝ) / ((24 : Nat) : ℝ) * 2 * Real.pi)
      ≠ Real.sin ((j : ℝ) / ((24 : Nat) : ℝ) * 2 * Real.pi) := by
  intro h
  have hpi := Real.pi_pos
  have hsub := Real.sin_sub_sin (((j + 1 : Nat) : ℝ) / ((24 : Nat) : ℝ) * 2 * Real.pi)
    ((j : ℝ) / ((24 : Nat) : ℝ) * 2 * Real.pi)
  rw [h, sub_self] at hsub
  have e1 : (((j + 1 : Nat) : ℝ) / ((24 : Nat) : ℝ) * 2 * Real.pi
      - (j : ℝ) / ((24 : Nat) : ℝ) * 2 * Real.pi) / 2 = Real.pi / 24 := by
    push_cast; ring
  have e2 : (((j + 1 : Nat) : ℝ) / ((24 : Nat) : ℝ) * 2 * Real.pi
      + (j : ℝ) / ((24 : Nat) : ℝ) * 2 * Real.pi) / 2 = (2 * (j : ℝ) + 1) * Real.pi / 24 := by
    push_cast; ring
  rw [e1, e2] at hsub
  have hs : 0 < Real.sin (Real.pi / 24) :=
    Real.sin_pos_of_pos_of_lt_pi (by positivity) (by linarith)
  have hc : Real.cos ((2 * (j : ℝ) + 1) * Real.pi / 24) = 0 := by
    rcases mul_eq_zero.mp hsub.symm with h0 | h0
    · rcases mul_eq_zero.mp h0 with h1 | h1
      · norm_num at h1
      · exact absurd h1 hs.ne'
    · exact h0
  obtain ⟨k, hk⟩ := Real.cos_eq_zero_iff.mp hc
  have hk2 : (2 * (j : ℝ) + 1) = 12 * (2 * (k : ℝ) + 1) := by
    have hmul : ((2 * (j : ℝ) + 1) - 12 * (2 * (k : ℝ) + 1)) * Real.pi = 0 := by
      linear_combination 24 * hk
    rcases mul_eq_zero.mp hmul with h0 | h0
    · linarith
    · exact absurd h0 hpi.ne'
  have hk3 : (2 * (j : ℤ) + 1) = 12 * (2 * k + 1) := by exact_mod_cast hk2
  omega

theorem torus_rho_pos (V : ℝ) : 0 < (0.9 : ℝ) + 0.15 * Real.cos V := by
  have := Real.neg_one_le_cos V
  linarith

theorem torus_tri1_nondegenerate (u0 u1 v0 v1 U0 U1 V0 V1 : ℝ)
    (hV : Real.sin V1 ≠ Real.sin V0)
    (hU : ¬ (Real.sin U1 = Real.sin U0 ∧ Real.cos U1 = Real.cos U0)) :
    (Triangle.mk (torusMakeVertex Real.cos Real.sin Real.sqrt u0 v0 U0 V0)
      (torusMakeVertex Real.cos Real.sin Real.sqrt u1 v0 U1 V0)
      (torusMakeVertex Real.cos Real.sin Real.sqrt u1 v1 U1 V1)).NonDegenerate := by
  intro h
  have hx := congrArg glm.vec3.x h
  have hz := congrArg glm.vec3.z h
  simp only [Triangle.winding, glm.cross, glm.vec3.sub, vtx, torusMakeVertex] at hx hz
  have hk : (0.15 * (Real.sin V1 - Real.sin V0)) * (0.9 + 0.15 * Real.cos V0) ≠ 0 :=
    mul_ne_zero (mul_ne_zero (by norm_num) (sub_ne_zero.mpr hV)) (torus_rho_pos V0).ne'
  apply hU
  constructor
  · exact eq_of_mul_sub_eq_zero _ _ _ hk (by linear_combination (-1 : ℝ) * hx)
  · exact eq_of_mul_sub_eq_zero _ _ _ hk (by linear_combination hz)

theorem torus_tri2_nondegenerate (u0 u1 v0 v1 U0 U1 V0 V1 : ℝ)
    (hV : Real.sin V1 ≠ Real.sin V0)
    (hU : ¬ (Real.sin U1 = Real.sin U0 ∧ Real.cos U1 = Real.cos U0)) :
    (Triangle.mk (torusMakeVertex Real.cos Real.sin Real.sqrt u0 v0 U0 V0)
      (torusMakeVertex Real.cos Real.sin Real.sqrt u1 v1 U1 V1)
      (torusMakeVertex Real.cos Real.sin Real.sqrt u0 v1 U0 V1)).NonDegenerate := by
  intro h
  have hx := congrArg glm.vec3.x h
  have hz := congrArg glm.vec3.z h
  simp only [Triangle.winding, glm.cross, glm.vec3.sub, vtx, torusMakeVertex] at hx hz
  have hk : (0.15 * (Real.sin V1 - Real.sin V0)) * (0.9 + 0.15 * Real.cos V1) ≠ 0 :=
    mul_ne_zero (mul_ne_zero (by norm_num) (sub_ne_zero.mpr hV)) (torus_rho_pos V1).ne'
  apply hU
  constructor
  · exact eq_of_mul_sub_eq_zero _ _ _ hk (by linear_combination (-1 : ℝ) * hx)
  · exact eq_of_mul_sub_eq_zero _ _ _ hk (by linear_combination hz)

theorem torusQuad_nondegenerate (i j : Nat) (t : Triangle ℝ)
    (ht : t ∈ triangles (torusQuad Real.cos Real.sin Real.sqrt Real.pi 64 24 i j)) :
    t.NonDegenerate := by
  simp only [torusQuad, triangles, List.mem_cons, List.mem_singleton, List.not_mem_nil,
    or_false] at ht
  rcases ht with rfl | rfl
  · exact torus_tri1_nondegenerate _ _ _ _ _ _ _ _ (sin_minor_step_ne j)
      (circle_step 64 (by norm_num) i)
  · exact torus_tri2_nondegenerate _ _ _ _ _ _ _ _ (sin_minor_step_ne j)
      (circle_step 64 (by norm_num) i)

theorem flatSphere_tri1 (u0 u1 v0 v1 theta0 theta1 phi0 phi1 : ℝ)
    (hc : Real.cos theta1 ≠ Real.cos theta0)
    (hphi : ¬ (Real.sin phi1 = Real.sin phi0 ∧ Real.cos phi1 = Real.cos phi0)) :
    (Triangle.mk (flatSphereMakeVertex Real.cos Real.sin Real.sqrt u0 v0 theta0 phi0)
      (flatSphereMakeVertex Real.cos Real.sin Real.sqrt u1 v0 theta0 phi1)
      (flatSphereMakeVertex Real.cos Real.sin Real.sqrt u1 v1 theta1 phi1)).NonDegenerate
      ↔ Real.sin theta0 ≠ 0 := by
  constructor
  · intro hnd hs
    apply hnd
    simp [Triangle.winding, glm.cross, glm.vec3.sub, vtx, flatSphereMakeVertex, hs]
  · intro hs h
    have hx := congrArg glm.vec3.x h
    have hz := congrArg glm.vec3.z h
    simp only [Triangle.winding, glm.cross, glm.vec3.sub, vtx, flatSphereMakeVertex] at hx hz
    have hk : (0.5 * (Real.cos theta1 - Real.cos theta0)) * (0.5 * Real.sin theta0) ≠ 0 :=
      mul_ne_zero (mul_ne_zero (by norm_num) (sub_ne_zero.mpr hc))
        (mul_ne_zero (by norm_num) hs)
    apply hphi
    constructor
    · exact eq_of_mul_sub_eq_zero _ _ _ hk (by linear_combination (-1 : ℝ) * hx)
    · exact eq_of_mul_sub_eq_zero _ _ _ hk (by linear_combination hz)

theorem flatSphere_tri2 (u0 u1 v0 v1 theta0 theta1 phi0 phi1 : ℝ)
    (hc : Real.cos theta1 ≠ Real.cos theta0)
    (hphi : ¬ (Real.sin phi1 = Real.sin phi0 ∧ Real.cos phi1 = Real.cos phi0)) :
    (Triangle.mk (flatSphereMakeVertex Real.cos Real.sin Real.sqrt u0 v0 theta0 phi0)
      (flatSphereMakeVertex Real.cos Real.sin Real.sqrt u1 v1 theta1 phi1)
      (flatSphereMakeVertex Real.cos Real.sin Real.sqrt u0 v1 theta1 phi0)).NonDegenerate
      ↔ Real.sin theta1 ≠ 0 := by
  constructor
  · intro hnd hs
    apply hnd
    simp only [Triangle.winding, glm.cross, glm.vec3.sub, vtx, flatSphereMakeVertex, hs,
      glm.vec3.mk.injEq]
    refine ⟨?_, ?_, ?_⟩ <;> ring
  · intro hs h
    have hx := congrArg glm.vec3.x h
    have hz := congrArg glm.vec3.z h
    simp only [Triangle.winding, glm.cross, glm.vec3.sub, vtx, flatSphereMakeVertex] at hx hz
    have hk : (0.5 * (Real.cos theta1 - Real.cos theta0)) * (0.5 * Real.sin theta1) ≠ 0 :=
      mul_ne_zero (mul_ne_zero (by norm_num) (sub_ne_zero.mpr hc))
        (mul_ne_zero (by norm_num) hs)
    apply hphi
    constructor
    · exact eq_of_mul_sub_eq_zero _ _ _ hk (by linear_combination (-1 : ℝ) * hx)
    · exact eq_of_mul_sub_eq_zero _ _ _ hk (by linear_combination hz)

theorem hemisphere_tri1 (u0 u1 v0 v1 phi0 phi1 theta0 theta1 : ℝ)
    (hc : Real.cos phi1 ≠ Real.cos phi0)
    (htheta : ¬ (Real.sin theta1 = Real.sin theta0 ∧ Real.cos theta1 = Real.cos theta0)) :
    (Triangle.mk (hemisphereMakeVertex Real.cos Real.sin Real.sqrt u0 v0 phi0 theta0)
      (hemisphereMakeVertex Real.cos Real.sin Real.sqrt u1 v0 phi0 theta1)
      (hemisphereMakeVertex Real.cos Real.sin Real.sqrt u1 v1 phi1 theta1)).NonDegenerate
      ↔ Real.sin phi0 ≠ 0 := by
  constructor
  · intro hnd hs
    apply hnd
    simp [Triangle.winding, glm.cross, glm.vec3.sub, vtx, hemisphereMakeVertex, hs]
  · intro hs h
    have hy := congrArg glm.vec3.y h
    have hz := congrArg glm.vec3.z h
    simp only [Triangle.winding, glm.cross, glm.vec3.sub, vtx, hemisphereMakeVertex] at hy hz
    have hk : (0.5 * (Real.cos phi1 - Real.cos phi0)) * (0.5 * Real.sin phi0) ≠ 0 :=
      mul_ne_zero (mul_ne_zero (by norm_num) (sub_ne_zero.mpr hc))
        (mul_ne_zero (by norm_num) hs)
    apply htheta
    constructor
    · exact eq_of_mul_sub_eq_zero _ _ _ hk (by linear_combination hy)
    · exact eq_of_mul_sub_eq_zero _ _ _ hk (by linear_combination (-1 : ℝ) * hz)

theorem hemisphere_tri2 (u0 u1 v0 v1 phi0 phi1 theta0 theta1 : ℝ)
    (hc : Real.cos phi1 ≠ Real.cos phi0)
    (htheta : ¬ (Real.sin theta1 = Real.sin theta0 ∧ Real.cos theta1 = Real.cos theta0))
    (hs : Real.sin phi1 ≠ 0) :
    (Triangle.mk (hemisphereMakeVertex Real.cos Real.sin Real.sqrt u0 v0 phi0 theta0)
      (hemisphereMakeVertex Real.cos Real.sin Real.sqrt u1 v1 phi1 theta1)
      (hemisphereMakeVertex Real.cos Real.sin Real.sqrt u0 v1 phi1 theta0)).NonDegenerate := by
  intro h
  have hy := congrArg glm.vec3.y h
  have hz := congrArg glm.vec3.z h
  simp only [Triangle.winding, glm.cross, glm.vec3.sub, vtx, hemisphereMakeVertex] at hy hz
  have hk : (0.5 * (Real.cos phi1 - Real.cos phi0)) * (0.5 * Real.sin phi1) ≠ 0 :=
    mul_ne_zero (mul_ne_zero (by norm_num) (sub_ne_zero.mpr hc))
      (mul_ne_zero (by norm_num) hs)
  apply htheta
  constructor
  · exact eq_of_mul_sub_eq_zero _ _ _ hk (by linear_combination hy)
  · exact eq_of_mul_sub_eq_zero _ _ _ hk (by linear_combination (-1 : ℝ) * hz)

/-- The angles `i / n * c` and `(i + 1) / n * c` of a band `i < n` lie in `[0, c]`, in this
order. -/
theorem band_angles (n i : Nat) (hi : i < n) (c : ℝ) (hc : 0 < c) :
    0 ≤ (i : ℝ) / (n : ℝ) * c ∧
    (i : ℝ) / (n : ℝ) * c < ((i + 1 : Nat) : ℝ) / (n : ℝ) * c ∧
    ((i + 1 : Nat) : ℝ) / (n : ℝ) * c ≤ c ∧
    (i ≠ 0 → 0 < (i : ℝ) / (n : ℝ) * c) ∧
    (i + 1 ≠ n → ((i + 1 : Nat) : ℝ) / (n : ℝ) * c < c) := by
  have hn0 : (0 : ℝ) < n := by exact_mod_cast (by omega : 0 < n)
  have h0 : 0 ≤ (i : ℝ) / (n : ℝ) := by positivity
  have h1 : (i : ℝ) / (n : ℝ) < ((i + 1 : Nat) : ℝ) / (n : ℝ) := by
    apply div_lt_div_of_pos_right _ hn0
    push_cast
    linarith
  have h2 : ((i + 1 : Nat) : ℝ) / (n : ℝ) ≤ 1 := by
    rw [div_le_one hn0]
    exact_mod_cast hi
  refine ⟨by positivity, by nlinarith, by nlinarith, ?_, ?_⟩
  · intro hi0
    have : (0 : ℝ) < i := by exact_mod_cast Nat.pos_of_ne_zero hi0
    positivity
  · intro hin
    have h3 : ((i + 1 : Nat) : ℝ) / (n : ℝ) < 1 := by
      rw [div_lt_one hn0]
      exact_mod_cast (by omega : i + 1 < n)
    nlinarith

theorem flatSphere_latitude (i : Nat) (hi : i < 24) :
    Real.cos (((i + 1 : Nat) : ℝ) / ((24 : Nat) : ℝ) * Real.pi)
        ≠ Real.cos ((i : ℝ) / ((24 : Nat) : ℝ) * Real.pi) ∧
    (Real.sin ((i : ℝ) / ((24 : Nat) : ℝ) * Real.pi) ≠ 0 ↔ i ≠ 0) ∧
    (Real.sin (((i + 1 : Nat) : ℝ) / ((24 : Nat) : ℝ) * Real.pi) ≠ 0 ↔ i ≠ 23) := by
  obtain ⟨h0, h1, h2, h3, h4⟩ := band_angles 24 i hi Real.pi Real.pi_pos
  refine ⟨(Real.cos_lt_cos_of_nonneg_of_le_pi h0 h2 h1).ne, ?_, ?_⟩
  · constructor
    · intro hs hi0
      subst hi0
      simp at hs
    · intro hi0
      exact (Real.sin_pos_of_pos_of_lt_pi (h3 hi0) (by linarith)).ne'
  · constructor
    · intro hs hi23
      subst hi23
      apply hs
      have : (((23 + 1 : Nat) : ℝ) / ((24 : Nat) : ℝ) * Real.pi) = Real.pi := by
        push_cast; norm_num
      rw [this, Real.sin_pi]
    · intro hi23
      exact (Real.sin_pos_of_pos_of_lt_pi (by linarith) (h4 (by omega))).ne'

theorem hemisphere_latitude (i : Nat) (hi : i < 16) :
    Real.cos (((i + 1 : Nat) : ℝ) / ((16 : Nat) : ℝ) * (Real.pi * 0.5))
        ≠ Real.cos ((i : ℝ) / ((16 : Nat) : ℝ) * (Real.pi * 0.5)) ∧
    (Real.sin ((i : ℝ) / ((16 : Nat) : ℝ) * (Real.pi * 0.5)) ≠ 0 ↔ i ≠ 0) ∧
    Real.sin (((i + 1 : Nat) : ℝ) / ((16 : Nat) : ℝ) * (Real.pi * 0.5)) ≠ 0 := by
  have hpi := Real.pi_pos
  have hc : (0 : ℝ) < Real.pi * 0.5 := by positivity
  have hle : Real.pi * 0.5 < Real.pi := by linarith
  obtain ⟨h0, h1, h2, h3, _⟩ := band_angles 16 i hi (Real.pi * 0.5) hc
  refine ⟨(Real.cos_lt_cos_of_nonneg_of_le_pi h0 (by linarith) h1).ne, ?_, ?_⟩
  · constructor
    · intro hs hi0
      subst hi0
      simp at hs
    · intro hi0
      exact (Real.sin_pos_of_pos_of_lt_pi (h3 hi0) (by linarith)).ne'
  · exact (Real.sin_pos_of_pos_of_lt_pi (by linarith) (by linarith)).ne'

/-- The two triangles of a flat-sphere quad: the first is degenerate exactly in the first
latitude band, the second exactly in the last one. -/
theorem flatSphereQuad_triangles (i j : Nat) (hi : i < 24) :
    ∃ t1 t2, triangles (flatSphereQuad Real.cos Real.sin Real.sqrt Real.pi 24 48 i j) = [t1, t2]
      ∧ (t1.NonDegenerate ↔ i ≠ 0) ∧ (t2.NonDegenerate ↔ i ≠ 23) := by
  obtain ⟨hc, hs0, hs1⟩ := flatSphere_latitude i hi
  refine ⟨_, _, rfl, ?_, ?_⟩
  · exact (flatSphere_tri1 _ _ _ _ _ _ _ _ hc (circle_step 48 (by norm_num) j)).trans hs0
  · exact (flatSphere_tri2 _ _ _ _ _ _ _ _ hc (circle_step 48 (by norm_num) j)).trans hs1

/-- The two triangles of a hemisphere quad: the first is degenerate exactly in the first
latitude band, the second never. -/
theorem hemisphereQuad_triangles (i j : Nat) (hi : i < 16) :
    ∃ t1 t2, triangles (hemisphereQuad Real.cos Real.sin Real.sqrt Real.pi 16 48 i j) = [t1, t2]
      ∧ (t1.NonDegenerate ↔ i ≠ 0) ∧ t2.NonDegenerate := by
  obtain ⟨hc, hs0, hs1⟩ := hemisphere_latitude i hi
  refine ⟨_, _, rfl, ?_, ?_⟩
  · exact (hemisphere_tri1 _ _ _ _ _ _ _ _ hc (circle_step 48 (by norm_num) j)).trans hs0
  · exact hemisphere_tri2 _ _ _ _ _ _ _ _ hc (circle_step 48 (by norm_num) j) hs1

theorem prismRing_sin_ne (i : Nat) (hi : i < 5) :
    Real.sin (glm.radians Real.pi (90 - (i : ℝ) * 72)
      - glm.radians Real.pi (90 - (((i + 1) % 5 : Nat) : ℝ) * 72)) ≠ 0 := by
  have hpi := Real.pi_pos
  have hno : ∀ (x : ℝ) (m : ℤ), x = (m : ℝ) / 5 * Real.pi → m % 5 ≠ 0 → Real.sin x ≠ 0 := by
    intro x m hx hm h
    obtain ⟨n, hn⟩ := Real.sin_eq_zero_iff.mp h
    have hmul : (5 * (n : ℝ) - (m : ℝ)) * Real.pi = 0 := by
      rw [hx] at hn
      linear_combination 5 * hn
    have h5 : 5 * (n : ℝ) = (m : ℝ) := by
      rcases mul_eq_zero.mp hmul with h0 | h0
      · linarith
      · exact absurd h0 hpi.ne'
    have h6 : 5 * n = m := by exact_mod_cast h5
    omega
  interval_cases i
  · exact hno _ 2 (by simp [glm.radians]; ring) (by decide)
  · exact hno _ 2 (by simp [glm.radians]; ring) (by decide)
  · exact hno _ 2 (by simp [glm.radians]; ring) (by decide)
  · exact hno _ 2 (by simp [glm.radians]; ring) (by decide)
  · exact hno _ (-8) (by simp [glm.radians]; ring) (by decide)

theorem prismSide_nondegenerate (i : Nat) (hi : i < 5) (t : Triangle ℝ)
    (ht : t ∈ triangles (prismSide Real.cos Real.sin Real.sqrt Real.pi 5 i)) :
    t.NonDegenerate := by
  have hpos := prismRing_edge_pos i hi
  simp only [glm.dot] at hpos
  simp only [prismSide, triangles, List.mem_cons, List.mem_singleton, List.not_mem_nil,
    or_false] at ht
  rcases ht with rfl | rfl
  all_goals
    intro h
    have hx := congrArg glm.vec3.x h
    have hz := congrArg glm.vec3.z h
    simp only [Triangle.winding, glm.cross, glm.vec3.sub, vtx] at hx hz
    have e1 : (prismRing Real.cos Real.sin Real.pi i).z
        - (prismRing Real.cos Real.sin Real.pi ((i + 1) % 5)).z = 0 := by linarith
    have e2 : (prismRing Real.cos Real.sin Real.pi ((i + 1) % 5)).x
        - (prismRing Real.cos Real.sin Real.pi i).x = 0 := by linarith
    rw [e1, e2] at hpos
    simp at hpos

theorem prismTop_nondegenerate (i : Nat) (hi : i < 5) (t : Triangle ℝ)
    (ht : t ∈ triangles (prismTop Real.cos Real.sin Real.pi 5 i)) : t.NonDegenerate := by
  have hsin := prismRing_sin_ne i hi
  simp only [prismTop, triangles, List.mem_cons, List.mem_singleton, List.not_mem_nil,
    or_false] at ht
  subst ht
  intro h
  have hy := congrArg glm.vec3.y h
  simp only [Triangle.winding, glm.cross, glm.vec3.sub, vtx, prismRing] at hy
  apply hsin
  rw [Real.sin_sub]
  linear_combination 4 * hy

theorem prismBottom_nondegenerate (i : Nat) (hi : i < 5) (t : Triangle ℝ)
    (ht : t ∈ triangles (prismBottom Real.cos Real.sin Real.pi 5 i)) : t.NonDegenerate := by
  have hsin := prismRing_sin_ne i hi
  simp only [prismBottom, triangles, List.mem_cons, List.mem_singleton, List.not_mem_nil,
    or_false] at ht
  subst ht
  intro h
  have hy := congrArg glm.vec3.y h
  simp only [Triangle.winding, glm.cross, glm.vec3.sub, vtx, prismRing] at hy
  apply hsin
  rw [Real.sin_sub]
  linear_combination (-4 : ℝ) * hy

/-! ### The triangle lists of the generated meshes -/

theorem LoadTorusMesh_triangles :
    (LoadTorusMesh Real.cos Real.sin Real.sqrt Real.pi).triangles
      = (List.range 32).flatMap fun i => (List.range 24).flatMap fun j =>
          triangles (torusQuad Real.cos Real.sin Real.sqrt Real.pi 64 24 i j) := by
  unfold Mesh.triangles
  rw [LoadTorusMesh_drawn]
  unfold torusVertices
  rw [triangles_flatMap _ 48
    (fun i => length_flatMap_range
      (torusQuad Real.cos Real.sin Real.sqrt Real.pi 64 24 i) 6 (fun _ => rfl) 24)]
  exact congrArg _ (funext fun i =>
    triangles_flatMap (torusQuad Real.cos Real.sin Real.sqrt Real.pi 64 24 i) 2 (fun _ => rfl) _)

theorem LoadFlatSphereMesh_triangles :
    (LoadFlatSphereMesh Real.cos Real.sin Real.sqrt Real.pi).triangles
      = (List.range 24).flatMap fun i => (List.range 48).flatMap fun j =>
          triangles (flatSphereQuad Real.cos Real.sin Real.sqrt Real.pi 24 48 i j) := by
  unfold Mesh.triangles
  rw [LoadFlatSphereMesh_drawn]
  unfold flatSphereVertices
  rw [triangles_flatMap _ 96
    (fun i => length_flatMap_range
      (flatSphereQuad Real.cos Real.sin Real.sqrt Real.pi 24 48 i) 6 (fun _ => rfl) 48)]
  exact congrArg _ (funext fun i =>
    triangles_flatMap (flatSphereQuad Real.cos Real.sin Real.sqrt Real.pi 24 48 i) 2 (fun _ => rfl) _)

theorem LoadHemisphereMesh_triangles :
    (LoadHemisphereMesh Real.cos Real.sin Real.sqrt Real.pi).triangles
      = (List.range 16).flatMap fun i => (List.range 48).flatMap fun j =>
          triangles (hemisphereQuad Real.cos Real.sin Real.sqrt Real.pi 16 48 i j) := by
  unfold Mesh.triangles
  rw [LoadHemisphereMesh_drawn]
  unfold hemisphereVertices
  rw [triangles_flatMap _ 96
    (fun i => length_flatMap_range
      (hemisphereQuad Real.cos Real.sin Real.sqrt Real.pi 16 48 i) 6 (fun _ => rfl) 48)]
  exact congrArg _ (funext fun i =>
    triangles_flatMap (hemisphereQuad Real.cos Real.sin Real.sqrt Real.pi 16 48 i) 2 (fun _ => rfl) _)

theorem LoadPentagonalPrismMesh_triangles :
    (LoadPentagonalPrismMesh Real.cos Real.sin Real.sqrt Real.pi).triangles
      = ((List.range 5).flatMap fun i =>
            triangles (prismSide Real.cos Real.sin Real.sqrt Real.pi 5 i))
        ++ ((List.range 5).flatMap fun i => triangles (prismTop Real.cos Real.sin Real.pi 5 i))
        ++ ((List.range 5).flatMap fun i =>
            triangles (prismBottom Real.cos Real.sin Real.pi 5 i)) := by
  unfold Mesh.triangles
  rw [LoadPentagonalPrismMesh_drawn]
  unfold pentagonalPrismVertices
  rw [triangles_append 15, triangles_append 10,
    triangles_flatMap (prismSide Real.cos Real.sin Real.sqrt Real.pi 5) 2 (fun _ => rfl),
    triangles_flatMap (prismTop Real.cos Real.sin Real.pi 5) 1 (fun _ => rfl),
    triangles_flatMap (prismBottom Real.cos Real.sin Real.pi 5) 1 (fun _ => rfl)]
  · exact length_flatMap_range (prismSide Real.cos Real.sin Real.sqrt Real.pi 5) 6
      (fun _ => rfl) 5
  · rw [List.length_append,
      length_flatMap_range (prismSide Real.cos Real.sin Real.sqrt Real.pi 5) 6 (fun _ => rfl) 5,
      length_flatMap_range (prismTop Real.cos Real.sin Real.pi 5) 3 (fun _ => rfl) 5]

/-- C5 (as stated, refuted): the first triangle of the flat sphere's first latitude band
(theta0 = 0) has its first two positions at the pole (0, 0.5, 0), so its winding vector
(B - A) x (C - A) is the zero vector. -/
theorem flatSphere_pole_triangle_degenerate :
    ∃ t, t ∈ (LoadFlatSphereMesh Real.cos Real.sin Real.sqrt Real.pi).triangles ∧
      t.A.position = ⟨0, 0.5, 0⟩ ∧ t.B.position = ⟨0, 0.5, 0⟩ ∧
      t.winding = ⟨0, 0, 0⟩ ∧ ¬ t.NonDegenerate ∧
      ¬ (LoadFlatSphereMesh Real.cos Real.sin Real.sqrt Real.pi).NonDegenerate := by
  obtain ⟨t1, t2, hq, h1, _⟩ := flatSphereQuad_triangles 0 0 (by norm_num)
  have hmem : t1 ∈ (LoadFlatSphereMesh Real.cos Real.sin Real.sqrt Real.pi).triangles := by
    rw [LoadFlatSphereMesh_triangles]
    simp only [List.mem_flatMap, List.mem_range]
    exact ⟨0, by norm_num, 0, by norm_num, by rw [hq]; simp⟩
  have hdeg : ¬ t1.NonDegenerate := fun h => (h1.mp h) rfl
  have ht1 : t1 = ⟨flatSphereMakeVertex Real.cos Real.sin Real.sqrt
        (((0 : Nat) : ℝ) / ((48 : Nat) : ℝ)) (((0 : Nat) : ℝ) / ((24 : Nat) : ℝ))
        (((0 : Nat) : ℝ) / ((24 : Nat) : ℝ) * Real.pi)
        (((0 : Nat) : ℝ) / ((48 : Nat) : ℝ) * 2 * Real.pi),
      flatSphereMakeVertex Real.cos Real.sin Real.sqrt
        (((0 + 1 : Nat) : ℝ) / ((48 : Nat) : ℝ)) (((0 : Nat) : ℝ) / ((24 : Nat) : ℝ))
        (((0 : Nat) : ℝ) / ((24 : Nat) : ℝ) * Real.pi)
        (((0 + 1 : Nat) : ℝ) / ((48 : Nat) : ℝ) * 2 * Real.pi),
      flatSphereMakeVertex Real.cos Real.sin Real.sqrt
        (((0 + 1 : Nat) : ℝ) / ((48 : Nat) : ℝ)) (((0 + 1 : Nat) : ℝ) / ((24 : Nat) : ℝ))
        (((0 + 1 : Nat) : ℝ) / ((24 : Nat) : ℝ) * Real.pi)
        (((0 + 1 : Nat) : ℝ) / ((48 : Nat) : ℝ) * 2 * Real.pi)⟩ := by
    have := hq
    simp only [flatSphereQuad, triangles, List.cons.injEq, and_true] at this
    exact this.1.symm
  refine ⟨t1, hmem, ?_, ?_, ?_, hdeg, fun hall => hdeg (hall t1 hmem)⟩
  · rw [ht1]; simp [flatSphereMakeVertex, vtx]
  · rw [ht1]; simp [flatSphereMakeVertex, vtx]
  · by_contra hw
    exact hdeg hw

/-- C5 (amended): with the default parameters every triangle of the plane, box, wedge,
cylinder, hollow cylinder, torus and pentagonal prism is non-degenerate, (B - A) x (C - A)
being non-zero over the reals; the flat sphere and the hemisphere render, quad by quad, two
triangles each, of which the first is non-degenerate exactly outside the first latitude band
(theta0 = 0, resp. phi0 = 0) and the second, for the flat sphere, exactly outside the last band
(theta1 = pi), for the hemisphere always. -/
theorem triangles_nondegenerate_except_poles :
    (LoadPlaneMesh : Mesh ℝ).NonDegenerate ∧
    (LoadBoxMesh : Mesh ℝ).NonDegenerate ∧
    (LoadWedgeMesh : Mesh ℝ).NonDegenerate ∧
    (LoadCylinderMesh Real.cos Real.sin Real.pi).NonDegenerate ∧
    (LoadHollowCylinderMesh Real.cos Real.sin Real.pi).NonDegenerate ∧
    (LoadTorusMesh Real.cos Real.sin Real.sqrt Real.pi).NonDegenerate ∧
    (LoadPentagonalPrismMesh Real.cos Real.sin Real.sqrt Real.pi).NonDegenerate ∧
    ((LoadFlatSphereMesh Real.cos Real.sin Real.sqrt Real.pi).triangles
        = ((List.range 24).flatMap fun i => (List.range 48).flatMap fun j =>
            triangles (flatSphereQuad Real.cos Real.sin Real.sqrt Real.pi 24 48 i j)) ∧
      ∀ i j, i < 24 → j < 48 → ∃ t1 t2,
        triangles (flatSphereQuad Real.cos Real.sin Real.sqrt Real.pi 24 48 i j) = [t1, t2] ∧
        (t1.NonDegenerate ↔ i ≠ 0) ∧ (t2.NonDegenerate ↔ i ≠ 23)) ∧
    ((LoadHemisphereMesh Real.cos Real.sin Real.sqrt Real.pi).triangles
        = ((List.range 16).flatMap fun i => (List.range 48).flatMap fun j =>
            triangles (hemisphereQuad Real.cos Real.sin Real.sqrt Real.pi 16 48 i j)) ∧
      ∀ i j, i < 16 → j < 48 → ∃ t1 t2,
        triangles (hemisphereQuad Real.cos Real.sin Real.sqrt Real.pi 16 48 i j) = [t1, t2] ∧
        (t1.NonDegenerate ↔ i ≠ 0) ∧ t2.NonDegenerate) := by
  refine ⟨?_, ?_, ?_, ?_, ?_, ?_, ?_, ⟨LoadFlatSphereMesh_triangles, ?_⟩,
    ⟨LoadHemisphereMesh_triangles, ?_⟩⟩
  · intro t ht
    rw [Mesh.triangles, LoadPlaneMesh_drawn] at ht
    exact planeVertices_nondegenerate t ht
  · intro t ht
    rw [Mesh.triangles, LoadBoxMesh_drawn] at ht
    exact boxVertices_nondegenerate t ht
  · intro t ht
    rw [Mesh.triangles, LoadWedgeMesh_drawn] at ht
    exact wedgeVertices_nondegenerate t ht
  · intro t ht
    rw [Mesh.triangles, LoadCylinderMesh_drawn, cylinderVertices,
      triangles_flatMap (cylinderSegment Real.cos Real.sin Real.pi 64) 2 (fun _ => rfl)] at ht
    obtain ⟨i, -, hti⟩ := List.mem_flatMap.mp ht
    exact cylinderSegment_nondegenerate i t hti
  · intro t ht
    rw [Mesh.triangles, LoadHollowCylinderMesh_drawn, hollowCylinderVertices,
      triangles_flatMap (hollowCylinderSegment Real.cos Real.sin Real.pi 64) 4
        (fun _ => rfl)] at ht
    obtain ⟨i, -, hti⟩ := List.mem_flatMap.mp ht
    exact hollowCylinderSegment_nondegenerate i t hti
  · intro t ht
    rw [LoadTorusMesh_triangles] at ht
    obtain ⟨i, -, hti⟩ := List.mem_flatMap.mp ht
    obtain ⟨j, -, htj⟩ := List.mem_flatMap.mp hti
    exact torusQuad_nondegenerate i j t htj
  · intro t ht
    rw [LoadPentagonalPrismMesh_triangles] at ht
    simp only [List.mem_append, List.mem_flatMap, List.mem_range] at ht
    rcases ht with (⟨i, hi, hti⟩ | ⟨i, hi, hti⟩) | ⟨i, hi, hti⟩
    · exact prismSide_nondegenerate i hi t hti
    · exact prismTop_nondegenerate i hi t hti
    · exact prismBottom_nondegenerate i hi t hti
  · intro i j hi _
    exact flatSphereQuad_triangles i j hi
  · intro i j hi _
    exact hemisphereQuad_triangles i j hi

/-! ### Binding the registered textures -/

theorem TexCommand.bindings_append_active (unit : Nat) (rest : List TexCommand) :
    ∀ (a : List TexCommand) (active : Nat),
      TexCommand.bindings (a ++ TexCommand.glActiveTexture unit :: rest) active
        = TexCommand.bindings a active ++ TexCommand.bindings rest unit := by
  intro a
  induction a with
  | nil => intro active; rfl
  | cons c cs ih =>
    intro active
    cases c with
    | glActiveTexture u => exact ih u
    | glBindTexture texture =>
      show (active, texture) :: TexCommand.bindings (cs ++ _) active = _
      rw [ih active]
      rfl

/-- The device calls of the first `k` iterations of the loop of `BindGLTextures`. -/
theorem BindGLTextures.commands_succ (ids : Nat → Nat) (k : Nat) :
    ((List.range (k + 1)).flatMap fun i =>
        [TexCommand.glActiveTexture i, TexCommand.glBindTexture (ids i)])
      = ((List.range k).flatMap fun i =>
          [TexCommand.glActiveTexture i, TexCommand.glBindTexture (ids i)])
        ++ [TexCommand.glActiveTexture k, TexCommand.glBindTexture (ids k)] := by
  rw [List.range_succ, List.flatMap_append]
  simp

theorem BindGLTextures.bindings_range (ids : Nat → Nat) (active : Nat) :
    ∀ k, TexCommand.bindings
        ((List.range k).flatMap fun i =>
          [TexCommand.glActiveTexture i, TexCommand.glBindTexture (ids i)]) active
      = (List.range k).map fun i => (i, ids i) := by
  intro k
  induction k with
  | zero => rfl
  | succ k ih =>
    rw [BindGLTextures.commands_succ, TexCommand.bindings_append_active, ih, List.range_succ,
      List.map_append]
    rfl

theorem BindGLTextures.run_range (ids : Nat → Nat) (d : TextureUnits) :
    ∀ k, (d.run ((List.range k).flatMap fun i =>
          [TexCommand.glActiveTexture i, TexCommand.glBindTexture (ids i)])).binding
        = (fun i => if i < k then ids i else d.binding i) ∧
      (d.run ((List.range k).flatMap fun i =>
          [TexCommand.glActiveTexture i, TexCommand.glBindTexture (ids i)])).activeTexture
        = if k = 0 then d.activeTexture else k - 1 := by
  intro k
  induction k with
  | zero =>
    constructor
    · funext i; simp [TextureUnits.run]
    · simp [TextureUnits.run]
  | succ k ih =>
    obtain ⟨hb, _⟩ := ih
    rw [BindGLTextures.commands_succ]
    unfold TextureUnits.run at hb ⊢
    rw [List.foldl_append]
    simp only [List.foldl_cons, List.foldl_nil, TextureUnits.exec]
    constructor
    · funext i
      rw [hb]
      by_cases h1 : i = k
      · subst h1; simp
      · by_cases h2 : i < k
        · simp [h1, h2, Nat.lt_succ_of_lt h2]
        · have h3 : ¬ i < k + 1 := by omega
          simp [h1, h2, h3]
    · simp

/-- C11: the bindings `BindGLTextures` makes are, in this order and no others, unit `i` to the
handle of the `i`-th registered entry for `i` from 0 to `m_loadedTextures - 1`; afterwards
every such unit holds that handle and every other unit is as before; and for every tag
`FindTextureSlot` finds, the unit of that number holds the handle of the first entry
registered under the tag. -/
theorem BindGLTextures_units (s : SceneManager) (d : TextureUnits) :
    TexCommand.bindings (BindGLTextures.commands s) d.activeTexture
        = (List.range s.m_loadedTextures).map (fun i => (i, (s.entry i).ID)) ∧
    (∀ i, i < s.m_loadedTextures →
        (BindGLTextures s d).2.binding i = (s.entry i).ID) ∧
    (∀ i, s.m_loadedTextures ≤ i → (BindGLTextures s d).2.binding i = d.binding i) ∧
    (∀ i, i < s.m_loadedTextures → (∀ j, j < i → (s.entry j).tag ≠ (s.entry i).tag) →
        FindTextureSlot (s.entry i).tag s = (i : Int)) ∧
    (∀ (tag : String) (k : Nat), FindTextureSlot tag s = (k : Int) →
        k < s.m_loadedTextures ∧ (s.entry k).tag = tag ∧
        (∀ j, j < k → (s.entry j).tag ≠ tag) ∧
        (BindGLTextures s d).2.binding k = (s.entry k).ID) := by
  have hrun := BindGLTextures.run_range (fun i => (s.entry i).ID) d s.m_loadedTextures
  have hb : ∀ i, (BindGLTextures s d).2.binding i
      = if i < s.m_loadedTextures then (s.entry i).ID else d.binding i := by
    intro i
    show (d.run (BindGLTextures.commands s)).binding i = _
    unfold BindGLTextures.commands
    rw [hrun.1]
  refine ⟨BindGLTextures.bindings_range _ _ _, ?_, ?_, ?_, ?_⟩
  · intro i hi
    rw [hb i, if_pos hi]
  · intro i hi
    rw [hb i, if_neg (by omega)]
  · intro i hi hfirst
    exact (FindTexture_of_first s _ i hi rfl hfirst).1
  · intro tag k hk
    rcases FindTextureSlot.loop_spec s tag s.m_loadedTextures 0 (by omega) with
      ⟨_, h1, _⟩ | ⟨i, _, hi2, hi3, hi4, hi5, _⟩
    · unfold FindTextureSlot at hk
      rw [h1] at hk
      omega
    · unfold FindTextureSlot at hk
      rw [hi5] at hk
      have hik : i = k := by exact_mod_cast hk
      subst hik
      exact ⟨hi2, hi3, fun j hj => hi4 j (Nat.zero_le _) hj, by rw [hb i, if_pos hi2]⟩

/-- C12: `BindGLTextures` leaves the registry as it is, and a second call right after the
first makes the same (unit, handle) bindings in the same order and leaves the texture units
as the first call left them. -/
theorem BindGLTextures_twice (s : SceneManager) (d : TextureUnits) :
    (BindGLTextures s d).1 = s ∧
    BindGLTextures.commands (BindGLTextures s d).1 = BindGLTextures.commands s ∧
    TexCommand.bindings (BindGLTextures.commands (BindGLTextures s d).1)
        (BindGLTextures s d).2.activeTexture
      = TexCommand.bindings (BindGLTextures.commands s) d.activeTexture ∧
    (BindGLTextures (BindGLTextures s d).1 (BindGLTextures s d).2).2.binding
      = (BindGLTextures s d).2.binding ∧
    (BindGLTextures (BindGLTextures s d).1 (BindGLTextures s d).2).2.activeTexture
      = (BindGLTextures s d).2.activeTexture := by
  have h1 := BindGLTextures.run_range (fun i => (s.entry i).ID) d s.m_loadedTextures
  have h2 := BindGLTextures.run_range (fun i => (s.entry i).ID)
    (d.run (BindGLTextures.commands s)) s.m_loadedTextures
  refine ⟨rfl, rfl, ?_, ?_, ?_⟩
  · show TexCommand.bindings (BindGLTextures.commands s) _ = _
    unfold BindGLTextures.commands
    rw [BindGLTextures.bindings_range, BindGLTextures.bindings_range]
  · show ((d.run (BindGLTextures.commands s)).run (BindGLTextures.commands s)).binding
        = (d.run (BindGLTextures.commands s)).binding
    unfold BindGLTextures.commands at h2 ⊢
    rw [h2.1, h1.1]
    funext i
    by_cases h : i < s.m_loadedTextures <;> simp [h]
  · show ((d.run (BindGLTextures.commands s)).run (BindGLTextures.commands s)).activeTexture
        = (d.run (BindGLTextures.commands s)).activeTexture
    unfold BindGLTextures.commands at h2 ⊢
    rw [h2.2, h1.2]
    by_cases h : s.m_loadedTextures = 0 <;> simp [h]

/-! ### Releasing the textures -/

theorem DestroyGLTextures.loop_live (glGenTextures : List Nat → Nat) :
    ∀ (fuel index : Nat) (s : SceneManager) (live : List Nat),
      fuel + index = s.m_loadedTextures →
      (∀ h, h ∈ live → h ∈ (DestroyGLTextures.loop glGenTextures fuel index s live).2) ∧
      (DestroyGLTextures.loop glGenTextures fuel index s live).2.length = live.length + fuel ∧
      (DestroyGLTextures.loop glGenTextures fuel index s live).1.m_loadedTextures
        = s.m_loadedTextures := by
  intro fuel
  induction fuel with
  | zero =>
    intro index s live _
    exact ⟨fun h hh => hh, rfl, rfl⟩
  | succ fuel ih =>
    intro index s live hsum
    have hlt : index < s.m_loadedTextures := by omega
    unfold DestroyGLTextures.loop
    rw [if_pos hlt]
    obtain ⟨h1, h2, h3⟩ := ih (index + 1)
      { s with m_textureIDs :=
          s.m_textureIDs.set index { s.entry index with ID := glGenTextures live } }
      (live ++ [glGenTextures live]) (by simpa using (by omega : fuel + (index + 1) = s.m_loadedTextures))
    refine ⟨fun h hh => h1 h (List.mem_append_left _ hh), ?_, h3⟩
    rw [h2, List.length_append]
    simp
    omega

/-- Whatever names the device generates, `DestroyGLTextures` keeps every texture name that
was in use and adds one generated name per registered entry. -/
theorem DestroyGLTextures_keeps_handles (glGenTextures : List Nat → Nat) (s : SceneManager)
    (live : List Nat) :
    (∀ h, h ∈ live → h ∈ (DestroyGLTextures glGenTextures s live).2) ∧
    (DestroyGLTextures glGenTextures s live).2.length = live.length + s.m_loadedTextures :=
  let h := DestroyGLTextures.loop_live glGenTextures s.m_loadedTextures 0 s live (by omega)
  ⟨h.1, h.2.1⟩

/-- C20 (code defect): with one registered texture of handle 1, in use on the device, and a
device that generates the next unused name, `DestroyGLTextures` leaves handle 1 in use,
creates the new handle 2 and stores it in the entry. -/
theorem DestroyGLTextures_generates :
    DestroyGLTextures (fun live => live.foldl max 0 + 1) ⟨[⟨1, "a"⟩], 1⟩ [1]
        = (⟨[⟨2, "a"⟩], 1⟩, [1, 2]) ∧
    1 ∈ (DestroyGLTextures (fun live => live.foldl max 0 + 1) ⟨[⟨1, "a"⟩], 1⟩ [1]).2 ∧
    2 ∈ (DestroyGLTextures (fun live => live.foldl max 0 + 1) ⟨[⟨1, "a"⟩], 1⟩ [1]).2 := by
  refine ⟨by decide, by decide, by decide⟩

/-! ### The model matrix in general -/

/-- C13: for all scale, rotation angles (degrees), position and offset, the model matrix of
`SetTransformations` is T(position + offset) * Rz * Ry * Rx * S; over the reals it maps every
local point p to (position + offset) + Rz(Ry(Rx(scale * p))), the local origin to
position + offset; and it is the one matrix the method passes to the "model" uniform when
there is a shader manager. -/
theorem SetTransformations_model (scaleXYZ : glm.vec3 ℝ) (X Y Z : ℝ)
    (positionXYZ offset : glm.vec3 ℝ) :
    SetTransformations Real.cos Real.sin Real.sqrt Real.pi scaleXYZ X Y Z positionXYZ offset
      = glm.translate (positionXYZ.add offset)
        * glm.rotate Real.cos Real.sin Real.sqrt (glm.radians Real.pi Z) ⟨0, 0, 1⟩
        * glm.rotate Real.cos Real.sin Real.sqrt (glm.radians Real.pi Y) ⟨0, 1, 0⟩
        * glm.rotate Real.cos Real.sin Real.sqrt (glm.radians Real.pi X) ⟨1, 0, 0⟩
        * glm.scale scaleXYZ ∧
    (∀ p : glm.vec3 ℝ,
      Matrix.mulVec
          (SetTransformations Real.cos Real.sin Real.sqrt Real.pi scaleXYZ X Y Z positionXYZ
            offset) (glm.point p)
        = glm.point (specModel Real.cos Real.sin Real.pi scaleXYZ X Y Z positionXYZ offset p)) ∧
    Matrix.mulVec
        (SetTransformations Real.cos Real.sin Real.sqrt Real.pi scaleXYZ X Y Z positionXYZ
          offset) (glm.point ⟨0, 0, 0⟩)
      = glm.point (positionXYZ.add offset) ∧
    (∀ sm : ShaderManager,
      SetTransformations.calls Real.cos Real.sin Real.sqrt Real.pi (some sm) scaleXYZ X Y Z
          positionXYZ offset
        = [ShaderCall.setMat4Value "model"
            (SetTransformations Real.cos Real.sin Real.sqrt Real.pi scaleXYZ X Y Z positionXYZ
              offset)]) := by
  have hp : ∀ p : glm.vec3 ℝ,
      Matrix.mulVec
          (SetTransformations Real.cos Real.sin Real.sqrt Real.pi scaleXYZ X Y Z positionXYZ
            offset) (glm.point p)
        = glm.point
            (specModel Real.cos Real.sin Real.pi scaleXYZ X Y Z positionXYZ offset p) := by
    intro p
    ext i
    fin_cases i <;>
      simp [SetTransformations, glm.scale, glm.rotate, glm.translate, glm.normalize,
        glm.dot, glm.point, glm.vec3.add, specModel, specRotateX, specRotateY, specRotateZ,
        specScale, Matrix.mul_apply, Matrix.mulVec, Matrix.dotProduct, Fin.sum_univ_four] <;>
      ring
  refine ⟨rfl, hp, ?_, fun _ => rfl⟩
  rw [hp]
  simp [specModel, specRotateX, specRotateY, specRotateZ, specScale, glm.vec3.add, glm.point]

/-! ### Loading the shader program -/

theorem CompileShader_programs (id : Nat) (status : Bool) (source : String)
    (dev : ShaderObjects) : (CompileShader id status source dev).2.programs = dev.programs := by
  unfold CompileShader
  by_cases hs : source = ""
  · simp [hs]
  · by_cases hid : id = 0
    · simp [hs, hid, glDeleteShader]
    · cases status <;> simp [hs, hid, glDeleteShader]

theorem CompileShader_ne_zero (id : Nat) (status : Bool) (source : String)
    (dev : ShaderObjects) :
    (CompileShader id status source dev).1 ≠ 0 ↔ source ≠ "" ∧ id ≠ 0 ∧ status = true := by
  unfold CompileShader
  by_cases hs : source = ""
  · simp [hs]
  · by_cases hid : id = 0
    · simp [hs, hid]
    · cases status <;> simp [hs, hid]

theorem CompileShader_fst (id : Nat) (status : Bool) (source : String)
    (dev : ShaderObjects) (h : (CompileShader id status source dev).1 ≠ 0) :
    (CompileShader id status source dev).1 = id := by
  have h2 := (CompileShader_ne_zero id status source dev).mp h
  unfold CompileShader
  simp [h2.1, h2.2.1, h2.2.2]

/-- C14: `LoadShaders` returns true exactly when both sources are non-empty, both stages
compile and the program links; a false return leaves `m_programId` as it was and deletes no
program that existed before the call; a true return stores the newly linked non-zero program
and deletes the previous one (here, and only here). The device is taken to return from
`glCreateProgram` a name that no existing program has, and the stored program to exist. -/
theorem LoadShaders_result (files : String → Option String) (gl : ShaderAnswers)
    (vertexShaderPath fragmentShaderPath : String) (sm : ShaderManager) (dev : ShaderObjects)
    (hfresh : gl.programId ∉ dev.programs)
    (hlive : sm.m_programId ≠ 0 → sm.m_programId ∈ dev.programs) :
    ((LoadShaders files gl vertexShaderPath fragmentShaderPath sm dev).1 = true ↔
      ReadTextFile files vertexShaderPath ≠ "" ∧ ReadTextFile files fragmentShaderPath ≠ "" ∧
      (gl.vertexShaderId ≠ 0 ∧ gl.vertexCompileStatus = true) ∧
      (gl.fragmentShaderId ≠ 0 ∧ gl.fragmentCompileStatus = true) ∧
      (gl.programId ≠ 0 ∧ gl.linkStatus = true)) ∧
    ((LoadShaders files gl vertexShaderPath fragmentShaderPath sm dev).1 = false →
      (LoadShaders files gl vertexShaderPath fragmentShaderPath sm dev).2.1 = sm ∧
      ∀ p, p ∈ dev.programs →
        p ∈ (LoadShaders files gl vertexShaderPath fragmentShaderPath sm dev).2.2.programs) ∧
    ((LoadShaders files gl vertexShaderPath fragmentShaderPath sm dev).1 = true →
      (LoadShaders files gl vertexShaderPath fragmentShaderPath sm dev).2.1.m_programId
        = gl.programId ∧
      gl.programId ≠ 0 ∧
      gl.programId
        ∈ (LoadShaders files gl vertexShaderPath fragmentShaderPath sm dev).2.2.programs ∧
      (sm.m_programId ≠ 0 → sm.m_programId
        ∉ (LoadShaders files gl vertexShaderPath fragmentShaderPath sm dev).2.2.programs) ∧
      ∀ p, p ∈ dev.programs → p ≠ sm.m_programId →
        p ∈ (LoadShaders files gl vertexShaderPath fragmentShaderPath sm dev).2.2.programs) := by
  have hV := CompileShader_ne_zero gl.vertexShaderId gl.vertexCompileStatus
    (ReadTextFile files vertexShaderPath) dev
  have hF := CompileShader_ne_zero gl.fragmentShaderId gl.fragmentCompileStatus
    (ReadTextFile files fragmentShaderPath)
    (CompileShader gl.vertexShaderId gl.vertexCompileStatus
      (ReadTextFile files vertexShaderPath) dev).2
  have hP : (CompileShader gl.fragmentShaderId gl.fragmentCompileStatus
      (ReadTextFile files fragmentShaderPath)
      (CompileShader gl.vertexShaderId gl.vertexCompileStatus
        (ReadTextFile files vertexShaderPath) dev).2).2.programs = dev.programs := by
    rw [CompileShader_programs, CompileShader_programs]
  have hne : sm.m_programId ≠ 0 → gl.programId ≠ sm.m_programId := fun h0 he =>
    hfresh (he ▸ hlive h0)
  unfold LoadShaders
  simp only []
  by_cases hc : (CompileShader gl.vertexShaderId gl.vertexCompileStatus
        (ReadTextFile files vertexShaderPath) dev).1 = 0 ∨
      (CompileShader gl.fragmentShaderId gl.fragmentCompileStatus
        (ReadTextFile files fragmentShaderPath)
        (CompileShader gl.vertexShaderId gl.vertexCompileStatus
          (ReadTextFile files vertexShaderPath) dev).2).1 = 0
  · rw [if_pos hc]
    refine ⟨?_, ?_, ?_⟩
    · constructor
      · intro h; cases h
      · rintro ⟨h1, h2, h3, h4, _⟩
        rcases hc with hc | hc
        · exact absurd hc (hV.mpr ⟨h1, h3.1, h3.2⟩)
        · exact absurd hc (hF.mpr ⟨h2, h4.1, h4.2⟩)
    · intro _
      exact ⟨rfl, fun p hp => by rw [hP]; exact hp⟩
    · intro h; cases h
  · rw [if_neg hc]
    have hc' := not_or.mp hc
    have hV' := hV.mp hc'.1
    have hF' := hF.mp hc'.2
    by_cases hid : gl.programId = 0
    · simp only [hid, if_true]
      refine ⟨?_, ?_, ?_⟩
      · constructor
        · intro h; simp at h
        · rintro ⟨_, _, _, _, h5, _⟩; exact absurd rfl h5
      · intro _
        refine ⟨by simp, fun p hp => ?_⟩
        simp [glDeleteShader, glDeleteProgram, hP]
        exact ⟨hp, fun h0 => hfresh (by rw [hid, ← h0]; exact hp)⟩
      · intro h; simp at h
    · cases hl : gl.linkStatus with
      | false =>
        simp only [hid, if_false, if_true]
        refine ⟨?_, ?_, ?_⟩
        · constructor
          · intro h; simp at h
          · rintro ⟨_, _, _, _, _, h6⟩; cases h6
        · intro _
          refine ⟨by simp, fun p hp => ?_⟩
          simp [glDeleteShader, glDeleteProgram, hP]
          exact ⟨hp, fun h0 => hfresh (h0 ▸ hp)⟩
        · intro h; simp at h
      | true =>
        simp only [hid, if_false, Bool.true_eq_false]
        refine ⟨?_, ?_, ?_⟩
        · constructor
          · intro _
            exact ⟨hV'.1, hF'.1, hV'.2, hF'.2, hid, trivial⟩
          · intro _; trivial
        · intro h; cases h
        · intro _
          refine ⟨trivial, hid, ?_, ?_, ?_⟩
          · by_cases h0 : sm.m_programId = 0
            · simp [h0, glDeleteShader, hP]
            · simp [h0, glDeleteShader, glDeleteProgram, hP, hne h0]
          · intro h0
            simp [h0, glDeleteShader, glDeleteProgram]
          · intro p hp hpn
            by_cases h0 : sm.m_programId = 0
            · simp [h0, glDeleteShader, hP, hp]
            · simp [h0, glDeleteShader, glDeleteProgram, hP, hp, hpn]

/-- Witness of C14: sources that load and compile, a fresh program 7 that links, and a
previous program 3: the call returns true, stores 7 and deletes 3. -/
theorem LoadShaders_result_witness :
    (LoadShaders (fun _ => some "void main") ⟨1, true, 2, true, 7, true⟩ "v.glsl" "f.glsl"
        ⟨3⟩ ⟨[], [3]⟩).2.1.m_programId = 7 ∧
    (7 : Nat) ≠ 0 ∧
    7 ∈ (LoadShaders (fun _ => some "void main") ⟨1, true, 2, true, 7, true⟩ "v.glsl" "f.glsl"
        ⟨3⟩ ⟨[], [3]⟩).2.2.programs ∧
    ((3 : Nat) ≠ 0 → 3 ∉ (LoadShaders (fun _ => some "void main") ⟨1, true, 2, true, 7, true⟩
        "v.glsl" "f.glsl" ⟨3⟩ ⟨[], [3]⟩).2.2.programs) ∧
    ∀ p, p ∈ [3] → p ≠ 3 →
      p ∈ (LoadShaders (fun _ => some "void main") ⟨1, true, 2, true, 7, true⟩ "v.glsl"
        "f.glsl" ⟨3⟩ ⟨[], [3]⟩).2.2.programs :=
  (LoadShaders_result (fun _ => some "void main") ⟨1, true, 2, true, 7, true⟩ "v.glsl"
    "f.glsl" ⟨3⟩ ⟨[], [3]⟩ (by decide) (by decide)).2.2 (by decide)

/-! ### The uniform setters -/

theorem writesOnly_update {α : Type} (location : Int) (value : UniformValue α) :
    WritesOnly
      (fun u : Uniforms α => if location ≥ 0 then Function.update u location (some value) else u)
      location value := by
  constructor
  · intro h u
    have : ¬ location ≥ 0 := by omega
    simp [this]
  · intro h u
    have : location ≥ 0 := h
    simp only [this, if_true]
    exact ⟨Function.update_same _ _ _, fun l hl => Function.update_noteq hl _ _⟩

/-- C15: each of the seven uniform setters changes no uniform when the location the device
reports for the name is negative, and otherwise writes the given value at that location and
changes no other uniform. -/
theorem setters_write_one_uniform {α : Type} (glGetUniformLocation : Nat → String → Int)
    (sm : ShaderManager) (name : String) (m : glm.mat4 α) (v4 : glm.vec4 α) (v3 : glm.vec3 α)
    (v2 : glm.vec2 α) (f : α) (i : Int) :
    WritesOnly (sm.setMat4Value glGetUniformLocation name m)
      (glGetUniformLocation sm.m_programId name) (UniformValue.mat4 m) ∧
    WritesOnly (sm.setVec4Value glGetUniformLocation name v4)
      (glGetUniformLocation sm.m_programId name) (UniformValue.vec4 v4) ∧
    WritesOnly (sm.setVec3Value glGetUniformLocation name v3)
      (glGetUniformLocation sm.m_programId name) (UniformValue.vec3 v3) ∧
    WritesOnly (sm.setVec2Value glGetUniformLocation name v2)
      (glGetUniformLocation sm.m_programId name) (UniformValue.vec2 v2) ∧
    WritesOnly (sm.setFloatValue glGetUniformLocation name f)
      (glGetUniformLocation sm.m_programId name) (UniformValue.float f) ∧
    WritesOnly (sm.setIntValue glGetUniformLocation name i : Uniforms α → Uniforms α)
      (glGetUniformLocation sm.m_programId name) (UniformValue.int i) ∧
    WritesOnly (sm.setSampler2DValue glGetUniformLocation name i : Uniforms α → Uniforms α)
      (glGetUniformLocation sm.m_programId name) (UniformValue.int i) :=
  ⟨writesOnly_update _ _, writesOnly_update _ _, writesOnly_update _ _, writesOnly_update _ _,
    writesOnly_update _ _, writesOnly_update _ _, writesOnly_update _ _⟩

theorem ShaderManager.call_writesOnly {α : Type} (glGetUniformLocation : Nat → String → Int)
    (sm : ShaderManager) (c : ShaderCall α) :
    WritesOnly (sm.call glGetUniformLocation c)
      (glGetUniformLocation sm.m_programId c.name) c.value := by
  cases c <;> exact writesOnly_update _ _

/-! ### Sequences of setter calls -/

theorem ShaderCall.lastValue_append {α : Type} (a b : List (ShaderCall α)) (name : String) :
    ShaderCall.lastValue (a ++ b) name
      = match ShaderCall.lastValue b name with
        | some value => some value
        | none => ShaderCall.lastValue a name := by
  induction a with
  | nil =>
    simp only [List.nil_append, ShaderCall.lastValue]
    cases ShaderCall.lastValue b name <;> rfl
  | cons c cs ih =>
    have hcons : ShaderCall.lastValue ((c :: cs) ++ b) name
        = match ShaderCall.lastValue (cs ++ b) name with
          | some value => some value
          | none => if c.name = name then some c.value else none := rfl
    rw [hcons, ih]
    cases ShaderCall.lastValue b name <;> rfl

/-- With distinct locations for distinct uniforms, the uniform `name` of the program holds,
after a sequence of setter calls, the value the last call naming it passed, and its old value
when no call names it. -/
theorem ShaderManager.run_lastValue {α : Type} (glGetUniformLocation : Nat → String → Int)
    (sm : ShaderManager) (name : String)
    (hloc : 0 ≤ glGetUniformLocation sm.m_programId name)
    (hinj : ∀ other, glGetUniformLocation sm.m_programId other
        = glGetUniformLocation sm.m_programId name → other = name) :
    ∀ (calls : List (ShaderCall α)) (u : Uniforms α),
      sm.run glGetUniformLocation calls u (glGetUniformLocation sm.m_programId name)
        = match ShaderCall.lastValue calls name with
          | some value => some value
          | none => u (glGetUniformLocation sm.m_programId name) := by
  intro calls
  induction calls with
  | nil => intro u; rfl
  | cons c rest ih =>
    intro u
    have hstep : sm.run glGetUniformLocation (c :: rest) u
        = sm.run glGetUniformLocation rest (sm.call glGetUniformLocation c u) := rfl
    rw [hstep, ih]
    have hw := ShaderManager.call_writesOnly glGetUniformLocation sm c
    have hc : sm.call glGetUniformLocation c u (glGetUniformLocation sm.m_programId name)
        = if c.name = name then some c.value
          else u (glGetUniformLocation sm.m_programId name) := by
      by_cases hn : c.name = name
      · rw [if_pos hn]
        have h0 : 0 ≤ glGetUniformLocation sm.m_programId c.name := by rw [hn]; exact hloc
        have := (hw.2 h0 u).1
        rw [hn] at this
        exact this
      · rw [if_neg hn]
        by_cases h0 : 0 ≤ glGetUniformLocation sm.m_programId c.name
        · exact (hw.2 h0 u).2 _ (fun he => hn (hinj c.name he.symm))
        · rw [hw.1 (by omega) u]
    simp only [ShaderCall.lastValue]
    cases hl : ShaderCall.lastValue rest name with
    | some value => rfl
    | none =>
      simp only [hc]
      by_cases hn : c.name = name <;> simp [hn]

/-! ### Texture or flat colour -/

/-- The guard `if (NULL != m_pShaderManager)`: with a NULL shader manager `SetShaderTexture`,
`SetShaderColor` and `SetTextureUVScale` make no setter call, and the uniforms stay as they
are. -/
theorem setters_guarded {α : Type} (glGetUniformLocation : Nat → String → Int)
    (tag : String) (s : SceneManager) (r g b a scaleU scaleV : α)
    (calls : List (ShaderCall α)) (u : Uniforms α) :
    (SetShaderTexture none tag s : List (ShaderCall α)) = [] ∧
    SetShaderColor none r g b a = [] ∧
    SetTextureUVScale none scaleU scaleV = [] ∧
    applyCalls glGetUniformLocation none calls u = u :=
  ⟨rfl, rfl, rfl, rfl⟩

/-- C17: `SetShaderTexture` (on a scene manager that has a shader manager) does not check
the lookup result; it makes the same two setter calls whether or not the tag is registered:
`bUseTexture` set to 1, then the result of `FindTextureSlot` passed as the `objectTexture`
sampler index, which is the sentinel -1 for a tag no registered entry carries and a slot
index in 0..m_loadedTextures-1 for a registered tag. -/
theorem SetShaderTexture_calls {α : Type} (sm : ShaderManager) (tag : String)
    (s : SceneManager) :
    (SetShaderTexture (some sm) tag s : List (ShaderCall α))
      = [ShaderCall.setIntValue "bUseTexture" 1,
         ShaderCall.setSampler2DValue "objectTexture" (FindTextureSlot tag s)] ∧
    ((∀ j, j < s.m_loadedTextures → (s.entry j).tag ≠ tag) →
      FindTextureSlot tag s = -1 ∧
      (SetShaderTexture (some sm) tag s : List (ShaderCall α))
        = [ShaderCall.setIntValue "bUseTexture" 1,
           ShaderCall.setSampler2DValue "objectTexture" (-1)]) ∧
    ((∃ j, j < s.m_loadedTextures ∧ (s.entry j).tag = tag) →
      0 ≤ FindTextureSlot tag s ∧ FindTextureSlot tag s < (s.m_loadedTextures : Int)) := by
  have hspec := FindTextureSlot.loop_spec s tag s.m_loadedTextures 0 (by omega)
  refine ⟨rfl, ?_, ?_⟩
  · intro hno
    have hslot : FindTextureSlot tag s = -1 := by
      rcases hspec with ⟨_, h1, _⟩ | ⟨i, _, hi2, hi3, _⟩
      · exact h1
      · exact absurd hi3 (hno i hi2)
    refine ⟨hslot, ?_⟩
    show [ShaderCall.setIntValue g_UseTextureName 1,
      ShaderCall.setSampler2DValue g_TextureValueName (FindTextureSlot tag s)] = _
    rw [hslot]
    rfl
  · rintro ⟨j, hj, htag⟩
    rcases hspec with ⟨hall, _, _⟩ | ⟨i, _, hi2, _, _, hi5, _⟩
    · exact absurd htag (hall j (Nat.zero_le _) hj)
    · unfold FindTextureSlot
      rw [hi5]
      constructor
      · exact Int.natCast_nonneg i
      · exact_mod_cast hi2

/-! ### Face culling during the frame -/

theorem RenderScene.drawLog_eq {α : Type} [Field α] (cosf sinf sqrtf : α → α) (kPi : α)
    (m_pShaderManager : Option ShaderManager) :
    Call.drawLog (RenderScene cosf sinf sqrtf kPi m_pShaderManager) false
      = [(DrawCall.DrawPlaneMesh, false), (DrawCall.DrawPlaneMesh, false),
         (DrawCall.DrawPlaneMesh, false), (DrawCall.DrawPlaneMesh, false),
         (DrawCall.DrawPlaneMesh, false), (DrawCall.DrawPlaneMesh, false),
         (DrawCall.DrawBoxMesh, false),
         (DrawCall.DrawBoxMesh, false), (DrawCall.DrawFlatSphereMesh, false),
         (DrawCall.DrawBoxMesh, false), (DrawCall.DrawFlatSphereMesh, false),
         (DrawCall.DrawBoxMesh, false), (DrawCall.DrawFlatSphereMesh, false),
         (DrawCall.DrawBoxMesh, false), (DrawCall.DrawFlatSphereMesh, false),
         (DrawCall.DrawPlaneMesh, false), (DrawCall.DrawPlaneMesh, false),
         (DrawCall.DrawWedgeMesh, false),
         (DrawCall.DrawCylinderMesh, false), (DrawCall.DrawHemisphereMesh, false),
         (DrawCall.DrawHemisphereMesh, false),
         (DrawCall.DrawFlatSphereMesh, false), (DrawCall.DrawPentagonalPrismMesh, false),
         (DrawCall.DrawBoxMesh, false), (DrawCall.DrawPlaneMesh, false),
         (DrawCall.DrawHollowCylinderMesh, true), (DrawCall.DrawHollowCylinderMesh, true),
         (DrawCall.DrawHollowCylinderMesh, true),
         (DrawCall.DrawFlatSphereMesh, false), (DrawCall.DrawTorusMesh, false)] := by
  cases m_pShaderManager <;> rfl

/-- C18: running `RenderScene` from a state with face culling disabled, every draw call issued
while culling is enabled is a `DrawHollowCylinderMesh` (and all three of those are), every
other draw call is issued with culling disabled, and culling is disabled when the method
returns; with or without a shader manager. -/
theorem RenderScene_culling {α : Type} [Field α] (cosf sinf sqrtf : α → α) (kPi : α)
    (m_pShaderManager : Option ShaderManager) :
    (∀ e, e ∈ Call.drawLog (RenderScene cosf sinf sqrtf kPi m_pShaderManager) false →
      (e.2 = true ↔ e.1 = DrawCall.DrawHollowCylinderMesh)) ∧
    (Call.drawLog (RenderScene cosf sinf sqrtf kPi m_pShaderManager) false).length = 30 ∧
    ((Call.drawLog (RenderScene cosf sinf sqrtf kPi m_pShaderManager) false).filter
      (fun e => e.2)).length = 3 ∧
    Call.cullingAfter (RenderScene cosf sinf sqrtf kPi m_pShaderManager) false = false := by
  rw [RenderScene.drawLog_eq]
  refine ⟨by decide, by decide, by decide, ?_⟩
  cases m_pShaderManager <;> rfl

/-! ### The lighting set-up of the frame -/

/-- The setter calls of `RenderScene` before its first draw call: the lighting set-up, then
the calls that prepare the back wall. -/
theorem RenderScene.setterCallsBeforeFirstDraw_eq {α : Type} [Field α]
    (cosf sinf sqrtf : α → α) (kPi : α) (sm : ShaderManager) (s : SceneManager) :
    RenderScene.setterCallsBeforeFirstDraw cosf sinf sqrtf kPi (some sm) s
      = RenderScene.lighting cosf sqrtf kPi ++
        [ShaderCall.setMat4Value g_ModelName
           (SetTransformations cosf sinf sqrtf kPi ⟨104, 1, 50⟩ 90 0 0 ⟨-12.5, 10, -37.5⟩
             SetTransformations.defaultOffset),
         ShaderCall.setIntValue g_UseLightingName 0,
         ShaderCall.setIntValue g_UseTextureName 1,
         ShaderCall.setSampler2DValue g_TextureValueName (FindTextureSlot "background" s),
         ShaderCall.setVec2Value "UVscale" ⟨1, -1⟩] := by
  rfl

theorem ShaderCall.lastValue_eq_none {α : Type} (calls : List (ShaderCall α)) (name : String)
    (h : ∀ c, c ∈ calls → c.name ≠ name) : ShaderCall.lastValue calls name = none := by
  induction calls with
  | nil => rfl
  | cons c cs ih =>
    have hcons : ShaderCall.lastValue (c :: cs) name
        = match ShaderCall.lastValue cs name with
          | some value => some value
          | none => if c.name = name then some c.value else none := rfl
    rw [hcons, ih (fun d hd => h d (List.mem_cons_of_mem _ hd)),
      if_neg (h c (List.mem_cons_self _ _))]

/-- Calls that do not name `name` after a sequence do not change what it passes last. -/
theorem ShaderCall.lastInt_append_of_names {α : Type} (a b : List (ShaderCall α))
    (allowed : List String) (name : String)
    (hb : b.all (fun c => decide (c.name ∈ allowed)) = true) (hname : name ∉ allowed) :
    ShaderCall.lastInt (a ++ b) name = ShaderCall.lastInt a name := by
  have hnone : ShaderCall.lastValue b name = none := by
    apply ShaderCall.lastValue_eq_none
    intro c hc heq
    have := List.all_eq_true.mp hb c hc
    rw [decide_eq_true_eq, heq] at this
    exact hname this
  unfold ShaderCall.lastInt
  rw [ShaderCall.lastValue_append, hnone]

theorem Call.flatMap_shader {α : Type} [Field α] (cosf sinf sqrtf : α → α) (kPi : α)
    (m_pShaderManager : Option ShaderManager) (s : SceneManager)
    (calls : List (ShaderCall α)) :
    (calls.map Call.shader).flatMap
      (Call.shaderCalls cosf sinf sqrtf kPi m_pShaderManager s) = calls := by
  induction calls with
  | nil => rfl
  | cons c cs ih =>
    rw [List.map_cons, List.flatMap_cons, ih]
    rfl

/-- The setter calls of the whole frame: the lighting set-up, then those of the objects. -/
theorem RenderScene.setterCalls_eq {α : Type} [Field α]
    (cosf sinf sqrtf : α → α) (kPi : α) (sm : ShaderManager) (s : SceneManager) :
    RenderScene.setterCalls cosf sinf sqrtf kPi (some sm) s
      = RenderScene.lighting cosf sqrtf kPi ++
        (RenderScene.room (some sm) ++ RenderScene.table (some sm) ++ RenderScene.desk
          ++ RenderScene.mouse cosf sinf sqrtf kPi (some sm) ++ RenderScene.monitor
          ++ RenderScene.mug (some sm)).flatMap
          (Call.shaderCalls cosf sinf sqrtf kPi (some sm) s) := by
  unfold RenderScene.setterCalls RenderScene
  simp only [List.flatMap_append, ifShaderManager, Call.flatMap_shader, List.append_assoc]

/-- The setter calls after the lighting set-up name only the uniforms of the objects. -/
theorem RenderScene.objectCalls_names {α : Type} [Field α]
    (cosf sinf sqrtf : α → α) (kPi : α) (sm : ShaderManager) (s : SceneManager) :
    ((RenderScene.room (some sm) ++ RenderScene.table (some sm) ++ RenderScene.desk
        ++ RenderScene.mouse cosf sinf sqrtf kPi (some sm) ++ RenderScene.monitor
        ++ RenderScene.mug (some sm)).flatMap
        (Call.shaderCalls cosf sinf sqrtf kPi (some sm) s)).all
      (fun c => decide (c.name ∈ ["model", "bUseLighting", "bUseTexture", "objectTexture",
        "objectColor", "UVscale", "material.diffuseColor", "material.specularColor",
        "material.shininess"])) = true := by
  rfl

/-- The activity flags the lighting set-up passes last. -/
theorem RenderScene.lightFlags {α : Type} [Field α] (cosf sqrtf : α → α) (kPi : α) :
    ShaderCall.lastInt (RenderScene.lighting cosf sqrtf kPi)
      "directionalLight.bActive" = some 1 ∧
    ShaderCall.lastInt (RenderScene.lighting cosf sqrtf kPi)
      "pointLights[0].bActive" = some 0 ∧
    ShaderCall.lastInt (RenderScene.lighting cosf sqrtf kPi)
      "pointLights[1].bActive" = some 1 ∧
    ShaderCall.lastInt (RenderScene.lighting cosf sqrtf kPi)
      "pointLights[2].bActive" = some 0 ∧
    ShaderCall.lastInt (RenderScene.lighting cosf sqrtf kPi)
      "pointLights[3].bActive" = some 0 ∧
    ShaderCall.lastInt (RenderScene.lighting cosf sqrtf kPi)
      "pointLights[4].bActive" = some 0 ∧
    ShaderCall.lastInt (RenderScene.lighting cosf sqrtf kPi)
      "spotLight.bActive" = some 1 :=
  ⟨rfl, rfl, rfl, rfl, rfl, rfl, rfl⟩

/-- The activity flags the setter calls before the first draw call pass last. -/
theorem RenderScene.lightFlags_before {α : Type} [Field α] (cosf sinf sqrtf : α → α) (kPi : α)
    (sm : ShaderManager) (s : SceneManager) :
    ShaderCall.lastInt (RenderScene.setterCallsBeforeFirstDraw cosf sinf sqrtf kPi (some sm) s)
      "directionalLight.bActive" = some 1 ∧
    ShaderCall.lastInt (RenderScene.setterCallsBeforeFirstDraw cosf sinf sqrtf kPi (some sm) s)
      "pointLights[0].bActive" = some 0 ∧
    ShaderCall.lastInt (RenderScene.setterCallsBeforeFirstDraw cosf sinf sqrtf kPi (some sm) s)
      "pointLights[1].bActive" = some 1 ∧
    ShaderCall.lastInt (RenderScene.setterCallsBeforeFirstDraw cosf sinf sqrtf kPi (some sm) s)
      "pointLights[2].bActive" = some 0 ∧
    ShaderCall.lastInt (RenderScene.setterCallsBeforeFirstDraw cosf sinf sqrtf kPi (some sm) s)
      "pointLights[3].bActive" = some 0 ∧
    ShaderCall.lastInt (RenderScene.setterCallsBeforeFirstDraw cosf sinf sqrtf kPi (some sm) s)
      "pointLights[4].bActive" = some 0 ∧
    ShaderCall.lastInt (RenderScene.setterCallsBeforeFirstDraw cosf sinf sqrtf kPi (some sm) s)
      "spotLight.bActive" = some 1 := by
  have hb : ∀ name, name ∉ ["model", "bUseLighting", "bUseTexture", "objectTexture",
      "UVscale"] →
      ShaderCall.lastInt
        (RenderScene.setterCallsBeforeFirstDraw cosf sinf sqrtf kPi (some sm) s) name
        = ShaderCall.lastInt (RenderScene.lighting cosf sqrtf kPi) name := by
    intro name hname
    rw [RenderScene.setterCallsBeforeFirstDraw_eq]
    exact ShaderCall.lastInt_append_of_names _ _
      ["model", "bUseLighting", "bUseTexture", "objectTexture", "UVscale"] name rfl hname
  obtain ⟨h0, h1, h2, h3, h4, h5, h6⟩ := RenderScene.lightFlags cosf sqrtf kPi
  exact ⟨(hb _ (by decide)).trans h0, (hb _ (by decide)).trans h1,
    (hb _ (by decide)).trans h2, (hb _ (by decide)).trans h3, (hb _ (by decide)).trans h4,
    (hb _ (by decide)).trans h5, (hb _ (by decide)).trans h6⟩

/-- The activity flags the setter calls of the whole frame pass last. -/
theorem RenderScene.lightFlags_frame {α : Type} [Field α] (cosf sinf sqrtf : α → α) (kPi : α)
    (sm : ShaderManager) (s : SceneManager) :
    ShaderCall.lastInt (RenderScene.setterCalls cosf sinf sqrtf kPi (some sm) s)
      "directionalLight.bActive" = some 1 ∧
    ShaderCall.lastInt (RenderScene.setterCalls cosf sinf sqrtf kPi (some sm) s)
      "pointLights[0].bActive" = some 0 ∧
    ShaderCall.lastInt (RenderScene.setterCalls cosf sinf sqrtf kPi (some sm) s)
      "pointLights[1].bActive" = some 1 ∧
    ShaderCall.lastInt (RenderScene.setterCalls cosf sinf sqrtf kPi (some sm) s)
      "pointLights[2].bActive" = some 0 ∧
    ShaderCall.lastInt (RenderScene.setterCalls cosf sinf sqrtf kPi (some sm) s)
      "pointLights[3].bActive" = some 0 ∧
    ShaderCall.lastInt (RenderScene.setterCalls cosf sinf sqrtf kPi (some sm) s)
      "pointLights[4].bActive" = some 0 ∧
    ShaderCall.lastInt (RenderScene.setterCalls cosf sinf sqrtf kPi (some sm) s)
      "spotLight.bActive" = some 1 := by
  have hb : ∀ name, name ∉ ["model", "bUseLighting", "bUseTexture", "objectTexture",
      "objectColor", "UVscale", "material.diffuseColor", "material.specularColor",
      "material.shininess"] →
      ShaderCall.lastInt (RenderScene.setterCalls cosf sinf sqrtf kPi (some sm) s) name
        = ShaderCall.lastInt (RenderScene.lighting cosf sqrtf kPi) name := by
    intro name hname
    rw [RenderScene.setterCalls_eq]
    exact ShaderCall.lastInt_append_of_names _ _ _ name
      (RenderScene.objectCalls_names cosf sinf sqrtf kPi sm s) hname
  obtain ⟨h0, h1, h2, h3, h4, h5, h6⟩ := RenderScene.lightFlags cosf sqrtf kPi
  exact ⟨(hb _ (by decide)).trans h0, (hb _ (by decide)).trans h1,
    (hb _ (by decide)).trans h2, (hb _ (by decide)).trans h3, (hb _ (by decide)).trans h4,
    (hb _ (by decide)).trans h5, (hb _ (by decide)).trans h6⟩

theorem ShaderCall.lastValue_of_lastInt {α : Type} (calls : List (ShaderCall α))
    (name : String) (value : Int) (h : ShaderCall.lastInt calls name = some value) :
    ShaderCall.lastValue calls name = some (UniformValue.int value) := by
  unfold ShaderCall.lastInt at h
  split at h
  · rename_i v hv
    rw [hv]
    cases h
    rfl
  · cases h

/-- C19: with a non-null shader manager, the setter calls `RenderScene` makes before its first
draw call write each of `directionalLight.bActive`, `pointLights[0..4].bActive` and
`spotLight.bActive` through `setIntValue`, the last value passed being 1 for the directional
light, the spotlight and point-light slot 1, and 0 for slots 0, 2, 3 and 4; the calls of the
whole frame leave the same last values; and a first draw call exists (the back wall). On a
program in which such a flag is an active uniform with a location of its own, the uniform
holds that value when the first draw call is issued. -/
theorem RenderScene_lighting {α : Type} [Field α] (cosf sinf sqrtf : α → α) (kPi : α)
    (sm : ShaderManager) (s : SceneManager) :
    (∀ flag, flag ∈ [("directionalLight.bActive", (1 : Int)),
        ("pointLights[0].bActive", 0), ("pointLights[1].bActive", 1),
        ("pointLights[2].bActive", 0), ("pointLights[3].bActive", 0),
        ("pointLights[4].bActive", 0), ("spotLight.bActive", 1)] →
      ShaderCall.lastInt
        (RenderScene.setterCallsBeforeFirstDraw cosf sinf sqrtf kPi (some sm) s) flag.1
        = some flag.2 ∧
      ShaderCall.lastInt (RenderScene.setterCalls cosf sinf sqrtf kPi (some sm) s) flag.1
        = some flag.2 ∧
      ∀ (glGetUniformLocation : Nat → String → Int) (u : Uniforms α),
        0 ≤ glGetUniformLocation sm.m_programId flag.1 →
        (∀ other, glGetUniformLocation sm.m_programId other
          = glGetUniformLocation sm.m_programId flag.1 → other = flag.1) →
        sm.run glGetUniformLocation
          (RenderScene.setterCallsBeforeFirstDraw cosf sinf sqrtf kPi (some sm) s) u
          (glGetUniformLocation sm.m_programId flag.1)
          = some (UniformValue.int flag.2)) ∧
    (Call.drawLog (RenderScene cosf sinf sqrtf kPi (some sm)) false).head?
      = some (DrawCall.DrawPlaneMesh, false) := by
  have key : ∀ (name : String) (value : Int),
      ShaderCall.lastInt
        (RenderScene.setterCallsBeforeFirstDraw cosf sinf sqrtf kPi (some sm) s) name
        = some value →
      ∀ (glGetUniformLocation : Nat → String → Int) (u : Uniforms α),
        0 ≤ glGetUniformLocation sm.m_programId name →
        (∀ other, glGetUniformLocation sm.m_programId other
          = glGetUniformLocation sm.m_programId name → other = name) →
        sm.run glGetUniformLocation
          (RenderScene.setterCallsBeforeFirstDraw cosf sinf sqrtf kPi (some sm) s) u
          (glGetUniformLocation sm.m_programId name)
          = some (UniformValue.int value) := by
    intro name value h loc u hloc hinj
    rw [ShaderManager.run_lastValue loc sm name hloc hinj,
      ShaderCall.lastValue_of_lastInt _ _ _ h]
  obtain ⟨b0, b1, b2, b3, b4, b5, b6⟩ :=
    RenderScene.lightFlags_before cosf sinf sqrtf kPi sm s
  obtain ⟨f0, f1, f2, f3, f4, f5, f6⟩ :=
    RenderScene.lightFlags_frame cosf sinf sqrtf kPi sm s
  refine ⟨?_, ?_⟩
  · intro flag hflag
    simp only [List.mem_cons, List.mem_singleton, List.not_mem_nil, or_false] at hflag
    rcases hflag with h | h | h | h | h | h | h <;> subst h
    · exact ⟨b0, f0, key _ _ b0⟩
    · exact ⟨b1, f1, key _ _ b1⟩
    · exact ⟨b2, f2, key _ _ b2⟩
    · exact ⟨b3, f3, key _ _ b3⟩
    · exact ⟨b4, f4, key _ _ b4⟩
    · exact ⟨b5, f5, key _ _ b5⟩
    · exact ⟨b6, f6, key _ _ b6⟩
  · rw [RenderScene.drawLog_eq]
    rfl

/-! ### The registry after `PrepareScene` -/

/-- A run of loads that all return true registers its tags one after the other. -/
theorem CreateGLTextures_all_true (stbi_load : String → Option StbImage)
    (glGenTextures : Nat → Nat) :
    ∀ (l : List (String × String)) (k : Nat) (s0 s : SceneManager) (flags : List Bool),
      CreateGLTextures stbi_load (PrepareScene.calls glGenTextures k l) s0 = some (flags, s) →
      (∀ b, b ∈ flags → b = true) →
      s.m_loadedTextures = s0.m_loadedTextures + l.length ∧
      (∀ i, i < l.length →
        (s.entry (s0.m_loadedTextures + i)).tag = (l.getD i default).2) ∧
      (∀ j, j < s0.m_loadedTextures → s.entry j = s0.entry j) := by
  intro l
  induction l with
  | nil =>
    intro k s0 s flags h _
    simp [PrepareScene.calls, CreateGLTextures] at h
    obtain ⟨_, h2⟩ := h
    subst h2
    exact ⟨rfl, fun i hi => absurd hi (by simp), fun _ _ => rfl⟩
  | cons c rest ih =>
    intro k s0 s flags h hall
    obtain ⟨filename, tag⟩ := c
    simp only [PrepareScene.calls] at h
    unfold CreateGLTextures at h
    cases hc : CreateGLTexture stbi_load (glGenTextures k) filename tag s0 with
    | none => simp [hc] at h
    | some r =>
      obtain ⟨b, s1⟩ := r
      cases hr : CreateGLTextures stbi_load
          (PrepareScene.calls glGenTextures (k + 1) rest) s1 with
      | none => simp [hc, hr] at h
      | some r2 =>
        obtain ⟨bs, s2⟩ := r2
        simp [hc, hr] at h
        obtain ⟨h1, h2⟩ := h
        subst h1 h2
        have hb : b = true := hall b (List.mem_cons_self _ _)
        subst hb
        obtain ⟨n1, _, new1, old1⟩ :=
          CreateGLTexture_entries stbi_load (glGenTextures k) filename tag s0 s1 hc
        obtain ⟨n2, tags2, old2⟩ := ih (k + 1) s1 _ bs hr
          (fun b hb => hall b (List.mem_cons_of_mem _ hb))
        refine ⟨by rw [n2, n1, List.length_cons]; omega, ?_, ?_⟩
        · intro i hi
          cases i with
          | zero =>
            rw [Nat.add_zero, old2 _ (by omega), new1]
            rfl
          | succ i =>
            have := tags2 i (by simpa using hi)
            rw [n1] at this
            rw [show s0.m_loadedTextures + (i + 1) = s0.m_loadedTextures + 1 + i by omega,
              this]
            rfl
        · intro j hj
          rw [old2 j (by omega), old1 j (by omega)]

/-- With room in the array and every file decoded to a 3- or 4-channel image, a run of
loads returns, and every load returns true. -/
theorem CreateGLTextures_returns (stbi_load : String → Option StbImage)
    (glGenTextures : Nat → Nat) :
    ∀ (l : List (String × String)) (k : Nat) (s0 : SceneManager),
      s0.m_loadedTextures + l.length ≤ s0.m_textureIDs.length →
      (∀ c, c ∈ l → ∃ image, stbi_load c.1 = some image ∧
        (image.colorChannels = 3 ∨ image.colorChannels = 4)) →
      ∃ s, CreateGLTextures stbi_load (PrepareScene.calls glGenTextures k l) s0
        = some (List.replicate l.length true, s) := by
  intro l
  induction l with
  | nil =>
    intro k s0 _ _
    exact ⟨s0, rfl⟩
  | cons c rest ih =>
    intro k s0 hcap hload
    obtain ⟨filename, tag⟩ := c
    obtain ⟨image, himg, hch⟩ := hload (filename, tag) (List.mem_cons_self _ _)
    have hc := CreateGLTexture_of_channels stbi_load (glGenTextures k) filename tag s0 image
      himg hch (by simp only [List.length_cons] at hcap; omega)
    obtain ⟨n1, l1, _, _⟩ :=
      CreateGLTexture_entries stbi_load (glGenTextures k) filename tag s0 _ hc
    obtain ⟨s, hs⟩ := ih (k + 1) _
      (by rw [n1, l1]; simp only [List.length_cons] at hcap; omega)
      (fun c hc => hload c (List.mem_cons_of_mem _ hc))
    refine ⟨s, ?_⟩
    simp only [PrepareScene.calls]
    unfold CreateGLTextures
    rw [hc]
    simp only [hs]
    rfl

/-- Entries carrying pairwise distinct tags are found at their own index. -/
theorem FindTextureSlot_of_nodup (s : SceneManager)
    (h : ((List.range s.m_loadedTextures).map (fun i => (s.entry i).tag)).Nodup)
    (i : Nat) (hi : i < s.m_loadedTextures) :
    FindTextureSlot (s.entry i).tag s = (i : Int) := by
  refine (FindTexture_of_first s _ i hi rfl ?_).1
  intro j hj heq
  have hinj := List.nodup_iff_injective_get.mp h
  have hlen : ((List.range s.m_loadedTextures).map (fun i => (s.entry i).tag)).length
      = s.m_loadedTextures := by simp
  have := @hinj ⟨j, by rw [hlen]; omega⟩ ⟨i, by rw [hlen]; omega⟩ (by simpa using heq)
  have hji : j = i := by simpa using congrArg Fin.val this
  omega

theorem RenderScene.textureTags_eq {α : Type} [Field α] (cosf sinf sqrtf : α → α) (kPi : α)
    (m_pShaderManager : Option ShaderManager) :
    Call.textureTags (RenderScene cosf sinf sqrtf kPi m_pShaderManager)
      = ["background", "afromosia_floor", "brick_wall", "brick_wall", "brick_wall", "roof",
         "bark", "black_metal", "surface_imperfections", "keyboard", "black_leather",
         "jojo", "painted_plaster", "blue_plaster", "painted_plaster",
         "surface_imperfections", "blue_plaster"] := by
  cases m_pShaderManager <;> rfl

/-- C21: on a fresh `SceneManager` (no texture registered), when `PrepareScene` returns and
each of its thirteen loads returned true, the registry holds the 13 catalog tags in slots
0..12 in the order of the catalog, each once; `FindTextureSlot` finds each at its slot, and
every tag `RenderScene` passes to `SetShaderTexture` resolves to a slot in 0..12. With room
for 13 entries and every file decoded to a 3- or 4-channel image, `PrepareScene` does return
with all thirteen loads true. -/
theorem PrepareScene_registry {α : Type} [Field α] (cosf sinf sqrtf : α → α) (kPi : α)
    (m_pShaderManager : Option ShaderManager)
    (stbi_load : String → Option StbImage) (glGenTextures : Nat → Nat)
    (s0 : SceneManager) (d : TextureUnits) (h0 : s0.m_loadedTextures = 0) :
    (13 ≤ s0.m_textureIDs.length →
      (∀ c, c ∈ PrepareScene.textures → ∃ image, stbi_load c.1 = some image ∧
        (image.colorChannels = 3 ∨ image.colorChannels = 4)) →
      ∃ s, PrepareScene stbi_load glGenTextures s0 d = some (List.replicate 13 true, s)) ∧
    (∀ flags s, PrepareScene stbi_load glGenTextures s0 d = some (flags, s) →
      (∀ b, b ∈ flags → b = true) →
      s.m_loadedTextures = 13 ∧
      (List.range s.m_loadedTextures).map (fun i => (s.entry i).tag)
        = ["bark", "blue_plaster", "painted_plaster", "surface_imperfections", "keyboard",
           "black_leather", "mouse", "jojo", "background", "black_metal", "brick_wall",
           "roof", "afromosia_floor"] ∧
      ((List.range s.m_loadedTextures).map (fun i => (s.entry i).tag)).Nodup ∧
      (∀ i, i < 13 → FindTextureSlot (s.entry i).tag s = (i : Int)) ∧
      (∀ tag, tag ∈ Call.textureTags (RenderScene cosf sinf sqrtf kPi m_pShaderManager) →
        0 ≤ FindTextureSlot tag s ∧ FindTextureSlot tag s < 13)) := by
  constructor
  · intro hcap hload
    obtain ⟨s, hs⟩ := CreateGLTextures_returns stbi_load glGenTextures PrepareScene.textures
      0 s0 (by rw [h0]; simpa [PrepareScene.textures] using hcap) hload
    refine ⟨s, ?_⟩
    unfold PrepareScene
    rw [hs]
    rfl
  · intro flags s hrun hall
    unfold PrepareScene at hrun
    cases hc : CreateGLTextures stbi_load
        (PrepareScene.calls glGenTextures 0 PrepareScene.textures) s0 with
    | none => simp [hc] at hrun
    | some r =>
      obtain ⟨flags1, s1⟩ := r
      simp only [hc, BindGLTextures, Option.some.injEq, Prod.mk.injEq] at hrun
      obtain ⟨hf, hs⟩ := hrun
      subst hf hs
      obtain ⟨hn, htags, _⟩ := CreateGLTextures_all_true stbi_load glGenTextures
        PrepareScene.textures 0 s0 s1 flags1 hc hall
      rw [h0] at hn htags
      have hn13 : s1.m_loadedTextures = 13 := by rw [hn]; rfl
      have hlist : (List.range s1.m_loadedTextures).map (fun i => (s1.entry i).tag)
          = ["bark", "blue_plaster", "painted_plaster", "surface_imperfections", "keyboard",
             "black_leather", "mouse", "jojo", "background", "black_metal", "brick_wall",
             "roof", "afromosia_floor"] := by
        rw [hn13]
        have hr : List.range 13 = [0, 1, 2, 3, 4, 5, 6, 7, 8, 9, 10, 11, 12] := by decide
        have ht : ∀ i, i < 13 → (s1.entry i).tag = (PrepareScene.textures.getD i default).2 := by
          intro i hi
          have := htags i (by simpa [PrepareScene.textures] using hi)
          rwa [Nat.zero_add] at this
        rw [hr]
        simp only [List.map_cons, List.map_nil]
        rw [ht 0 (by omega), ht 1 (by omega), ht 2 (by omega), ht 3 (by omega),
          ht 4 (by omega), ht 5 (by omega), ht 6 (by omega), ht 7 (by omega),
          ht 8 (by omega), ht 9 (by omega), ht 10 (by omega), ht 11 (by omega),
          ht 12 (by omega)]
        rfl
      have hnodup : ((List.range s1.m_loadedTextures).map (fun i => (s1.entry i).tag)).Nodup := by
        rw [hlist]
        decide
      have hslot : ∀ i, i < 13 → FindTextureSlot (s1.entry i).tag s1 = (i : Int) :=
        fun i hi => FindTextureSlot_of_nodup s1 hnodup i (by omega)
      have htag : ∀ i, (hi : i < 13) → (s1.entry i).tag
          = ["bark", "blue_plaster", "painted_plaster", "surface_imperfections", "keyboard",
             "black_leather", "mouse", "jojo", "background", "black_metal", "brick_wall",
             "roof", "afromosia_floor"].getD i "" := by
        intro i hi
        have := congrArg (fun l => l.getD i "") hlist
        simpa [hn13, hi, List.getD_eq_getElem?_getD] using this
      refine ⟨hn13, hlist, hnodup, hslot, ?_⟩
      intro tag htagmem
      rw [RenderScene.textureTags_eq] at htagmem
      have key : ∀ i, (hi : i < 13) → tag
          = ["bark", "blue_plaster", "painted_plaster", "surface_imperfections", "keyboard",
             "black_leather", "mouse", "jojo", "background", "black_metal", "brick_wall",
             "roof", "afromosia_floor"].getD i "" →
          0 ≤ FindTextureSlot tag s1 ∧ FindTextureSlot tag s1 < 13 := by
        intro i hi ht
        rw [ht, ← htag i hi, hslot i hi]
        omega
      simp only [List.mem_cons, List.mem_singleton, List.not_mem_nil, or_false] at htagmem
      rcases htagmem with h | h | h | h | h | h | h | h | h | h | h | h | h | h | h | h | h
      · exact key 8 (by omega) h
      · exact key 12 (by omega) h
      · exact key 10 (by omega) h
      · exact key 10 (by omega) h
      · exact key 10 (by omega) h
      · exact key 11 (by omega) h
      · exact key 0 (by omega) h
      · exact key 9 (by omega) h
      · exact key 3 (by omega) h
      · exact key 4 (by omega) h
      · exact key 5 (by omega) h
      · exact key 7 (by omega) h
      · exact key 2 (by omega) h
      · exact key 1 (by omega) h
      · exact key 2 (by omega) h
      · exact key 3 (by omega) h
      · exact key 1 (by omega) h

/-- Witness of C21: a registry of capacity 16 with no texture registered, every file decoded
to a 64x64 RGB image, the device handing out the handles 1, 2, 3, ... -/
theorem PrepareScene_registry_witness :
    ∃ s, PrepareScene (fun _ => some ⟨64, 64, 3⟩) (fun k => k + 1)
        ⟨List.replicate 16 default, 0⟩ ⟨0, fun _ => 0⟩ = some (List.replicate 13 true, s) ∧
      s.m_loadedTextures = 13 ∧
      FindTextureSlot "afromosia_floor" s = 12 :=
  match (@PrepareScene_registry ℚ _ id id id 0 none (fun _ => some ⟨64, 64, 3⟩)
      (fun k => k + 1) ⟨List.replicate 16 default, 0⟩ ⟨0, fun _ => 0⟩ rfl).1 (by decide)
      (fun _ _ => ⟨⟨64, 64, 3⟩, rfl, Or.inl rfl⟩) with
  | ⟨s, hs⟩ =>
    ⟨s, hs,
      ((@PrepareScene_registry ℚ _ id id id 0 none (fun _ => some ⟨64, 64, 3⟩)
        (fun k => k + 1) ⟨List.replicate 16 default, 0⟩ ⟨0, fun _ => 0⟩ rfl).2 _ s hs
        (by simp)).1,
      by
        have h := (@PrepareScene_registry ℚ _ id id id 0 none (fun _ => some ⟨64, 64, 3⟩)
          (fun k => k + 1) ⟨List.replicate 16 default, 0⟩ ⟨0, fun _ => 0⟩ rfl).2 _ s hs
          (by simp)
        have htags := congrArg (fun l => l.getD 12 "") h.2.1
        have h12 := h.2.2.2.1 12 (by norm_num)
        rw [h.1] at htags
        simp at htags
        rw [htags] at h12
        exact h12⟩

/-! ### Normals of the cylinder -/

theorem cylinderSegment_normals (i : Nat) (t : Triangle ℝ)
    (ht : t ∈ triangles (cylinderSegment Real.cos Real.sin Real.pi 64 i)) :
    t.A.normal ≠ t.C.normal ∧
    (t.B.normal = t.A.normal ∨ t.B.normal = t.C.normal) := by
  have hstep := circle_step 64 (by norm_num) i
  simp only [cylinderSegment, triangles, List.mem_cons, List.mem_singleton, List.not_mem_nil,
    or_false] at ht
  rcases ht with rfl | rfl
  · refine ⟨?_, Or.inl rfl⟩
    intro h
    have hy := congrArg glm.vec3.y h
    have hz := congrArg glm.vec3.z h
    simp only [vtx] at hy hz
    exact hstep ⟨hz.symm, hy.symm⟩
  · refine ⟨?_, Or.inr rfl⟩
    intro h
    have hy := congrArg glm.vec3.y h
    have hz := congrArg glm.vec3.z h
    simp only [vtx] at hy hz
    exact hstep ⟨hz.symm, hy.symm⟩

theorem cylinderVertices_radial (w : Vertex ℝ)
    (hw : w ∈ cylinderVertices Real.cos Real.sin Real.pi) :
    w.normal = ⟨0, w.position.y / 0.5, w.position.z / 0.5⟩ := by
  simp only [cylinderVertices, List.mem_flatMap, List.mem_range] at hw
  obtain ⟨i, -, hw⟩ := hw
  simp only [cylinderSegment, List.mem_cons, List.mem_singleton, List.not_mem_nil,
    or_false] at hw
  rcases hw with rfl | rfl | rfl | rfl | rfl | rfl <;>
    (simp only [vtx, glm.vec3.mk.injEq, true_and]; constructor <;> norm_num)

/-- C22 (as stated, refuted): the first triangle the cylinder mesh renders has the normal
(0, 1, 0) at its vertices A and B and the normal (0, cos(pi/32), sin(pi/32)) at its vertex
C, and the two differ. -/
theorem cylinder_first_triangle_normals :
    (LoadCylinderMesh Real.cos Real.sin Real.pi).triangles.head?.map
        (fun t => (t.A.normal, t.B.normal, t.C.normal))
      = some (⟨0, 1, 0⟩, ⟨0, 1, 0⟩, ⟨0, Real.cos (Real.pi / 32), Real.sin (Real.pi / 32)⟩) ∧
    (⟨0, 1, 0⟩ : glm.vec3 ℝ) ≠ ⟨0, Real.cos (Real.pi / 32), Real.sin (Real.pi / 32)⟩ := by
  have hmesh : (LoadCylinderMesh Real.cos Real.sin Real.pi).triangles
      = (List.range 64).flatMap
          (fun i => triangles (cylinderSegment Real.cos Real.sin Real.pi 64 i)) := by
    rw [Mesh.triangles, LoadCylinderMesh_drawn, cylinderVertices,
      triangles_flatMap (cylinderSegment Real.cos Real.sin Real.pi 64) 2 (fun _ => rfl)]
  have h1 : (((0 + 1 : Nat) : ℝ) / ((64 : Nat) : ℝ) * 2 * Real.pi) = Real.pi / 32 := by
    push_cast
    ring
  have h0 : (((0 : Nat) : ℝ) / ((64 : Nat) : ℝ) * 2 * Real.pi) = 0 := by
    push_cast
    ring
  have hlt : Real.cos (Real.pi / 32) < 1 := by
    have := Real.cos_lt_cos_of_nonneg_of_le_pi (le_refl 0)
      (by linarith [Real.pi_pos] : Real.pi / 32 ≤ Real.pi) (by linarith [Real.pi_pos])
    rwa [Real.cos_zero] at this
  have hhead : (LoadCylinderMesh Real.cos Real.sin Real.pi).triangles.head?.map
        (fun t => (t.A.normal, t.B.normal, t.C.normal))
      = some (⟨0, Real.cos (((0 : Nat) : ℝ) / ((64 : Nat) : ℝ) * 2 * Real.pi),
                Real.sin (((0 : Nat) : ℝ) / ((64 : Nat) : ℝ) * 2 * Real.pi)⟩,
              ⟨0, Real.cos (((0 : Nat) : ℝ) / ((64 : Nat) : ℝ) * 2 * Real.pi),
                Real.sin (((0 : Nat) : ℝ) / ((64 : Nat) : ℝ) * 2 * Real.pi)⟩,
              ⟨0, Real.cos (((0 + 1 : Nat) : ℝ) / ((64 : Nat) : ℝ) * 2 * Real.pi),
                Real.sin (((0 + 1 : Nat) : ℝ) / ((64 : Nat) : ℝ) * 2 * Real.pi)⟩) := by
    rw [hmesh]
    rfl
  refine ⟨?_, ?_⟩
  · rw [hhead, h0, h1, Real.cos_zero, Real.sin_zero]
  · intro h
    have hy := congrArg glm.vec3.y h
    simp only at hy
    linarith

/-- C22 (amended): the cylinder mesh has per-vertex normals derived from the angular
position: every vertex carries the unit radial direction of its own position,
(0, y / 0.5, z / 0.5); it renders 128 triangles, and in each of them the normal at A differs
from the normal at C while B shares the normal of one of the two. -/
theorem cylinder_normals_per_vertex :
    (∀ w, w ∈ (LoadCylinderMesh Real.cos Real.sin Real.pi).drawn →
      w.normal = ⟨0, w.position.y / 0.5, w.position.z / 0.5⟩ ∧
      glm.dot w.normal w.normal = 1) ∧
    (LoadCylinderMesh Real.cos Real.sin Real.pi).triangles.length = 128 ∧
    (∀ t, t ∈ (LoadCylinderMesh Real.cos Real.sin Real.pi).triangles →
      t.A.normal ≠ t.C.normal ∧
      (t.B.normal = t.A.normal ∨ t.B.normal = t.C.normal)) := by
  have hmesh : (LoadCylinderMesh Real.cos Real.sin Real.pi).triangles
      = (List.range 64).flatMap
          (fun i => triangles (cylinderSegment Real.cos Real.sin Real.pi 64 i)) := by
    rw [Mesh.triangles, LoadCylinderMesh_drawn, cylinderVertices,
      triangles_flatMap (cylinderSegment Real.cos Real.sin Real.pi 64) 2 (fun _ => rfl)]
  refine ⟨?_, ?_, ?_⟩
  · intro w hw
    rw [LoadCylinderMesh_drawn] at hw
    exact ⟨cylinderVertices_radial w hw, cylinderVertices_unit w hw⟩
  · rw [hmesh]
    exact length_flatMap_range
      (fun i => triangles (cylinderSegment Real.cos Real.sin Real.pi 64 i)) 2 (fun _ => rfl) 64
  · intro t ht
    rw [hmesh] at ht
    obtain ⟨i, -, hti⟩ := List.mem_flatMap.mp ht
    exact cylinderSegment_normals i t hti

/-! ### Blocks of a vertex stream -/

/-- The `i`-th block of a stream built from blocks of `k` elements each. -/
theorem drop_take_flatMap_range {β : Type} (f : Nat → List β) (k : Nat)
    (hf : ∀ i, (f i).length = k) :
    ∀ n i, i < n → (((List.range n).flatMap f).drop (k * i)).take k = f i := by
  intro n
  induction n with
  | zero => intro i hi; omega
  | succ n ih =>
    intro i hi
    have hlen := length_flatMap_range f k hf n
    rw [List.range_succ, List.flatMap_append]
    simp only [List.flatMap_cons, List.flatMap_nil, List.append_nil]
    rcases Nat.lt_or_ge i n with hlt | hge
    · have hle : k * i + k ≤ ((List.range n).flatMap f).length := by
        rw [hlen]
        calc k * i + k = k * (i + 1) := by ring
          _ ≤ k * n := Nat.mul_le_mul_left k hlt
          _ = n * k := Nat.mul_comm k n
      rw [List.drop_append_of_le_length (by omega), List.take_append_of_le_length
        (by rw [List.length_drop]; omega)]
      exact ih i hlt
    · have hin : i = n := by omega
      subst hin
      rw [List.drop_append_eq_append_drop, List.drop_of_length_le (by rw [hlen, Nat.mul_comm]),
        hlen, Nat.mul_comm, Nat.sub_self, List.drop_zero, List.nil_append,
        List.take_of_length_le (by rw [hf])]

/-! ### The two shells of the hollow cylinder -/

theorem hollowCylinderSegment_shells (i : Nat) :
    (∀ w, w ∈ (hollowCylinderSegment Real.cos Real.sin Real.pi 64 i).take 6 →
      w.position.x ^ 2 + w.position.z ^ 2 = 1 ∧
      (w.position.y = 0.5 ∨ w.position.y = -0.5) ∧
      w.normal = ⟨w.position.x, 0, w.position.z⟩) ∧
    (∀ w, w ∈ ((hollowCylinderSegment Real.cos Real.sin Real.pi 64 i).drop 6).take 6 →
      w.position.x ^ 2 + w.position.z ^ 2 = 0.64 ∧
      (w.position.y = 0.5 ∨ w.position.y = -0.5) ∧
      w.normal = ⟨-(w.position.x / 0.8), 0, -(w.position.z / 0.8)⟩) := by
  constructor
  · intro w hw
    simp only [hollowCylinderSegment, List.take, List.mem_cons, List.mem_singleton,
      List.not_mem_nil, or_false] at hw
    rcases hw with rfl | rfl | rfl | rfl | rfl | rfl <;>
      (simp only [vtx, glm.vec3.mk.injEq]
       refine ⟨?_, ?_, ?_⟩
       · rw [one_mul, one_mul, Real.cos_sq_add_sin_sq]
       · norm_num
       · norm_num)
  · intro w hw
    simp only [hollowCylinderSegment, List.take, List.drop, List.mem_cons, List.mem_singleton,
      List.not_mem_nil, or_false] at hw
    rcases hw with rfl | rfl | rfl | rfl | rfl | rfl <;>
      (simp only [vtx, glm.vec3.mk.injEq]
       refine ⟨?_, ?_, ?_⟩
       · rw [mul_pow, mul_pow, ← mul_add, Real.cos_sq_add_sin_sq]
         norm_num
       · norm_num
       · norm_num)

/-- C23: the vertices the hollow-cylinder mesh draws come in 64 segments of 12; in each
segment the first 6 lie on the outer shell (x^2 + z^2 = 1, y = 0.5 or -0.5) and carry the
normal (x, 0, z), the next 6 lie on the inner shell (x^2 + z^2 = 0.64, y = 0.5 or -0.5) and
carry the normal -(x, 0, z) / 0.8; every normal has length 1 (over the reals). -/
theorem hollowCylinder_shells :
    (LoadHollowCylinderMesh Real.cos Real.sin Real.pi).drawn.length = 64 * 12 ∧
    (∀ i, i < 64 →
      (∀ w, w ∈ ((LoadHollowCylinderMesh Real.cos Real.sin Real.pi).drawn.drop (12 * i)).take 6 →
        w.position.x ^ 2 + w.position.z ^ 2 = 1 ∧
        (w.position.y = 0.5 ∨ w.position.y = -0.5) ∧
        w.normal = ⟨w.position.x, 0, w.position.z⟩) ∧
      (∀ w, w ∈ ((LoadHollowCylinderMesh Real.cos Real.sin Real.pi).drawn.drop
          (12 * i + 6)).take 6 →
        w.position.x ^ 2 + w.position.z ^ 2 = 0.64 ∧
        (w.position.y = 0.5 ∨ w.position.y = -0.5) ∧
        w.normal = ⟨-(w.position.x / 0.8), 0, -(w.position.z / 0.8)⟩)) ∧
    (∀ w, w ∈ (LoadHollowCylinderMesh Real.cos Real.sin Real.pi).drawn →
      glm.dot w.normal w.normal = 1) := by
  rw [LoadHollowCylinderMesh_drawn]
  refine ⟨hollowCylinderVertices_length Real.cos Real.sin Real.pi, ?_,
    hollowCylinderVertices_unit⟩
  intro i hi
  have hblock := drop_take_flatMap_range
    (hollowCylinderSegment Real.cos Real.sin Real.pi 64) 12 (fun _ => rfl) 64 i hi
  have h1 : ((hollowCylinderVertices Real.cos Real.sin Real.pi).drop (12 * i)).take 6
      = (hollowCylinderSegment Real.cos Real.sin Real.pi 64 i).take 6 := by
    rw [← hblock, List.take_take]
    rfl
  have h2 : ((hollowCylinderVertices Real.cos Real.sin Real.pi).drop (12 * i + 6)).take 6
      = ((hollowCylinderSegment Real.cos Real.sin Real.pi 64 i).drop 6).take 6 := by
    have hV : (hollowCylinderVertices Real.cos Real.sin Real.pi).drop (12 * i + 6)
        = ((hollowCylinderVertices Real.cos Real.sin Real.pi).drop (12 * i)).drop 6 := by
      rw [List.drop_drop, Nat.add_comm]
    rw [hV, ← hblock, List.drop_take, List.take_take]
    rfl
  rw [h1, h2]
  exact hollowCylinderSegment_shells i

/-! ### Winding of the hollow cylinder -/

theorem sin_step_pos (i : Nat) :
    0 < Real.sin (((i + 1 : Nat) : ℝ) / ((64 : Nat) : ℝ) * 2 * Real.pi)
          * Real.cos ((i : ℝ) / ((64 : Nat) : ℝ) * 2 * Real.pi)
        - Real.cos (((i + 1 : Nat) : ℝ) / ((64 : Nat) : ℝ) * 2 * Real.pi)
          * Real.sin ((i : ℝ) / ((64 : Nat) : ℝ) * 2 * Real.pi) := by
  rw [← Real.sin_sub]
  have hd : ((i + 1 : Nat) : ℝ) / ((64 : Nat) : ℝ) * 2 * Real.pi
      - (i : ℝ) / ((64 : Nat) : ℝ) * 2 * Real.pi = Real.pi / 32 := by
    push_cast
    ring
  rw [hd]
  exact Real.sin_pos_of_pos_of_lt_pi (by linarith [Real.pi_pos]) (by linarith [Real.pi_pos])

theorem hollowCylinderSegment_winding (i : Nat) :
    ∃ t1 t2 t3 t4,
      triangles (hollowCylinderSegment Real.cos Real.sin Real.pi 64 i) = [t1, t2, t3, t4] ∧
      t1.winding = t2.winding ∧ t3.winding = t4.winding ∧
      ∀ t, t ∈ [t1, t2, t3, t4] →
        glm.dot t.winding t.A.normal < 0 ∧ glm.dot t.winding t.B.normal < 0 ∧
        glm.dot t.winding t.C.normal < 0 := by
  have h := sin_step_pos i
  refine ⟨_, _, _, _, rfl, ?_, ?_, ?_⟩
  · simp only [Triangle.winding, glm.cross, glm.vec3.sub, vtx, glm.vec3.mk.injEq]
    refine ⟨?_, ?_, ?_⟩ <;> ring
  · simp only [Triangle.winding, glm.cross, glm.vec3.sub, vtx, glm.vec3.mk.injEq]
    refine ⟨?_, ?_, ?_⟩ <;> ring
  · intro t ht
    simp only [List.mem_cons, List.mem_singleton, List.not_mem_nil, or_false] at ht
    rcases ht with rfl | rfl | rfl | rfl <;>
      (simp only [Triangle.winding, glm.cross, glm.vec3.sub, glm.dot, vtx]
       refine ⟨?_, ?_, ?_⟩ <;> linarith [h])

/-- C28: the hollow-cylinder mesh renders, segment by segment, two outer-shell triangles and
two inner-shell triangles; the two of a shell have the same winding vector
(B - A) x (C - A), and for every triangle of the mesh the winding vector has a strictly
negative dot product with the normal stored at each of its three vertices (over the reals):
with the stored normals outward on the outer shell and inward on the inner one, the front
side of an outer triangle faces the axis and that of an inner triangle faces away from it. -/
theorem hollowCylinder_winding :
    (LoadHollowCylinderMesh Real.cos Real.sin Real.pi).triangles
      = (List.range 64).flatMap
          (fun i => triangles (hollowCylinderSegment Real.cos Real.sin Real.pi 64 i)) ∧
    (∀ i, i < 64 → ∃ t1 t2 t3 t4,
      triangles (hollowCylinderSegment Real.cos Real.sin Real.pi 64 i) = [t1, t2, t3, t4] ∧
      t1.winding = t2.winding ∧ t3.winding = t4.winding) ∧
    (∀ t, t ∈ (LoadHollowCylinderMesh Real.cos Real.sin Real.pi).triangles →
      glm.dot t.winding t.A.normal < 0 ∧ glm.dot t.winding t.B.normal < 0 ∧
      glm.dot t.winding t.C.normal < 0) := by
  have hmesh : (LoadHollowCylinderMesh Real.cos Real.sin Real.pi).triangles
      = (List.range 64).flatMap
          (fun i => triangles (hollowCylinderSegment Real.cos Real.sin Real.pi 64 i)) := by
    rw [Mesh.triangles, LoadHollowCylinderMesh_drawn, hollowCylinderVertices,
      triangles_flatMap (hollowCylinderSegment Real.cos Real.sin Real.pi 64) 4
        (fun _ => rfl)]
  refine ⟨hmesh, ?_, ?_⟩
  · intro i _
    obtain ⟨t1, t2, t3, t4, ht, h12, h34, _⟩ := hollowCylinderSegment_winding i
    exact ⟨t1, t2, t3, t4, ht, h12, h34⟩
  · intro t ht
    rw [hmesh] at ht
    obtain ⟨i, -, hti⟩ := List.mem_flatMap.mp ht
    obtain ⟨t1, t2, t3, t4, hseg, _, _, hall⟩ := hollowCylinderSegment_winding i
    rw [hseg] at hti
    exact hall t hti

/-! ### The half torus -/

theorem normalize_of_dot_eq_one (v : glm.vec3 ℝ) (h : glm.dot v v = 1) :
    glm.normalize Real.sqrt v = v := by
  simp only [glm.normalize, h, Real.sqrt_one, div_one, mul_one]

theorem torusMakeVertex_surface (u v U V : ℝ) (hU0 : 0 ≤ U) (hU1 : U ≤ Real.pi) :
    0 ≤ (torusMakeVertex Real.cos Real.sin Real.sqrt u v U V).position.z ∧
    Real.sqrt ((torusMakeVertex Real.cos Real.sin Real.sqrt u v U V).position.x ^ 2
        + (torusMakeVertex Real.cos Real.sin Real.sqrt u v U V).position.z ^ 2)
      = 0.9 + 0.15 * Real.cos V ∧
    (torusMakeVertex Real.cos Real.sin Real.sqrt u v U V).position
      = ⟨(0.9 + 0.15 * Real.cos V) * Real.cos U, 0.15 * Real.sin V,
         (0.9 + 0.15 * Real.cos V) * Real.sin U⟩ ∧
    (torusMakeVertex Real.cos Real.sin Real.sqrt u v U V).normal
      = ⟨Real.cos U * Real.cos V, Real.sin V, Real.sin U * Real.cos V⟩ := by
  have hrho := torus_rho_pos V
  have h1 : glm.dot (⟨Real.cos U * Real.cos V, Real.sin V,
      Real.sin U * Real.cos V⟩ : glm.vec3 ℝ) ⟨Real.cos U * Real.cos V,
      Real.sin V, Real.sin U * Real.cos V⟩ = 1 := by
    simp only [glm.dot]
    linear_combination (Real.cos V) ^ 2 * (Real.sin_sq_add_cos_sq U)
      + (Real.sin_sq_add_cos_sq V)
  refine ⟨?_, ?_, rfl, ?_⟩
  · exact mul_nonneg hrho.le (Real.sin_nonneg_of_nonneg_of_le_pi hU0 hU1)
  · have : ((0.9 + 0.15 * Real.cos V) * Real.cos U) ^ 2
        + ((0.9 + 0.15 * Real.cos V) * Real.sin U) ^ 2 = (0.9 + 0.15 * Real.cos V) ^ 2 := by
      linear_combination ((0.9 + 0.15 * Real.cos V) ^ 2) * (Real.cos_sq_add_sin_sq U)
    show Real.sqrt (((0.9 + 0.15 * Real.cos V) * Real.cos U) ^ 2
        + ((0.9 + 0.15 * Real.cos V) * Real.sin U) ^ 2) = _
    rw [this, Real.sqrt_sq hrho.le]
  · show glm.normalize Real.sqrt ⟨Real.cos U * Real.cos V, Real.sin V,
        Real.sin U * Real.cos V⟩ = _
    exact normalize_of_dot_eq_one _ h1

theorem torus_major_angles (i : Nat) (hi : i < 32) :
    0 ≤ (i : ℝ) / ((64 : Nat) : ℝ) * 2 * Real.pi ∧
    (i : ℝ) / ((64 : Nat) : ℝ) * 2 * Real.pi ≤ Real.pi ∧
    0 ≤ ((i + 1 : Nat) : ℝ) / ((64 : Nat) : ℝ) * 2 * Real.pi ∧
    ((i + 1 : Nat) : ℝ) / ((64 : Nat) : ℝ) * 2 * Real.pi ≤ Real.pi := by
  have hpi := Real.pi_pos
  have h0 : (0 : ℝ) ≤ i := Nat.cast_nonneg i
  have h1 : (i : ℝ) + 1 ≤ 32 := by exact_mod_cast hi
  have e0 : (i : ℝ) / ((64 : Nat) : ℝ) * 2 * Real.pi = (i : ℝ) / 32 * Real.pi := by
    push_cast; ring
  have e1 : ((i + 1 : Nat) : ℝ) / ((64 : Nat) : ℝ) * 2 * Real.pi
      = ((i : ℝ) + 1) / 32 * Real.pi := by
    push_cast; ring
  rw [e0, e1]
  refine ⟨by positivity, ?_, by positivity, ?_⟩
  · have : (i : ℝ) / 32 ≤ 1 := by rw [div_le_one (by norm_num)]; linarith
    nlinarith
  · have : ((i : ℝ) + 1) / 32 ≤ 1 := by rw [div_le_one (by norm_num)]; linarith
    nlinarith

/-- Every vertex of the torus is `makeVertex` at a major angle between 0 and pi. -/
theorem torusVertices_form (w : Vertex ℝ)
    (hw : w ∈ torusVertices Real.cos Real.sin Real.sqrt Real.pi) :
    ∃ u v U V, w = torusMakeVertex Real.cos Real.sin Real.sqrt u v U V ∧
      0 ≤ U ∧ U ≤ Real.pi := by
  simp only [torusVertices, List.mem_flatMap, List.mem_range] at hw
  obtain ⟨i, hi, j, -, hw⟩ := hw
  obtain ⟨a0, a1, b0, b1⟩ := torus_major_angles i (by omega)
  simp only [torusQuad, List.mem_cons, List.mem_singleton, List.not_mem_nil,
    or_false] at hw
  rcases hw with rfl | rfl | rfl | rfl | rfl | rfl
  · exact ⟨_, _, _, _, rfl, a0, a1⟩
  · exact ⟨_, _, _, _, rfl, b0, b1⟩
  · exact ⟨_, _, _, _, rfl, b0, b1⟩
  · exact ⟨_, _, _, _, rfl, a0, a1⟩
  · exact ⟨_, _, _, _, rfl, b0, b1⟩
  · exact ⟨_, _, _, _, rfl, a0, a1⟩

theorem torusQuad_mem (i j : Nat) (hi : i < 32) (hj : j < 24) (w : Vertex ℝ)
    (hw : w ∈ torusQuad Real.cos Real.sin Real.sqrt Real.pi 64 24 i j) :
    w ∈ torusVertices Real.cos Real.sin Real.sqrt Real.pi := by
  simp only [torusVertices, List.mem_flatMap, List.mem_range]
  exact ⟨i, hi, j, hj, hw⟩

/-- C24: the torus mesh is generated from the major segments 0..31 of 64 (and all 24 minor
segments), at major angles from 0 to pi, both attained; over the reals every vertex has
z >= 0, lies on the tube surface (sqrt(x^2 + z^2) - 0.9)^2 + y^2 = 0.15^2, and carries as
normal the unit vector from the tube's centre circle to the vertex, that is
(position - 0.9 * (x, 0, z) / sqrt(x^2 + z^2)) / 0.15. -/
theorem torus_half_revolution :
    (LoadTorusMesh Real.cos Real.sin Real.sqrt Real.pi).drawn
      = ((List.range 32).flatMap fun i => (List.range 24).flatMap fun j =>
          torusQuad Real.cos Real.sin Real.sqrt Real.pi 64 24 i j) ∧
    (∀ w, w ∈ (LoadTorusMesh Real.cos Real.sin Real.sqrt Real.pi).drawn →
      (∃ u v U V, w = torusMakeVertex Real.cos Real.sin Real.sqrt u v U V ∧
        0 ≤ U ∧ U ≤ Real.pi) ∧
      0 ≤ w.position.z ∧
      (Real.sqrt (w.position.x ^ 2 + w.position.z ^ 2) - 0.9) ^ 2 + w.position.y ^ 2
        = 0.15 ^ 2 ∧
      0 < Real.sqrt (w.position.x ^ 2 + w.position.z ^ 2) ∧
      w.normal
        = ⟨(w.position.x - 0.9 * w.position.x
              / Real.sqrt (w.position.x ^ 2 + w.position.z ^ 2)) / 0.15,
           w.position.y / 0.15,
           (w.position.z - 0.9 * w.position.z
              / Real.sqrt (w.position.x ^ 2 + w.position.z ^ 2)) / 0.15⟩ ∧
      glm.dot w.normal w.normal = 1) ∧
    (∃ w, w ∈ (LoadTorusMesh Real.cos Real.sin Real.sqrt Real.pi).drawn ∧
      w.position = ⟨1.05, 0, 0⟩) ∧
    (∃ w, w ∈ (LoadTorusMesh Real.cos Real.sin Real.sqrt Real.pi).drawn ∧
      w.position = ⟨-1.05, 0, 0⟩) := by
  rw [LoadTorusMesh_drawn]
  refine ⟨rfl, ?_, ?_, ?_⟩
  · intro w hw
    obtain ⟨u, v, U, V, rfl, hU0, hU1⟩ := torusVertices_form w hw
    obtain ⟨hz, hr, hp, hn⟩ := torusMakeVertex_surface u v U V hU0 hU1
    have hrho := torus_rho_pos V
    refine ⟨⟨u, v, U, V, rfl, hU0, hU1⟩, hz, ?_, ?_, ?_, ?_⟩
    · rw [hr, hp]
      linear_combination (0.15 : ℝ) ^ 2 * (Real.cos_sq_add_sin_sq V)
    · rw [hr]; exact hrho
    · rw [hr, hn, hp]
      simp only [glm.vec3.mk.injEq]
      refine ⟨?_, ?_, ?_⟩
      · field_simp
        ring
      · field_simp
      · field_simp
        ring
    · rw [hn]
      simp only [glm.dot]
      linear_combination (Real.cos V) ^ 2 * (Real.sin_sq_add_cos_sq U)
        + (Real.sin_sq_add_cos_sq V)
  · refine ⟨torusMakeVertex Real.cos Real.sin Real.sqrt _ _ _ _,
      torusQuad_mem 0 0 (by norm_num) (by norm_num) _ (List.mem_cons_self _ _), ?_⟩
    simp only [torusMakeVertex, vtx, glm.vec3.mk.injEq]
    norm_num
  · refine ⟨torusMakeVertex Real.cos Real.sin Real.sqrt _ _ _ _,
      torusQuad_mem 31 0 (by norm_num) (by norm_num) _
        (List.mem_cons_of_mem _ (List.mem_cons_self _ _)), ?_⟩
    have e : (((31 + 1 : Nat) : ℝ) / ((64 : Nat) : ℝ) * 2 * Real.pi) = Real.pi := by
      push_cast; ring
    simp only [torusMakeVertex, vtx, glm.vec3.mk.injEq, e]
    norm_num

/-! ### The flat sphere and the hemisphere -/

theorem normalize_of_dot_eq_quarter (p : glm.vec3 ℝ) (h : glm.dot p p = 0.25) :
    glm.normalize Real.sqrt p = ⟨2 * p.x, 2 * p.y, 2 * p.z⟩ := by
  have hs : Real.sqrt (0.25 : ℝ) = 0.5 := by
    rw [show (0.25 : ℝ) = 0.5 ^ 2 by norm_num]
    exact Real.sqrt_sq (by norm_num)
  simp only [glm.normalize, h, hs, glm.vec3.mk.injEq]
  refine ⟨?_, ?_, ?_⟩ <;> ring

theorem flatSphereMakeVertex_sphere (u v theta phi : ℝ) :
    glm.dot (flatSphereMakeVertex Real.cos Real.sin Real.sqrt u v theta phi).position
        (flatSphereMakeVertex Real.cos Real.sin Real.sqrt u v theta phi).position = 0.25 ∧
    (flatSphereMakeVertex Real.cos Real.sin Real.sqrt u v theta phi).normal
      = glm.normalize Real.sqrt
          (flatSphereMakeVertex Real.cos Real.sin Real.sqrt u v theta phi).position := by
  refine ⟨?_, rfl⟩
  show glm.dot (⟨0.5 * Real.sin theta * Real.cos phi, 0.5 * Real.cos theta,
      0.5 * Real.sin theta * Real.sin phi⟩ : glm.vec3 ℝ) ⟨0.5 * Real.sin theta * Real.cos phi,
      0.5 * Real.cos theta, 0.5 * Real.sin theta * Real.sin phi⟩ = 0.25
  simp only [glm.dot]
  linear_combination (0.25 * (Real.sin theta) ^ 2) * (Real.sin_sq_add_cos_sq phi)
    + 0.25 * (Real.sin_sq_add_cos_sq theta)

theorem hemisphereMakeVertex_sphere (u v phi theta : ℝ) :
    glm.dot (hemisphereMakeVertex Real.cos Real.sin Real.sqrt u v phi theta).position
        (hemisphereMakeVertex Real.cos Real.sin Real.sqrt u v phi theta).position = 0.25 ∧
    (hemisphereMakeVertex Real.cos Real.sin Real.sqrt u v phi theta).normal
      = glm.normalize Real.sqrt
          (hemisphereMakeVertex Real.cos Real.sin Real.sqrt u v phi theta).position := by
  refine ⟨?_, rfl⟩
  show glm.dot (⟨0.5 * Real.cos phi, 0.5 * Real.sin phi * Real.cos theta,
      0.5 * Real.sin phi * Real.sin theta⟩ : glm.vec3 ℝ) ⟨0.5 * Real.cos phi,
      0.5 * Real.sin phi * Real.cos theta, 0.5 * Real.sin phi * Real.sin theta⟩ = 0.25
  simp only [glm.dot]
  linear_combination (0.25 * (Real.sin phi) ^ 2) * (Real.sin_sq_add_cos_sq theta)
    + 0.25 * (Real.sin_sq_add_cos_sq phi)

/-- Every vertex of the flat sphere is `makeVertex` at a polar angle between 0 and pi. -/
theorem flatSphereVertices_form (w : Vertex ℝ)
    (hw : w ∈ flatSphereVertices Real.cos Real.sin Real.sqrt Real.pi) :
    ∃ u v theta phi, w = flatSphereMakeVertex Real.cos Real.sin Real.sqrt u v theta phi ∧
      0 ≤ theta ∧ theta ≤ Real.pi := by
  simp only [flatSphereVertices, List.mem_flatMap, List.mem_range] at hw
  obtain ⟨i, hi, j, -, hw⟩ := hw
  obtain ⟨h0, h1, h2, _, _⟩ := band_angles 24 i hi Real.pi Real.pi_pos
  simp only [flatSphereQuad, List.mem_cons, List.mem_singleton, List.not_mem_nil,
    or_false] at hw
  rcases hw with rfl | rfl | rfl | rfl | rfl | rfl
  · exact ⟨_, _, _, _, rfl, h0, by linarith⟩
  · exact ⟨_, _, _, _, rfl, h0, by linarith⟩
  · exact ⟨_, _, _, _, rfl, by linarith, h2⟩
  · exact ⟨_, _, _, _, rfl, h0, by linarith⟩
  · exact ⟨_, _, _, _, rfl, by linarith, h2⟩
  · exact ⟨_, _, _, _, rfl, by linarith, h2⟩

/-- Every vertex of the hemisphere is `makeVertex` at a polar angle between 0 and pi / 2. -/
theorem hemisphereVertices_form (w : Vertex ℝ)
    (hw : w ∈ hemisphereVertices Real.cos Real.sin Real.sqrt Real.pi) :
    ∃ u v phi theta, w = hemisphereMakeVertex Real.cos Real.sin Real.sqrt u v phi theta ∧
      0 ≤ phi ∧ phi ≤ Real.pi / 2 := by
  simp only [hemisphereVertices, List.mem_flatMap, List.mem_range] at hw
  obtain ⟨i, hi, j, -, hw⟩ := hw
  have hc : (0 : ℝ) < Real.pi * 0.5 := by positivity
  have hhalf : Real.pi * 0.5 = Real.pi / 2 := by ring
  obtain ⟨h0, h1, h2, _, _⟩ := band_angles 16 i hi (Real.pi * 0.5) hc
  simp only [hemisphereQuad, List.mem_cons, List.mem_singleton, List.not_mem_nil,
    or_false] at hw
  rcases hw with rfl | rfl | rfl | rfl | rfl | rfl
  · exact ⟨_, _, _, _, rfl, h0, by linarith⟩
  · exact ⟨_, _, _, _, rfl, h0, by linarith⟩
  · exact ⟨_, _, _, _, rfl, by linarith, by linarith⟩
  · exact ⟨_, _, _, _, rfl, h0, by linarith⟩
  · exact ⟨_, _, _, _, rfl, by linarith, by linarith⟩
  · exact ⟨_, _, _, _, rfl, by linarith, by linarith⟩

theorem flatSphereQuad_mem (i j : Nat) (hi : i < 24) (hj : j < 48) (w : Vertex ℝ)
    (hw : w ∈ flatSphereQuad Real.cos Real.sin Real.sqrt Real.pi 24 48 i j) :
    w ∈ flatSphereVertices Real.cos Real.sin Real.sqrt Real.pi := by
  simp only [flatSphereVertices, List.mem_flatMap, List.mem_range]
  exact ⟨i, hi, j, hj, hw⟩

theorem hemisphereQuad_mem (i j : Nat) (hi : i < 16) (hj : j < 48) (w : Vertex ℝ)
    (hw : w ∈ hemisphereQuad Real.cos Real.sin Real.sqrt Real.pi 16 48 i j) :
    w ∈ hemisphereVertices Real.cos Real.sin Real.sqrt Real.pi := by
  simp only [hemisphereVertices, List.mem_flatMap, List.mem_range]
  exact ⟨i, hi, j, hj, hw⟩

/-- C25: over the reals every vertex of the flat sphere and of the hemisphere lies at
distance 0.5 from the origin and stores as normal the normalized position, which is
2 * position. The flat sphere is generated at polar angles from 0 to pi about the Y axis,
both poles (0, 0.5, 0) and (0, -0.5, 0) being vertices; the hemisphere at polar angles from 0
to pi / 2 about the X axis, from the pole (0.5, 0, 0) to the rim x = 0, so every hemisphere
vertex has x >= 0. -/
theorem sphere_vertices_on_sphere :
    (∀ w, w ∈ (LoadFlatSphereMesh Real.cos Real.sin Real.sqrt Real.pi).drawn →
      glm.length Real.sqrt w.position = 0.5 ∧
      w.normal = glm.normalize Real.sqrt w.position ∧
      w.normal = ⟨2 * w.position.x, 2 * w.position.y, 2 * w.position.z⟩ ∧
      ∃ u v theta phi, w = flatSphereMakeVertex Real.cos Real.sin Real.sqrt u v theta phi ∧
        0 ≤ theta ∧ theta ≤ Real.pi) ∧
    (∃ w, w ∈ (LoadFlatSphereMesh Real.cos Real.sin Real.sqrt Real.pi).drawn ∧
      w.position = ⟨0, 0.5, 0⟩) ∧
    (∃ w, w ∈ (LoadFlatSphereMesh Real.cos Real.sin Real.sqrt Real.pi).drawn ∧
      w.position = ⟨0, -0.5, 0⟩) ∧
    (∀ w, w ∈ (LoadHemisphereMesh Real.cos Real.sin Real.sqrt Real.pi).drawn →
      glm.length Real.sqrt w.position = 0.5 ∧
      w.normal = glm.normalize Real.sqrt w.position ∧
      w.normal = ⟨2 * w.position.x, 2 * w.position.y, 2 * w.position.z⟩ ∧
      0 ≤ w.position.x ∧
      ∃ u v phi theta, w = hemisphereMakeVertex Real.cos Real.sin Real.sqrt u v phi theta ∧
        0 ≤ phi ∧ phi ≤ Real.pi / 2) ∧
    (∃ w, w ∈ (LoadHemisphereMesh Real.cos Real.sin Real.sqrt Real.pi).drawn ∧
      w.position = ⟨0.5, 0, 0⟩) ∧
    (∃ w, w ∈ (LoadHemisphereMesh Real.cos Real.sin Real.sqrt Real.pi).drawn ∧
      w.position.x = 0) := by
  have hs : Real.sqrt (0.25 : ℝ) = 0.5 := by
    rw [show (0.25 : ℝ) = 0.5 ^ 2 by norm_num]
    exact Real.sqrt_sq (by norm_num)
  rw [LoadFlatSphereMesh_drawn, LoadHemisphereMesh_drawn]
  refine ⟨?_, ?_, ?_, ?_, ?_, ?_⟩
  · intro w hw
    obtain ⟨u, v, theta, phi, rfl, h0, h1⟩ := flatSphereVertices_form w hw
    obtain ⟨hd, hn⟩ := flatSphereMakeVertex_sphere u v theta phi
    refine ⟨?_, hn, ?_, ⟨u, v, theta, phi, rfl, h0, h1⟩⟩
    · rw [glm.length, hd, hs]
    · rw [hn]
      exact normalize_of_dot_eq_quarter _ hd
  · refine ⟨flatSphereMakeVertex Real.cos Real.sin Real.sqrt _ _ _ _,
      flatSphereQuad_mem 0 0 (by norm_num) (by norm_num) _ (List.mem_cons_self _ _), ?_⟩
    simp only [flatSphereMakeVertex, vtx, glm.vec3.mk.injEq]
    norm_num
  · refine ⟨flatSphereMakeVertex Real.cos Real.sin Real.sqrt _ _ _ _,
      flatSphereQuad_mem 23 0 (by norm_num) (by norm_num) _
        (List.mem_cons_of_mem _ (List.mem_cons_of_mem _ (List.mem_cons_self _ _))), ?_⟩
    have e : (((23 + 1 : Nat) : ℝ) / ((24 : Nat) : ℝ) * Real.pi) = Real.pi := by
      push_cast; ring
    simp only [flatSphereMakeVertex, vtx, glm.vec3.mk.injEq, e]
    norm_num
  · intro w hw
    obtain ⟨u, v, phi, theta, rfl, h0, h1⟩ := hemisphereVertices_form w hw
    obtain ⟨hd, hn⟩ := hemisphereMakeVertex_sphere u v phi theta
    refine ⟨?_, hn, ?_, ?_, ⟨u, v, phi, theta, rfl, h0, h1⟩⟩
    · rw [glm.length, hd, hs]
    · rw [hn]
      exact normalize_of_dot_eq_quarter _ hd
    · show 0 ≤ 0.5 * Real.cos phi
      have := Real.cos_nonneg_of_neg_pi_div_two_le_of_le
        (by linarith [Real.pi_pos] : -(Real.pi / 2) ≤ phi) h1
      positivity
  · refine ⟨hemisphereMakeVertex Real.cos Real.sin Real.sqrt _ _ _ _,
      hemisphereQuad_mem 0 0 (by norm_num) (by norm_num) _ (List.mem_cons_self _ _), ?_⟩
    simp only [hemisphereMakeVertex, vtx, glm.vec3.mk.injEq]
    norm_num
  · refine ⟨hemisphereMakeVertex Real.cos Real.sin Real.sqrt _ _ _ _,
      hemisphereQuad_mem 15 0 (by norm_num) (by norm_num) _
        (List.mem_cons_of_mem _ (List.mem_cons_of_mem _ (List.mem_cons_self _ _))), ?_⟩
    have e : (((15 + 1 : Nat) : ℝ) / ((16 : Nat) : ℝ) * (Real.pi * 0.5)) = Real.pi / 2 := by
      push_cast; ring
    simp only [hemisphereMakeVertex, vtx, e]
    norm_num

/-! ### The box -/

theorem boxVertices_coords (w : Vertex ℝ) (hw : w ∈ (boxVertices : List (Vertex ℝ))) :
    (w.position.x = 0.5 ∨ w.position.x = -0.5) ∧
    (w.position.y = 0.5 ∨ w.position.y = -0.5) ∧
    (w.position.z = 0.5 ∨ w.position.z = -0.5) := by
  simp only [boxVertices, List.mem_cons, List.mem_singleton, List.not_mem_nil,
    or_false] at hw
  rcases hw with rfl | rfl | rfl | rfl | rfl | rfl | rfl | rfl | rfl | rfl | rfl | rfl |
    rfl | rfl | rfl | rfl | rfl | rfl | rfl | rfl | rfl | rfl | rfl | rfl |
    rfl | rfl | rfl | rfl | rfl | rfl | rfl | rfl | rfl | rfl | rfl | rfl <;>
    simp [vtx]

/-- C26: the box mesh draws 36 vertices, six faces of 6 each, with every position
coordinate 0.5 or -0.5; the 6 vertices of a face share one normal, an axis direction with
normal . position = 0.5 at every vertex; the faces carry, in buffer order, the normals +Z,
-Z, -X, +X, +Y, -Y, six distinct directions; the texture coordinates of each face are the
four corners of the unit square, each occurring; and every triangle's winding vector
(B - A) x (C - A) equals the normal stored at its vertices (over the reals). -/
theorem box_faces :
    (LoadBoxMesh : Mesh ℝ).drawn.length = 36 ∧
    (∀ w, w ∈ (LoadBoxMesh : Mesh ℝ).drawn →
      (w.position.x = 0.5 ∨ w.position.x = -0.5) ∧
      (w.position.y = 0.5 ∨ w.position.y = -0.5) ∧
      (w.position.z = 0.5 ∨ w.position.z = -0.5)) ∧
    (∀ f, f < 6 → ∀ w, w ∈ ((LoadBoxMesh : Mesh ℝ).drawn.drop (6 * f)).take 6 →
      w.normal = ([⟨0, 0, 1⟩, ⟨0, 0, -1⟩, ⟨-1, 0, 0⟩, ⟨1, 0, 0⟩, ⟨0, 1, 0⟩, ⟨0, -1, 0⟩]
          : List (glm.vec3 ℝ)).getD f ⟨0, 0, 0⟩ ∧
      glm.dot w.normal w.position = 0.5 ∧
      (w.u, w.v) ∈ ([(0, 0), (1, 0), (1, 1), (0, 1)] : List (ℝ × ℝ))) ∧
    ([⟨0, 0, 1⟩, ⟨0, 0, -1⟩, ⟨-1, 0, 0⟩, ⟨1, 0, 0⟩, ⟨0, 1, 0⟩, ⟨0, -1, 0⟩]
      : List (glm.vec3 ℝ)).Nodup ∧
    (∀ f, f < 6 → ∀ c, c ∈ ([(0, 0), (1, 0), (1, 1), (0, 1)] : List (ℝ × ℝ)) →
      ∃ w, w ∈ ((LoadBoxMesh : Mesh ℝ).drawn.drop (6 * f)).take 6 ∧ (w.u, w.v) = c) ∧
    (LoadBoxMesh : Mesh ℝ).triangles.length = 12 ∧
    (∀ t, t ∈ (LoadBoxMesh : Mesh ℝ).triangles →
      t.winding = t.A.normal ∧ t.B.normal = t.A.normal ∧ t.C.normal = t.A.normal ∧
      0 < glm.dot t.winding t.A.normal) := by
  rw [Mesh.triangles, LoadBoxMesh_drawn]
  refine ⟨rfl, boxVertices_coords, ?_, ?_, ?_, rfl, ?_⟩
  · intro f hf w hw
    interval_cases f <;>
      (simp only [boxVertices, List.drop, List.take, List.mem_cons, List.mem_singleton,
        List.not_mem_nil, or_false, Nat.mul_zero, Nat.mul_one, Nat.reduceMul] at hw
       rcases hw with rfl | rfl | rfl | rfl | rfl | rfl <;>
         (refine ⟨rfl, ?_, ?_⟩
          · simp only [vtx, glm.dot]; norm_num
          · simp [vtx]))
  · simp only [List.nodup_cons, List.mem_cons, List.mem_singleton, glm.vec3.mk.injEq,
      List.not_mem_nil, List.nodup_nil]
    norm_num
  · intro f hf c hc
    simp only [List.mem_cons, List.mem_singleton, List.not_mem_nil, or_false] at hc
    interval_cases f <;> rcases hc with rfl | rfl | rfl | rfl <;>
      simp [boxVertices, vtx]
  · intro t ht
    simp only [boxVertices, triangles, List.mem_cons, List.mem_singleton, List.not_mem_nil,
      or_false] at ht
    rcases ht with rfl | rfl | rfl | rfl | rfl | rfl | rfl | rfl | rfl | rfl | rfl | rfl <;>
      (refine ⟨?_, rfl, rfl, ?_⟩
       · simp only [Triangle.winding, glm.cross, glm.vec3.sub, vtx, glm.vec3.mk.injEq]
         norm_num
       · simp only [Triangle.winding, glm.cross, glm.vec3.sub, glm.dot, vtx]
         norm_num)

/-! ### Extents of the meshes -/

theorem Mesh.Extent.unique (m : Mesh ℝ) (coord : glm.vec3 ℝ → ℝ) (lo hi lo2 hi2 : ℝ)
    (h : m.Extent coord lo hi) (h2 : m.Extent coord lo2 hi2) : lo = lo2 ∧ hi = hi2 := by
  obtain ⟨hb, ⟨a, ha, hal⟩, ⟨b, hb1, hbh⟩⟩ := h
  obtain ⟨hb2, ⟨a2, ha2, hal2⟩, ⟨b2, hb21, hbh2⟩⟩ := h2
  have := hb a2 ha2
  have := hb b2 hb21
  have := hb2 a ha
  have := hb2 b hb1
  constructor <;> linarith

theorem sin_three_pi_div_two : Real.sin (3 * Real.pi / 2) = -1 := by
  rw [show 3 * Real.pi / 2 = Real.pi / 2 + Real.pi by ring, Real.sin_add_pi,
    Real.sin_pi_div_two]

theorem cos_three_pi_div_two : Real.cos (3 * Real.pi / 2) = 0 := by
  rw [show 3 * Real.pi / 2 = Real.pi / 2 + Real.pi by ring, Real.cos_add_pi,
    Real.cos_pi_div_two, neg_zero]

theorem mul_sin_cos_bounds (a b : ℝ) (ha : |a| ≤ 1) (hb : |b| ≤ 1) :
    -0.5 ≤ 0.5 * a * b ∧ 0.5 * a * b ≤ 0.5 := by
  have h : |a * b| ≤ 1 := by
    rw [abs_mul]
    calc |a| * |b| ≤ 1 * 1 := mul_le_mul ha hb (abs_nonneg b) zero_le_one
      _ = 1 := one_mul 1
  obtain ⟨h1, h2⟩ := abs_le.mp h
  constructor <;> linarith

theorem planeVertices_coords (w : Vertex ℝ) (hw : w ∈ (planeVertices : List (Vertex ℝ))) :
    (w.position.x = 0.5 ∨ w.position.x = -0.5) ∧ w.position.y = 0 ∧
    (w.position.z = 0.5 ∨ w.position.z = -0.5) := by
  simp only [planeVertices, List.mem_cons, List.mem_singleton, List.not_mem_nil,
    or_false] at hw
  rcases hw with rfl | rfl | rfl | rfl | rfl | rfl <;> simp [vtx]

theorem wedgeVertices_coords (w : Vertex ℝ) (hw : w ∈ (wedgeVertices : List (Vertex ℝ))) :
    (w.position.x = 0.5 ∨ w.position.x = -0.5) ∧
    (w.position.y = 0 ∨ w.position.y = 1) ∧
    (w.position.z = 0.5 ∨ w.position.z = -0.5) := by
  simp only [wedgeVertices, List.mem_cons, List.mem_singleton, List.not_mem_nil,
    or_false] at hw
  rcases hw with rfl | rfl | rfl | rfl | rfl | rfl | rfl | rfl | rfl | rfl | rfl | rfl |
    rfl | rfl | rfl | rfl | rfl | rfl | rfl | rfl | rfl | rfl | rfl | rfl <;>
    simp [vtx]

theorem plane_extent :
    (LoadPlaneMesh : Mesh ℝ).Extent glm.vec3.x (-0.5) 0.5 ∧
    (LoadPlaneMesh : Mesh ℝ).Extent glm.vec3.y 0 0 ∧
    (LoadPlaneMesh : Mesh ℝ).Extent glm.vec3.z (-0.5) 0.5 := by
  unfold Mesh.Extent
  rw [LoadPlaneMesh_drawn]
  refine ⟨⟨?_, ⟨_, @List.getElem?_mem _ _ 0 _ rfl, rfl⟩, ⟨_, @List.getElem?_mem _ _ 1 _ rfl, rfl⟩⟩,
    ⟨?_, ⟨_, @List.getElem?_mem _ _ 0 _ rfl, rfl⟩, ⟨_, @List.getElem?_mem _ _ 0 _ rfl, rfl⟩⟩,
    ⟨?_, ⟨_, @List.getElem?_mem _ _ 0 _ rfl, rfl⟩, ⟨_, @List.getElem?_mem _ _ 2 _ rfl, rfl⟩⟩⟩
  · intro w hw
    obtain ⟨h | h, _, _⟩ := planeVertices_coords w hw <;> rw [h] <;> norm_num
  · intro w hw
    obtain ⟨_, h, _⟩ := planeVertices_coords w hw
    rw [h]
    norm_num
  · intro w hw
    obtain ⟨_, _, h | h⟩ := planeVertices_coords w hw <;> rw [h] <;> norm_num

theorem box_extent :
    (LoadBoxMesh : Mesh ℝ).Extent glm.vec3.x (-0.5) 0.5 ∧
    (LoadBoxMesh : Mesh ℝ).Extent glm.vec3.y (-0.5) 0.5 ∧
    (LoadBoxMesh : Mesh ℝ).Extent glm.vec3.z (-0.5) 0.5 := by
  unfold Mesh.Extent
  rw [LoadBoxMesh_drawn]
  refine ⟨⟨?_, ⟨_, @List.getElem?_mem _ _ 0 _ rfl, rfl⟩, ⟨_, @List.getElem?_mem _ _ 1 _ rfl, rfl⟩⟩,
    ⟨?_, ⟨_, @List.getElem?_mem _ _ 0 _ rfl, rfl⟩, ⟨_, @List.getElem?_mem _ _ 2 _ rfl, rfl⟩⟩,
    ⟨?_, ⟨_, @List.getElem?_mem _ _ 6 _ rfl, rfl⟩, ⟨_, @List.getElem?_mem _ _ 0 _ rfl, rfl⟩⟩⟩
  · intro w hw
    obtain ⟨h | h, _, _⟩ := boxVertices_coords w hw <;> rw [h] <;> norm_num
  · intro w hw
    obtain ⟨_, h | h, _⟩ := boxVertices_coords w hw <;> rw [h] <;> norm_num
  · intro w hw
    obtain ⟨_, _, h | h⟩ := boxVertices_coords w hw <;> rw [h] <;> norm_num

theorem wedge_extent :
    (LoadWedgeMesh : Mesh ℝ).Extent glm.vec3.x (-0.5) 0.5 ∧
    (LoadWedgeMesh : Mesh ℝ).Extent glm.vec3.y 0 1 ∧
    (LoadWedgeMesh : Mesh ℝ).Extent glm.vec3.z (-0.5) 0.5 := by
  unfold Mesh.Extent
  rw [LoadWedgeMesh_drawn]
  refine ⟨⟨?_, ⟨_, @List.getElem?_mem _ _ 0 _ rfl, rfl⟩, ⟨_, @List.getElem?_mem _ _ 1 _ rfl, rfl⟩⟩,
    ⟨?_, ⟨_, @List.getElem?_mem _ _ 0 _ rfl, rfl⟩, ⟨_, @List.getElem?_mem _ _ 8 _ rfl, rfl⟩⟩,
    ⟨?_, ⟨_, @List.getElem?_mem _ _ 0 _ rfl, rfl⟩, ⟨_, @List.getElem?_mem _ _ 2 _ rfl, rfl⟩⟩⟩
  · intro w hw
    obtain ⟨h | h, _, _⟩ := wedgeVertices_coords w hw <;> rw [h] <;> norm_num
  · intro w hw
    obtain ⟨_, h | h, _⟩ := wedgeVertices_coords w hw <;> rw [h] <;> norm_num
  · intro w hw
    obtain ⟨_, _, h | h⟩ := wedgeVertices_coords w hw <;> rw [h] <;> norm_num

theorem cylinderVertices_coords (w : Vertex ℝ)
    (hw : w ∈ cylinderVertices Real.cos Real.sin Real.pi) :
    (w.position.x = 0.5 ∨ w.position.x = -0.5) ∧
    ∃ a, w.position.y = 0.5 * Real.cos a ∧ w.position.z = 0.5 * Real.sin a := by
  simp only [cylinderVertices, List.mem_flatMap, List.mem_range] at hw
  obtain ⟨i, -, hw⟩ := hw
  simp only [cylinderSegment, List.mem_cons, List.mem_singleton, List.not_mem_nil,
    or_false] at hw
  rcases hw with rfl | rfl | rfl | rfl | rfl | rfl <;>
    exact ⟨by simp [vtx], _, rfl, rfl⟩

theorem cylinderSegment_mem (i : Nat) (hi : i < 64) (w : Vertex ℝ)
    (hw : w ∈ cylinderSegment Real.cos Real.sin Real.pi 64 i) :
    w ∈ cylinderVertices Real.cos Real.sin Real.pi := by
  simp only [cylinderVertices, List.mem_flatMap, List.mem_range]
  exact ⟨i, hi, hw⟩

theorem quarter_turns :
    (((0 : Nat) : ℝ) / ((64 : Nat) : ℝ) * 2 * Real.pi) = 0 ∧
    (((16 : Nat) : ℝ) / ((64 : Nat) : ℝ) * 2 * Real.pi) = Real.pi / 2 ∧
    (((32 : Nat) : ℝ) / ((64 : Nat) : ℝ) * 2 * Real.pi) = Real.pi ∧
    (((48 : Nat) : ℝ) / ((64 : Nat) : ℝ) * 2 * Real.pi) = 3 * Real.pi / 2 := by
  refine ⟨?_, ?_, ?_, ?_⟩ <;> (push_cast; ring)

theorem cylinder_extent :
    (LoadCylinderMesh Real.cos Real.sin Real.pi).Extent glm.vec3.x (-0.5) 0.5 ∧
    (LoadCylinderMesh Real.cos Real.sin Real.pi).Extent glm.vec3.y (-0.5) 0.5 ∧
    (LoadCylinderMesh Real.cos Real.sin Real.pi).Extent glm.vec3.z (-0.5) 0.5 := by
  obtain ⟨e0, e16, e32, e48⟩ := quarter_turns
  unfold Mesh.Extent
  rw [LoadCylinderMesh_drawn]
  refine ⟨⟨?_, ?_, ?_⟩, ⟨?_, ?_, ?_⟩, ⟨?_, ?_, ?_⟩⟩
  · intro w hw
    obtain ⟨h | h, _⟩ := cylinderVertices_coords w hw <;> rw [h] <;> norm_num
  · exact ⟨_, cylinderSegment_mem 0 (by norm_num) _ (List.mem_cons_self _ _), rfl⟩
  · exact ⟨_, cylinderSegment_mem 0 (by norm_num) _
      (List.mem_cons_of_mem _ (List.mem_cons_self _ _)), rfl⟩
  · intro w hw
    obtain ⟨_, a, h, _⟩ := cylinderVertices_coords w hw
    rw [h]
    constructor <;> linarith [Real.neg_one_le_cos a, Real.cos_le_one a]
  · refine ⟨_, cylinderSegment_mem 32 (by norm_num) _ (List.mem_cons_self _ _), ?_⟩
    simp only [vtx, e32, Real.cos_pi]
    norm_num
  · refine ⟨_, cylinderSegment_mem 0 (by norm_num) _ (List.mem_cons_self _ _), ?_⟩
    simp only [vtx, e0, Real.cos_zero]
    norm_num
  · intro w hw
    obtain ⟨_, a, _, h⟩ := cylinderVertices_coords w hw
    rw [h]
    constructor <;> linarith [Real.neg_one_le_sin a, Real.sin_le_one a]
  · refine ⟨_, cylinderSegment_mem 48 (by norm_num) _ (List.mem_cons_self _ _), ?_⟩
    simp only [vtx, e48, sin_three_pi_div_two]
    norm_num
  · refine ⟨_, cylinderSegment_mem 16 (by norm_num) _ (List.mem_cons_self _ _), ?_⟩
    simp only [vtx, e16, Real.sin_pi_div_two]
    norm_num

theorem hollowCylinderVertices_coords (w : Vertex ℝ)
    (hw : w ∈ hollowCylinderVertices Real.cos Real.sin Real.pi) :
    (w.position.y = 0.5 ∨ w.position.y = -0.5) ∧
    ∃ a r, (r = 1 ∨ r = 0.8) ∧
      w.position.x = r * Real.cos a ∧ w.position.z = r * Real.sin a := by
  simp only [hollowCylinderVertices, List.mem_flatMap, List.mem_range] at hw
  obtain ⟨i, -, hw⟩ := hw
  simp only [hollowCylinderSegment, List.mem_cons, List.mem_singleton, List.not_mem_nil,
    or_false] at hw
  rcases hw with rfl | rfl | rfl | rfl | rfl | rfl | rfl | rfl | rfl | rfl | rfl | rfl
  all_goals first
    | exact ⟨by norm_num [vtx], _, 1, Or.inl rfl, rfl, rfl⟩
    | exact ⟨by norm_num [vtx], _, 0.8, Or.inr rfl, rfl, rfl⟩

theorem hollowCylinderSegment_mem (i : Nat) (hi : i < 64) (w : Vertex ℝ)
    (hw : w ∈ hollowCylinderSegment Real.cos Real.sin Real.pi 64 i) :
    w ∈ hollowCylinderVertices Real.cos Real.sin Real.pi := by
  simp only [hollowCylinderVertices, List.mem_flatMap, List.mem_range]
  exact ⟨i, hi, hw⟩

theorem hollowCylinder_extent :
    (LoadHollowCylinderMesh Real.cos Real.sin Real.pi).Extent glm.vec3.x (-1) 1 ∧
    (LoadHollowCylinderMesh Real.cos Real.sin Real.pi).Extent glm.vec3.y (-0.5) 0.5 ∧
    (LoadHollowCylinderMesh Real.cos Real.sin Real.pi).Extent glm.vec3.z (-1) 1 := by
  obtain ⟨e0, e16, e32, e48⟩ := quarter_turns
  unfold Mesh.Extent
  rw [LoadHollowCylinderMesh_drawn]
  refine ⟨⟨?_, ?_, ?_⟩, ⟨?_, ?_, ?_⟩, ⟨?_, ?_, ?_⟩⟩
  · intro w hw
    obtain ⟨_, a, r, hr, h, _⟩ := hollowCylinderVertices_coords w hw
    rw [h]
    rcases hr with rfl | rfl <;>
      constructor <;> linarith [Real.neg_one_le_cos a, Real.cos_le_one a]
  · refine ⟨_, hollowCylinderSegment_mem 32 (by norm_num) _ (List.mem_cons_self _ _), ?_⟩
    simp only [vtx, e32, Real.cos_pi]
    norm_num
  · refine ⟨_, hollowCylinderSegment_mem 0 (by norm_num) _ (List.mem_cons_self _ _), ?_⟩
    simp only [vtx, e0, Real.cos_zero]
    norm_num
  · intro w hw
    obtain ⟨h | h, _⟩ := hollowCylinderVertices_coords w hw <;> rw [h] <;> norm_num
  · refine ⟨_, hollowCylinderSegment_mem 0 (by norm_num) _ (List.mem_cons_self _ _), ?_⟩
    simp only [vtx]
    norm_num
  · refine ⟨_, hollowCylinderSegment_mem 0 (by norm_num) _
      (List.mem_cons_of_mem _ (List.mem_cons_of_mem _ (List.mem_cons_self _ _))), ?_⟩
    simp only [vtx]
    norm_num
  · intro w hw
    obtain ⟨_, a, r, hr, _, h⟩ := hollowCylinderVertices_coords w hw
    rw [h]
    rcases hr with rfl | rfl <;>
      constructor <;> linarith [Real.neg_one_le_sin a, Real.sin_le_one a]
  · refine ⟨_, hollowCylinderSegment_mem 48 (by norm_num) _ (List.mem_cons_self _ _), ?_⟩
    simp only [vtx, e48, sin_three_pi_div_two]
    norm_num
  · refine ⟨_, hollowCylinderSegment_mem 16 (by norm_num) _ (List.mem_cons_self _ _), ?_⟩
    simp only [vtx, e16, Real.sin_pi_div_two]
    norm_num

theorem sphere_turns :
    (((12 : Nat) : ℝ) / ((24 : Nat) : ℝ) * Real.pi) = Real.pi / 2 ∧
    (((23 + 1 : Nat) : ℝ) / ((24 : Nat) : ℝ) * Real.pi) = Real.pi ∧
    (((15 + 1 : Nat) : ℝ) / ((16 : Nat) : ℝ) * (Real.pi * 0.5)) = Real.pi / 2 ∧
    (((0 : Nat) : ℝ) / ((48 : Nat) : ℝ) * 2 * Real.pi) = 0 ∧
    (((12 : Nat) : ℝ) / ((48 : Nat) : ℝ) * 2 * Real.pi) = Real.pi / 2 ∧
    (((24 : Nat) : ℝ) / ((48 : Nat) : ℝ) * 2 * Real.pi) = Real.pi ∧
    (((36 : Nat) : ℝ) / ((48 : Nat) : ℝ) * 2 * Real.pi) = 3 * Real.pi / 2 := by
  refine ⟨?_, ?_, ?_, ?_, ?_, ?_, ?_⟩ <;> (push_cast; ring)

theorem flatSphere_extent :
    (LoadFlatSphereMesh Real.cos Real.sin Real.sqrt Real.pi).Extent glm.vec3.x (-0.5) 0.5 ∧
    (LoadFlatSphereMesh Real.cos Real.sin Real.sqrt Real.pi).Extent glm.vec3.y (-0.5) 0.5 ∧
    (LoadFlatSphereMesh Real.cos Real.sin Real.sqrt Real.pi).Extent glm.vec3.z (-0.5) 0.5 := by
  obtain ⟨t12, t24, -, p0, p12, p24, p36⟩ := sphere_turns
  unfold Mesh.Extent
  rw [LoadFlatSphereMesh_drawn]
  refine ⟨⟨?_, ?_, ?_⟩, ⟨?_, ?_, ?_⟩, ⟨?_, ?_, ?_⟩⟩
  · intro w hw
    obtain ⟨u, v, theta, phi, rfl, -, -⟩ := flatSphereVertices_form w hw
    exact mul_sin_cos_bounds _ _ (Real.abs_sin_le_one theta) (Real.abs_cos_le_one phi)
  · refine ⟨_, flatSphereQuad_mem 12 24 (by norm_num) (by norm_num) _
      (List.mem_cons_self _ _), ?_⟩
    simp only [flatSphereMakeVertex, vtx, t12, p24, Real.sin_pi_div_two, Real.cos_pi]
    norm_num
  · refine ⟨_, flatSphereQuad_mem 12 0 (by norm_num) (by norm_num) _
      (List.mem_cons_self _ _), ?_⟩
    simp only [flatSphereMakeVertex, vtx, t12, p0, Real.sin_pi_div_two, Real.cos_zero]
    norm_num
  · intro w hw
    obtain ⟨u, v, theta, phi, rfl, -, -⟩ := flatSphereVertices_form w hw
    show -0.5 ≤ 0.5 * Real.cos theta ∧ 0.5 * Real.cos theta ≤ 0.5
    constructor <;> linarith [Real.neg_one_le_cos theta, Real.cos_le_one theta]
  · refine ⟨_, flatSphereQuad_mem 23 0 (by norm_num) (by norm_num) _
      (List.mem_cons_of_mem _ (List.mem_cons_of_mem _ (List.mem_cons_self _ _))), ?_⟩
    simp only [flatSphereMakeVertex, vtx, t24, Real.cos_pi]
    norm_num
  · refine ⟨_, flatSphereQuad_mem 0 0 (by norm_num) (by norm_num) _
      (List.mem_cons_self _ _), ?_⟩
    simp only [flatSphereMakeVertex, vtx]
    norm_num
  · intro w hw
    obtain ⟨u, v, theta, phi, rfl, -, -⟩ := flatSphereVertices_form w hw
    exact mul_sin_cos_bounds _ _ (Real.abs_sin_le_one theta) (Real.abs_sin_le_one phi)
  · refine ⟨_, flatSphereQuad_mem 12 36 (by norm_num) (by norm_num) _
      (List.mem_cons_self _ _), ?_⟩
    simp only [flatSphereMakeVertex, vtx, t12, p36, Real.sin_pi_div_two,
      sin_three_pi_div_two]
    norm_num
  · refine ⟨_, flatSphereQuad_mem 12 12 (by norm_num) (by norm_num) _
      (List.mem_cons_self _ _), ?_⟩
    simp only [flatSphereMakeVertex, vtx, t12, p12, Real.sin_pi_div_two]
    norm_num

theorem hemisphere_extent :
    (LoadHemisphereMesh Real.cos Real.sin Real.sqrt Real.pi).Extent glm.vec3.x 0 0.5 ∧
    (LoadHemisphereMesh Real.cos Real.sin Real.sqrt Real.pi).Extent glm.vec3.y (-0.5) 0.5 ∧
    (LoadHemisphereMesh Real.cos Real.sin Real.sqrt Real.pi).Extent glm.vec3.z (-0.5) 0.5 := by
  obtain ⟨-, -, t16, p0, p12, p24, p36⟩ := sphere_turns
  have hlast : ∀ j : Nat, j < 48 →
      hemisphereMakeVertex Real.cos Real.sin Real.sqrt ((j : ℝ) / ((48 : Nat) : ℝ))
          (((15 + 1 : Nat) : ℝ) / ((16 : Nat) : ℝ))
          (((15 + 1 : Nat) : ℝ) / ((16 : Nat) : ℝ) * (Real.pi * 0.5))
          ((j : ℝ) / ((48 : Nat) : ℝ) * 2 * Real.pi)
        ∈ hemisphereVertices Real.cos Real.sin Real.sqrt Real.pi := by
    intro j hj
    refine hemisphereQuad_mem 15 j (by norm_num) hj _ ?_
    exact List.mem_cons_of_mem _ (List.mem_cons_of_mem _ (List.mem_cons_of_mem _
      (List.mem_cons_of_mem _ (List.mem_cons_of_mem _ (List.mem_cons_self _ _)))))
  unfold Mesh.Extent
  rw [LoadHemisphereMesh_drawn]
  refine ⟨⟨?_, ?_, ?_⟩, ⟨?_, ?_, ?_⟩, ⟨?_, ?_, ?_⟩⟩
  · intro w hw
    obtain ⟨u, v, phi, theta, rfl, h0, h1⟩ := hemisphereVertices_form w hw
    show 0 ≤ 0.5 * Real.cos phi ∧ 0.5 * Real.cos phi ≤ 0.5
    have := Real.cos_nonneg_of_neg_pi_div_two_le_of_le
      (by linarith [Real.pi_pos] : -(Real.pi / 2) ≤ phi) h1
    constructor <;> linarith [Real.cos_le_one phi]
  · refine ⟨_, hlast 0 (by norm_num), ?_⟩
    simp only [hemisphereMakeVertex, vtx, t16, Real.cos_pi_div_two]
    norm_num
  · refine ⟨_, hemisphereQuad_mem 0 0 (by norm_num) (by norm_num) _
      (List.mem_cons_self _ _), ?_⟩
    simp only [hemisphereMakeVertex, vtx]
    norm_num
  · intro w hw
    obtain ⟨u, v, phi, theta, rfl, -, -⟩ := hemisphereVertices_form w hw
    exact mul_sin_cos_bounds _ _ (Real.abs_sin_le_one phi) (Real.abs_cos_le_one theta)
  · refine ⟨_, hlast 24 (by norm_num), ?_⟩
    simp only [hemisphereMakeVertex, vtx, t16, p24, Real.sin_pi_div_two, Real.cos_pi]
    norm_num
  · refine ⟨_, hlast 0 (by norm_num), ?_⟩
    simp only [hemisphereMakeVertex, vtx, t16, p0, Real.sin_pi_div_two, Real.cos_zero]
    norm_num
  · intro w hw
    obtain ⟨u, v, phi, theta, rfl, -, -⟩ := hemisphereVertices_form w hw
    exact mul_sin_cos_bounds _ _ (Real.abs_sin_le_one phi) (Real.abs_sin_le_one theta)
  · refine ⟨_, hlast 36 (by norm_num), ?_⟩
    simp only [hemisphereMakeVertex, vtx, t16, p36, Real.sin_pi_div_two,
      sin_three_pi_div_two]
    norm_num
  · refine ⟨_, hlast 12 (by norm_num), ?_⟩
    simp only [hemisphereMakeVertex, vtx, t16, p12, Real.sin_pi_div_two]
    norm_num

theorem torus_extent :
    (LoadTorusMesh Real.cos Real.sin Real.sqrt Real.pi).Extent glm.vec3.x (-1.05) 1.05 ∧
    (LoadTorusMesh Real.cos Real.sin Real.sqrt Real.pi).Extent glm.vec3.y (-0.15) 0.15 ∧
    (LoadTorusMesh Real.cos Real.sin Real.sqrt Real.pi).Extent glm.vec3.z 0 1.05 := by
  obtain ⟨-, e16, -, -⟩ := quarter_turns
  have m6 : (((6 : Nat) : ℝ) / ((24 : Nat) : ℝ) * 2 * Real.pi) = Real.pi / 2 := by
    push_cast; ring
  have m18 : (((18 : Nat) : ℝ) / ((24 : Nat) : ℝ) * 2 * Real.pi) = 3 * Real.pi / 2 := by
    push_cast; ring
  have e32 : (((31 + 1 : Nat) : ℝ) / ((64 : Nat) : ℝ) * 2 * Real.pi) = Real.pi := by
    push_cast; ring
  unfold Mesh.Extent
  rw [LoadTorusMesh_drawn]
  refine ⟨⟨?_, ?_, ?_⟩, ⟨?_, ?_, ?_⟩, ⟨?_, ?_, ?_⟩⟩
  · intro w hw
    obtain ⟨u, v, U, V, rfl, -, -⟩ := torusVertices_form w hw
    show -1.05 ≤ (0.9 + 0.15 * Real.cos V) * Real.cos U
      ∧ (0.9 + 0.15 * Real.cos V) * Real.cos U ≤ 1.05
    have hrho := torus_rho_pos V
    have h1 := Real.cos_le_one V
    have h2 := Real.neg_one_le_cos U
    have h3 := Real.cos_le_one U
    constructor <;> nlinarith
  · refine ⟨_, torusQuad_mem 31 0 (by norm_num) (by norm_num) _
      (List.mem_cons_of_mem _ (List.mem_cons_self _ _)), ?_⟩
    simp only [torusMakeVertex, vtx, e32]
    norm_num
  · refine ⟨_, torusQuad_mem 0 0 (by norm_num) (by norm_num) _ (List.mem_cons_self _ _), ?_⟩
    simp only [torusMakeVertex, vtx]
    norm_num
  · intro w hw
    obtain ⟨u, v, U, V, rfl, -, -⟩ := torusVertices_form w hw
    show -0.15 ≤ 0.15 * Real.sin V ∧ 0.15 * Real.sin V ≤ 0.15
    constructor <;> linarith [Real.neg_one_le_sin V, Real.sin_le_one V]
  · refine ⟨_, torusQuad_mem 0 18 (by norm_num) (by norm_num) _ (List.mem_cons_self _ _), ?_⟩
    simp only [torusMakeVertex, vtx, m18, sin_three_pi_div_two]
    norm_num
  · refine ⟨_, torusQuad_mem 0 6 (by norm_num) (by norm_num) _ (List.mem_cons_self _ _), ?_⟩
    simp only [torusMakeVertex, vtx, m6, Real.sin_pi_div_two]
    norm_num
  · intro w hw
    obtain ⟨u, v, U, V, rfl, hU0, hU1⟩ := torusVertices_form w hw
    refine ⟨(torusMakeVertex_surface u v U V hU0 hU1).1, ?_⟩
    show (0.9 + 0.15 * Real.cos V) * Real.sin U ≤ 1.05
    have hrho := torus_rho_pos V
    have h1 := Real.cos_le_one V
    have h3 := Real.sin_le_one U
    have h4 := Real.sin_nonneg_of_nonneg_of_le_pi hU0 hU1
    nlinarith
  · refine ⟨_, torusQuad_mem 0 0 (by norm_num) (by norm_num) _ (List.mem_cons_self _ _), ?_⟩
    simp only [torusMakeVertex, vtx]
    norm_num
  · refine ⟨_, torusQuad_mem 16 0 (by norm_num) (by norm_num) _ (List.mem_cons_self _ _), ?_⟩
    simp only [torusMakeVertex, vtx, e16, Real.sin_pi_div_two]
    norm_num

theorem prismRing_values :
    prismRing Real.cos Real.sin Real.pi 0 = ⟨0, 0, 0.5⟩ ∧
    prismRing Real.cos Real.sin Real.pi 1
      = ⟨0.5 * Real.cos (Real.pi / 10), 0, 0.5 * Real.sin (Real.pi / 10)⟩ ∧
    prismRing Real.cos Real.sin Real.pi 2
      = ⟨0.5 * Real.cos (3 * Real.pi / 10), 0, -(0.5 * Real.sin (3 * Real.pi / 10))⟩ ∧
    prismRing Real.cos Real.sin Real.pi 3
      = ⟨-(0.5 * Real.cos (3 * Real.pi / 10)), 0, -(0.5 * Real.sin (3 * Real.pi / 10))⟩ ∧
    prismRing Real.cos Real.sin Real.pi 4
      = ⟨-(0.5 * Real.cos (Real.pi / 10)), 0, 0.5 * Real.sin (Real.pi / 10)⟩ := by
  have a0 : glm.radians Real.pi (90 - ((0 : Nat) : ℝ) * 72) = Real.pi / 2 := by
    simp only [glm.radians]; push_cast; ring
  have a1 : glm.radians Real.pi (90 - ((1 : Nat) : ℝ) * 72) = Real.pi / 10 := by
    simp only [glm.radians]; push_cast; ring
  have a2 : glm.radians Real.pi (90 - ((2 : Nat) : ℝ) * 72) = -(3 * Real.pi / 10) := by
    simp only [glm.radians]; push_cast; ring
  have a3 : glm.radians Real.pi (90 - ((3 : Nat) : ℝ) * 72)
      = -(Real.pi - 3 * Real.pi / 10) := by
    simp only [glm.radians]; push_cast; ring
  have a4 : glm.radians Real.pi (90 - ((4 : Nat) : ℝ) * 72)
      = -(Real.pi / 10 + Real.pi) := by
    simp only [glm.radians]; push_cast; ring
  refine ⟨?_, ?_, ?_, ?_, ?_⟩
  · simp only [prismRing, a0, Real.cos_pi_div_two, Real.sin_pi_div_two, mul_zero, mul_one]
  · simp only [prismRing, a1]
  · simp only [prismRing, a2, Real.cos_neg, Real.sin_neg, mul_neg]
  · simp only [prismRing, a3, Real.cos_neg, Real.sin_neg, Real.cos_pi_sub, Real.sin_pi_sub,
      mul_neg]
  · simp only [prismRing, a4, Real.cos_neg, Real.sin_neg, Real.cos_add_pi, Real.sin_add_pi,
      mul_neg, neg_neg]

theorem pentagon_trig :
    0 ≤ Real.cos (3 * Real.pi / 10) ∧
    Real.cos (3 * Real.pi / 10) ≤ Real.cos (Real.pi / 10) ∧
    0 ≤ Real.sin (Real.pi / 10) ∧
    0 ≤ Real.sin (3 * Real.pi / 10) ∧
    Real.sin (3 * Real.pi / 10) < 1 := by
  have hpi := Real.pi_pos
  refine ⟨?_, ?_, ?_, ?_, ?_⟩
  · exact Real.cos_nonneg_of_neg_pi_div_two_le_of_le (by linarith) (by linarith)
  · exact Real.cos_le_cos_of_nonneg_of_le_pi (by linarith) (by linarith) (by linarith)
  · exact Real.sin_nonneg_of_nonneg_of_le_pi (by linarith) (by linarith)
  · exact Real.sin_nonneg_of_nonneg_of_le_pi (by linarith) (by linarith)
  · have := Real.sin_lt_sin_of_lt_of_le_pi_div_two
      (by linarith : -(Real.pi / 2) ≤ 3 * Real.pi / 10) (le_refl (Real.pi / 2)) (by linarith)
    rwa [Real.sin_pi_div_two] at this

theorem prismRing_bounds (k : Nat) (hk : k < 5) :
    -(0.5 * Real.cos (Real.pi / 10)) ≤ (prismRing Real.cos Real.sin Real.pi k).x ∧
    (prismRing Real.cos Real.sin Real.pi k).x ≤ 0.5 * Real.cos (Real.pi / 10) ∧
    -(0.5 * Real.sin (3 * Real.pi / 10)) ≤ (prismRing Real.cos Real.sin Real.pi k).z ∧
    (prismRing Real.cos Real.sin Real.pi k).z ≤ 0.5 := by
  obtain ⟨r0, r1, r2, r3, r4⟩ := prismRing_values
  obtain ⟨c3, c31, s1, s3, _⟩ := pentagon_trig
  have hs1 := Real.sin_le_one (Real.pi / 10)
  interval_cases k
  · rw [r0]; refine ⟨?_, ?_, ?_, ?_⟩ <;> simp only <;> linarith
  · rw [r1]; refine ⟨?_, ?_, ?_, ?_⟩ <;> simp only <;> linarith
  · rw [r2]; refine ⟨?_, ?_, ?_, ?_⟩ <;> simp only <;> linarith
  · rw [r3]; refine ⟨?_, ?_, ?_, ?_⟩ <;> simp only <;> linarith
  · rw [r4]; refine ⟨?_, ?_, ?_, ?_⟩ <;> simp only <;> linarith

theorem pentagonalPrismVertices_coords (w : Vertex ℝ)
    (hw : w ∈ pentagonalPrismVertices Real.cos Real.sin Real.sqrt Real.pi) :
    (w.position.y = 0.5 ∨ w.position.y = -0.5) ∧
    ((w.position.x = 0 ∧ w.position.z = 0) ∨
      ∃ k, k < 5 ∧ w.position.x = (prismRing Real.cos Real.sin Real.pi k).x ∧
        w.position.z = (prismRing Real.cos Real.sin Real.pi k).z) := by
  simp only [pentagonalPrismVertices, List.mem_append, List.mem_flatMap, List.mem_range] at hw
  rcases hw with (⟨i, hi, hw⟩ | ⟨i, hi, hw⟩) | ⟨i, hi, hw⟩
  · simp only [prismSide, List.mem_cons, List.mem_singleton, List.not_mem_nil, or_false] at hw
    rcases hw with rfl | rfl | rfl | rfl | rfl | rfl
    all_goals first
      | exact ⟨by simp [vtx], Or.inr ⟨i, hi, rfl, rfl⟩⟩
      | exact ⟨by simp [vtx], Or.inr ⟨(i + 1) % 5, Nat.mod_lt _ (by norm_num), rfl, rfl⟩⟩
  · simp only [prismTop, List.mem_cons, List.mem_singleton, List.not_mem_nil, or_false] at hw
    rcases hw with rfl | rfl | rfl
    all_goals first
      | exact ⟨by simp [vtx], Or.inl ⟨rfl, rfl⟩⟩
      | exact ⟨by simp [vtx], Or.inr ⟨i, hi, rfl, rfl⟩⟩
      | exact ⟨by simp [vtx], Or.inr ⟨(i + 1) % 5, Nat.mod_lt _ (by norm_num), rfl, rfl⟩⟩
  · simp only [prismBottom, List.mem_cons, List.mem_singleton, List.not_mem_nil, or_false] at hw
    rcases hw with rfl | rfl | rfl
    all_goals first
      | exact ⟨by simp [vtx], Or.inl ⟨rfl, rfl⟩⟩
      | exact ⟨by simp [vtx], Or.inr ⟨i, hi, rfl, rfl⟩⟩
      | exact ⟨by simp [vtx], Or.inr ⟨(i + 1) % 5, Nat.mod_lt _ (by norm_num), rfl, rfl⟩⟩

theorem prismSide_mem (i : Nat) (hi : i < 5) (w : Vertex ℝ)
    (hw : w ∈ prismSide Real.cos Real.sin Real.sqrt Real.pi 5 i) :
    w ∈ pentagonalPrismVertices Real.cos Real.sin Real.sqrt Real.pi := by
  simp only [pentagonalPrismVertices, List.mem_append, List.mem_flatMap, List.mem_range]
  exact Or.inl (Or.inl ⟨i, hi, hw⟩)

theorem pentagonalPrism_extent :
    (LoadPentagonalPrismMesh Real.cos Real.sin Real.sqrt Real.pi).Extent glm.vec3.x
      (-(0.5 * Real.cos (Real.pi / 10))) (0.5 * Real.cos (Real.pi / 10)) ∧
    (LoadPentagonalPrismMesh Real.cos Real.sin Real.sqrt Real.pi).Extent glm.vec3.y
      (-0.5) 0.5 ∧
    (LoadPentagonalPrismMesh Real.cos Real.sin Real.sqrt Real.pi).Extent glm.vec3.z
      (-(0.5 * Real.sin (3 * Real.pi / 10))) 0.5 := by
  obtain ⟨r0, r1, r2, r3, r4⟩ := prismRing_values
  obtain ⟨c3, c31, s1, s3, _⟩ := pentagon_trig
  unfold Mesh.Extent
  rw [LoadPentagonalPrismMesh_drawn]
  refine ⟨⟨?_, ?_, ?_⟩, ⟨?_, ?_, ?_⟩, ⟨?_, ?_, ?_⟩⟩
  · intro w hw
    obtain ⟨_, ⟨hx, _⟩ | ⟨k, hk, hx, _⟩⟩ := pentagonalPrismVertices_coords w hw
    · rw [hx]; constructor <;> linarith
    · rw [hx]
      obtain ⟨h1, h2, _, _⟩ := prismRing_bounds k hk
      exact ⟨h1, h2⟩
  · refine ⟨_, prismSide_mem 4 (by norm_num) _ (List.mem_cons_self _ _), ?_⟩
    show (prismRing Real.cos Real.sin Real.pi 4).x = _
    rw [r4]
  · refine ⟨_, prismSide_mem 1 (by norm_num) _ (List.mem_cons_self _ _), ?_⟩
    show (prismRing Real.cos Real.sin Real.pi 1).x = _
    rw [r1]
  · intro w hw
    obtain ⟨h | h, _⟩ := pentagonalPrismVertices_coords w hw <;> rw [h] <;> norm_num
  · refine ⟨_, prismSide_mem 0 (by norm_num) _ (List.mem_cons_self _ _), ?_⟩
    simp only [vtx]
  · refine ⟨_, prismSide_mem 0 (by norm_num) _
      (List.mem_cons_of_mem _ (List.mem_cons_of_mem _ (List.mem_cons_self _ _))), ?_⟩
    simp only [vtx]
  · intro w hw
    obtain ⟨_, ⟨_, hz⟩ | ⟨k, hk, _, hz⟩⟩ := pentagonalPrismVertices_coords w hw
    · rw [hz]; constructor <;> linarith
    · rw [hz]
      obtain ⟨_, _, h3, h4⟩ := prismRing_bounds k hk
      exact ⟨h3, h4⟩
  · refine ⟨_, prismSide_mem 2 (by norm_num) _ (List.mem_cons_self _ _), ?_⟩
    show (prismRing Real.cos Real.sin Real.pi 2).z = _
    rw [r2]
  · refine ⟨_, prismSide_mem 0 (by norm_num) _ (List.mem_cons_self _ _), ?_⟩
    show (prismRing Real.cos Real.sin Real.pi 0).z = _
    rw [r0]

theorem Mesh.Extent.not_centered (m : Mesh ℝ) (coord : glm.vec3 ℝ → ℝ) (lo hi : ℝ)
    (h : m.Extent coord lo hi) (hne : lo ≠ -hi) : ¬ ∃ r, m.Extent coord (-r) r := by
  rintro ⟨r, hr⟩
  obtain ⟨h1, h2⟩ := Mesh.Extent.unique m coord lo hi (-r) r h hr
  apply hne
  rw [h1, h2]

/-- C27 (as stated, refuted): the wedge ranges over y in [0, 1], the half torus over z in
[0, 1.05], the hemisphere over x in [0, 0.5] and the pentagonal prism over z in
[-0.5 sin(3 pi / 10), 0.5] with sin(3 pi / 10) < 1; on none of these axes are the minimum and
the maximum coordinate negatives of each other. -/
theorem meshes_not_all_centered :
    ((LoadWedgeMesh : Mesh ℝ).Extent glm.vec3.y 0 1 ∧
      ¬ ∃ r, (LoadWedgeMesh : Mesh ℝ).Extent glm.vec3.y (-r) r) ∧
    ((LoadTorusMesh Real.cos Real.sin Real.sqrt Real.pi).Extent glm.vec3.z 0 1.05 ∧
      ¬ ∃ r, (LoadTorusMesh Real.cos Real.sin Real.sqrt Real.pi).Extent glm.vec3.z (-r) r) ∧
    ((LoadHemisphereMesh Real.cos Real.sin Real.sqrt Real.pi).Extent glm.vec3.x 0 0.5 ∧
      ¬ ∃ r, (LoadHemisphereMesh Real.cos Real.sin Real.sqrt Real.pi).Extent
        glm.vec3.x (-r) r) ∧
    ((LoadPentagonalPrismMesh Real.cos Real.sin Real.sqrt Real.pi).Extent glm.vec3.z
        (-(0.5 * Real.sin (3 * Real.pi / 10))) 0.5 ∧
      Real.sin (3 * Real.pi / 10) < 1 ∧
      ¬ ∃ r, (LoadPentagonalPrismMesh Real.cos Real.sin Real.sqrt Real.pi).Extent
        glm.vec3.z (-r) r) := by
  have hs := pentagon_trig.2.2.2.2
  refine ⟨⟨wedge_extent.2.1, ?_⟩, ⟨torus_extent.2.2, ?_⟩, ⟨hemisphere_extent.1, ?_⟩,
    ⟨pentagonalPrism_extent.2.2, hs, ?_⟩⟩
  · exact Mesh.Extent.not_centered _ _ _ _ wedge_extent.2.1 (by norm_num)
  · exact Mesh.Extent.not_centered _ _ _ _ torus_extent.2.2 (by norm_num)
  · exact Mesh.Extent.not_centered _ _ _ _ hemisphere_extent.1 (by norm_num)
  · exact Mesh.Extent.not_centered _ _ _ _ pentagonalPrism_extent.2.2
      (by intro h; linarith)

/-- C27 (amended): the extents of the nine meshes over the reals, each bound attained by a
vertex. Centred on every axis: plane (x, z in [-0.5, 0.5], y = 0), box ([-0.5, 0.5] on each
axis), cylinder ([-0.5, 0.5] on each axis), hollow cylinder (x, z in [-1, 1], y in
[-0.5, 0.5]) and flat sphere ([-0.5, 0.5] on each axis). Centred on two axes only: wedge
(x, z in [-0.5, 0.5], y in [0, 1]), half torus (x in [-1.05, 1.05], y in [-0.15, 0.15], z in
[0, 1.05]), hemisphere (y, z in [-0.5, 0.5], x in [0, 0.5]) and pentagonal prism (x in
[-0.5 cos(pi/10), 0.5 cos(pi/10)], y in [-0.5, 0.5], z in [-0.5 sin(3 pi/10), 0.5]). -/
theorem mesh_extents :
    ((LoadPlaneMesh : Mesh ℝ).Extent glm.vec3.x (-0.5) 0.5 ∧
      (LoadPlaneMesh : Mesh ℝ).Extent glm.vec3.y 0 0 ∧
      (LoadPlaneMesh : Mesh ℝ).Extent glm.vec3.z (-0.5) 0.5) ∧
    ((LoadBoxMesh : Mesh ℝ).Extent glm.vec3.x (-0.5) 0.5 ∧
      (LoadBoxMesh : Mesh ℝ).Extent glm.vec3.y (-0.5) 0.5 ∧
      (LoadBoxMesh : Mesh ℝ).Extent glm.vec3.z (-0.5) 0.5) ∧
    ((LoadCylinderMesh Real.cos Real.sin Real.pi).Extent glm.vec3.x (-0.5) 0.5 ∧
      (LoadCylinderMesh Real.cos Real.sin Real.pi).Extent glm.vec3.y (-0.5) 0.5 ∧
      (LoadCylinderMesh Real.cos Real.sin Real.pi).Extent glm.vec3.z (-0.5) 0.5) ∧
    ((LoadHollowCylinderMesh Real.cos Real.sin Real.pi).Extent glm.vec3.x (-1) 1 ∧
      (LoadHollowCylinderMesh Real.cos Real.sin Real.pi).Extent glm.vec3.y (-0.5) 0.5 ∧
      (LoadHollowCylinderMesh Real.cos Real.sin Real.pi).Extent glm.vec3.z (-1) 1) ∧
    ((LoadFlatSphereMesh Real.cos Real.sin Real.sqrt Real.pi).Extent glm.vec3.x (-0.5) 0.5 ∧
      (LoadFlatSphereMesh Real.cos Real.sin Real.sqrt Real.pi).Extent glm.vec3.y (-0.5) 0.5 ∧
      (LoadFlatSphereMesh Real.cos Real.sin Real.sqrt Real.pi).Extent glm.vec3.z
        (-0.5) 0.5) ∧
    ((LoadWedgeMesh : Mesh ℝ).Extent glm.vec3.x (-0.5) 0.5 ∧
      (LoadWedgeMesh : Mesh ℝ).Extent glm.vec3.y 0 1 ∧
      (LoadWedgeMesh : Mesh ℝ).Extent glm.vec3.z (-0.5) 0.5) ∧
    ((LoadTorusMesh Real.cos Real.sin Real.sqrt Real.pi).Extent glm.vec3.x (-1.05) 1.05 ∧
      (LoadTorusMesh Real.cos Real.sin Real.sqrt Real.pi).Extent glm.vec3.y (-0.15) 0.15 ∧
      (LoadTorusMesh Real.cos Real.sin Real.sqrt Real.pi).Extent glm.vec3.z 0 1.05) ∧
    ((LoadHemisphereMesh Real.cos Real.sin Real.sqrt Real.pi).Extent glm.vec3.x 0 0.5 ∧
      (LoadHemisphereMesh Real.cos Real.sin Real.sqrt Real.pi).Extent glm.vec3.y (-0.5) 0.5 ∧
      (LoadHemisphereMesh Real.cos Real.sin Real.sqrt Real.pi).Extent glm.vec3.z
        (-0.5) 0.5) ∧
    ((LoadPentagonalPrismMesh Real.cos Real.sin Real.sqrt Real.pi).Extent glm.vec3.x
        (-(0.5 * Real.cos (Real.pi / 10))) (0.5 * Real.cos (Real.pi / 10)) ∧
      (LoadPentagonalPrismMesh Real.cos Real.sin Real.sqrt Real.pi).Extent glm.vec3.y
        (-0.5) 0.5 ∧
      (LoadPentagonalPrismMesh Real.cos Real.sin Real.sqrt Real.pi).Extent glm.vec3.z
        (-(0.5 * Real.sin (3 * Real.pi / 10))) 0.5) :=
  ⟨plane_extent, box_extent, cylinder_extent, hollowCylinder_extent, flatSphere_extent,
    wedge_extent, torus_extent, hemisphere_extent, pentagonalPrism_extent⟩

/-! ### World positions under the model matrix -/

/-- The model matrix applied to a local point: scale, rotate about X, Y, Z, translate. -/
theorem Placement.apply_eq (P : Placement ℝ) (p : glm.vec3 ℝ) :
    P.apply Real.cos Real.sin Real.sqrt Real.pi p
      = specModel Real.cos Real.sin Real.pi P.scaleXYZ P.XrotationDegrees P.YrotationDegrees
          P.ZrotationDegrees P.positionXYZ P.offset p := by
  have h : Matrix.mulVec (P.model Real.cos Real.sin Real.sqrt Real.pi) (glm.point p)
      = glm.point (specModel Real.cos Real.sin Real.pi P.scaleXYZ P.XrotationDegrees
          P.YrotationDegrees P.ZrotationDegrees P.positionXYZ P.offset p) := by
    ext i
    fin_cases i <;>
      simp [Placement.model, SetTransformations, glm.scale, glm.rotate, glm.translate,
        glm.normalize, glm.dot, glm.point, glm.vec3.add, specModel, specRotateX, specRotateY,
        specRotateZ, specScale, Matrix.mul_apply, Matrix.mulVec, Matrix.dotProduct,
        Fin.sum_univ_four] <;>
      ring
  unfold Placement.apply
  rw [h]
  rfl

/-- Without rotation the model matrix scales and translates. -/
theorem Placement.apply_unrotated (scale position p : glm.vec3 ℝ) :
    (⟨scale, 0, 0, 0, position, SetTransformations.defaultOffset⟩ : Placement ℝ).apply
        Real.cos Real.sin Real.sqrt Real.pi p
      = ⟨position.x + scale.x * p.x, position.y + scale.y * p.y,
         position.z + scale.z * p.z⟩ := by
  rw [Placement.apply_eq]
  simp [specModel, specRotateX, specRotateY, specRotateZ, specScale, glm.vec3.add,
    glm.radians, SetTransformations.defaultOffset]

/-- Turned by 180 degrees about Y, the model matrix scales, flips x and z, and
translates. -/
theorem Placement.apply_half_turn (scale position p : glm.vec3 ℝ) :
    (⟨scale, 0, 180, 0, position, SetTransformations.defaultOffset⟩ : Placement ℝ).apply
        Real.cos Real.sin Real.sqrt Real.pi p
      = ⟨position.x + -scale.x * p.x, position.y + scale.y * p.y,
         position.z + -scale.z * p.z⟩ := by
  have h180 : (180 : ℝ) * (Real.pi / 180) = Real.pi := by ring
  rw [Placement.apply_eq]
  simp [specModel, specRotateX, specRotateY, specRotateZ, specScale, glm.vec3.add,
    glm.radians, SetTransformations.defaultOffset, h180]

theorem Mesh.Extent.affine (m : Mesh ℝ) (coord : glm.vec3 ℝ → ℝ) (r a b : ℝ)
    (h : m.Extent coord (-r) r) (f : glm.vec3 ℝ → ℝ) (hf : ∀ p, f p = b + a * coord p) :
    m.Extent f (b - |a| * r) (b + |a| * r) := by
  obtain ⟨hb, ⟨w1, hw1, e1⟩, ⟨w2, hw2, e2⟩⟩ := h
  rcases le_total 0 a with ha | ha
  · rw [abs_of_nonneg ha]
    refine ⟨?_, ⟨w1, hw1, ?_⟩, ⟨w2, hw2, ?_⟩⟩
    · intro w hw
      obtain ⟨h1, h2⟩ := hb w hw
      rw [hf]
      constructor <;> nlinarith
    · rw [hf, e1]; ring
    · rw [hf, e2]
  · rw [abs_of_nonpos ha]
    refine ⟨?_, ⟨w2, hw2, ?_⟩, ⟨w1, hw1, ?_⟩⟩
    · intro w hw
      obtain ⟨h1, h2⟩ := hb w hw
      rw [hf]
      constructor <;> nlinarith
    · rw [hf, e2]; ring
    · rw [hf, e1]; ring

/-! ### The table and its legs -/

theorem RenderScene.table_placements (m_pShaderManager : Option ShaderManager) :
    Call.placements (RenderScene.table m_pShaderManager : List (Call ℝ)) none
      = [(DrawCall.DrawBoxMesh, some ⟨⟨40, 0.6, 10⟩, 0, 180, 0, ⟨0, -0.4, 0⟩,
            SetTransformations.defaultOffset⟩),
         (DrawCall.DrawBoxMesh, some ⟨⟨1.2, -0.7 - -15, 1.2⟩, 0, 0, 0,
            ⟨20 - 1.5, -15 + (-0.7 - -15) * 0.5, 5 - 1⟩, SetTransformations.defaultOffset⟩),
         (DrawCall.DrawFlatSphereMesh, some ⟨⟨2.4, 0.4, 2.4⟩, 0, 0, 0,
            ⟨20 - 1.5, -15, 5 - 1⟩, SetTransformations.defaultOffset⟩),
         (DrawCall.DrawBoxMesh, some ⟨⟨1.2, -0.7 - -15, 1.2⟩, 0, 0, 0,
            ⟨-(20 - 1.5), -15 + (-0.7 - -15) * 0.5, 5 - 1⟩, SetTransformations.defaultOffset⟩),
         (DrawCall.DrawFlatSphereMesh, some ⟨⟨2.4, 0.4, 2.4⟩, 0, 0, 0,
            ⟨-(20 - 1.5), -15, 5 - 1⟩, SetTransformations.defaultOffset⟩),
         (DrawCall.DrawBoxMesh, some ⟨⟨1.2, -0.7 - -15, 1.2⟩, 0, 0, 0,
            ⟨20 - 1.5, -15 + (-0.7 - -15) * 0.5, -(5 - 1)⟩, SetTransformations.defaultOffset⟩),
         (DrawCall.DrawFlatSphereMesh, some ⟨⟨2.4, 0.4, 2.4⟩, 0, 0, 0,
            ⟨20 - 1.5, -15, -(5 - 1)⟩, SetTransformations.defaultOffset⟩),
         (DrawCall.DrawBoxMesh, some ⟨⟨1.2, -0.7 - -15, 1.2⟩, 0, 0, 0,
            ⟨-(20 - 1.5), -15 + (-0.7 - -15) * 0.5, -(5 - 1)⟩,
            SetTransformations.defaultOffset⟩),
         (DrawCall.DrawFlatSphereMesh, some ⟨⟨2.4, 0.4, 2.4⟩, 0, 0, 0,
            ⟨-(20 - 1.5), -15, -(5 - 1)⟩, SetTransformations.defaultOffset⟩)] := by
  cases m_pShaderManager <;> rfl

theorem leg_numbers :
    ((-0.7 : ℝ) - -15 = 14.3) ∧ ((-15 : ℝ) + (-0.7 - -15) * 0.5 = -7.85) ∧
    ((20 : ℝ) - 1.5 = 18.5) ∧ ((5 : ℝ) - 1 = 4) := by
  refine ⟨?_, ?_, ?_, ?_⟩ <;> norm_num

theorem Mesh.Extent.of_eq (m : Mesh ℝ) (coord : glm.vec3 ℝ → ℝ) (lo hi lo2 hi2 : ℝ)
    (h : m.Extent coord lo hi) (hlo : lo = lo2) (hhi : hi = hi2) : m.Extent coord lo2 hi2 := by
  rw [← hlo, ← hhi]
  exact h

/-- C29: the table of `RenderScene` draws the table top (unit box scaled by (40, 0.6, 10),
turned 180 degrees about Y, at (0, -0.4, 0)) and four legs (unit boxes scaled by
(1.2, 14.3, 1.2), unrotated, at (+-18.5, -7.85, +-4), one per sign combination), each leg
followed by its foot. Over the reals the table top spans y in [-0.7, -0.1], x in [-20, 20]
and z in [-5, 5]; each leg spans y from the floor height -15 to the underside -0.7 of the
table top, and its footprint, x within 0.6 of +-18.5 and z within 0.6 of +-4, lies inside
that of the table top. -/
theorem table_legs_fill_gap (m_pShaderManager : Option ShaderManager) :
    Call.placements (RenderScene.table m_pShaderManager : List (Call ℝ)) none
      = [(DrawCall.DrawBoxMesh, some ⟨⟨40, 0.6, 10⟩, 0, 180, 0, ⟨0, -0.4, 0⟩,
            SetTransformations.defaultOffset⟩),
         (DrawCall.DrawBoxMesh, some ⟨⟨1.2, 14.3, 1.2⟩, 0, 0, 0, ⟨18.5, -7.85, 4⟩,
            SetTransformations.defaultOffset⟩),
         (DrawCall.DrawFlatSphereMesh, some ⟨⟨2.4, 0.4, 2.4⟩, 0, 0, 0, ⟨18.5, -15, 4⟩,
            SetTransformations.defaultOffset⟩),
         (DrawCall.DrawBoxMesh, some ⟨⟨1.2, 14.3, 1.2⟩, 0, 0, 0, ⟨-18.5, -7.85, 4⟩,
            SetTransformations.defaultOffset⟩),
         (DrawCall.DrawFlatSphereMesh, some ⟨⟨2.4, 0.4, 2.4⟩, 0, 0, 0, ⟨-18.5, -15, 4⟩,
            SetTransformations.defaultOffset⟩),
         (DrawCall.DrawBoxMesh, some ⟨⟨1.2, 14.3, 1.2⟩, 0, 0, 0, ⟨18.5, -7.85, -4⟩,
            SetTransformations.defaultOffset⟩),
         (DrawCall.DrawFlatSphereMesh, some ⟨⟨2.4, 0.4, 2.4⟩, 0, 0, 0, ⟨18.5, -15, -4⟩,
            SetTransformations.defaultOffset⟩),
         (DrawCall.DrawBoxMesh, some ⟨⟨1.2, 14.3, 1.2⟩, 0, 0, 0, ⟨-18.5, -7.85, -4⟩,
            SetTransformations.defaultOffset⟩),
         (DrawCall.DrawFlatSphereMesh, some ⟨⟨2.4, 0.4, 2.4⟩, 0, 0, 0, ⟨-18.5, -15, -4⟩,
            SetTransformations.defaultOffset⟩)] ∧
    ((LoadBoxMesh : Mesh ℝ).Extent
        (fun p => ((⟨⟨40, 0.6, 10⟩, 0, 180, 0, ⟨0, -0.4, 0⟩,
          SetTransformations.defaultOffset⟩ : Placement ℝ).apply
            Real.cos Real.sin Real.sqrt Real.pi p).y) (-0.7) (-0.1) ∧
      (LoadBoxMesh : Mesh ℝ).Extent
        (fun p => ((⟨⟨40, 0.6, 10⟩, 0, 180, 0, ⟨0, -0.4, 0⟩,
          SetTransformations.defaultOffset⟩ : Placement ℝ).apply
            Real.cos Real.sin Real.sqrt Real.pi p).x) (-20) 20 ∧
      (LoadBoxMesh : Mesh ℝ).Extent
        (fun p => ((⟨⟨40, 0.6, 10⟩, 0, 180, 0, ⟨0, -0.4, 0⟩,
          SetTransformations.defaultOffset⟩ : Placement ℝ).apply
            Real.cos Real.sin Real.sqrt Real.pi p).z) (-5) 5) ∧
    (∀ x z : ℝ, (x = 18.5 ∨ x = -18.5) → (z = 4 ∨ z = -4) →
      (LoadBoxMesh : Mesh ℝ).Extent
        (fun p => ((⟨⟨1.2, 14.3, 1.2⟩, 0, 0, 0, ⟨x, -7.85, z⟩,
          SetTransformations.defaultOffset⟩ : Placement ℝ).apply
            Real.cos Real.sin Real.sqrt Real.pi p).y) (-15) (-0.7) ∧
      (LoadBoxMesh : Mesh ℝ).Extent
        (fun p => ((⟨⟨1.2, 14.3, 1.2⟩, 0, 0, 0, ⟨x, -7.85, z⟩,
          SetTransformations.defaultOffset⟩ : Placement ℝ).apply
            Real.cos Real.sin Real.sqrt Real.pi p).x) (x - 0.6) (x + 0.6) ∧
      (LoadBoxMesh : Mesh ℝ).Extent
        (fun p => ((⟨⟨1.2, 14.3, 1.2⟩, 0, 0, 0, ⟨x, -7.85, z⟩,
          SetTransformations.defaultOffset⟩ : Placement ℝ).apply
            Real.cos Real.sin Real.sqrt Real.pi p).z) (z - 0.6) (z + 0.6) ∧
      -20 ≤ x - 0.6 ∧ x + 0.6 ≤ 20 ∧ -5 ≤ z - 0.6 ∧ z + 0.6 ≤ 5) := by
  obtain ⟨n1, n2, n3, n4⟩ := leg_numbers
  obtain ⟨bx, hby, bz⟩ := box_extent
  refine ⟨?_, ⟨?_, ?_, ?_⟩, ?_⟩
  · rw [RenderScene.table_placements, n2, n1, n3, n4]
  · refine Mesh.Extent.of_eq _ _ _ _ _ _
      (Mesh.Extent.affine _ _ 0.5 0.6 (-0.4) hby _
        (fun p => by rw [Placement.apply_half_turn])) ?_ ?_ <;> norm_num [abs_of_pos]
  · refine Mesh.Extent.of_eq _ _ _ _ _ _
      (Mesh.Extent.affine _ _ 0.5 (-40) 0 bx _
        (fun p => by rw [Placement.apply_half_turn])) ?_ ?_ <;> norm_num [abs_of_pos]
  · refine Mesh.Extent.of_eq _ _ _ _ _ _
      (Mesh.Extent.affine _ _ 0.5 (-10) 0 bz _
        (fun p => by rw [Placement.apply_half_turn])) ?_ ?_ <;> norm_num [abs_of_pos]
  · intro x z hx hz
    refine ⟨?_, ?_, ?_, ?_, ?_, ?_, ?_⟩
    · refine Mesh.Extent.of_eq _ _ _ _ _ _
        (Mesh.Extent.affine _ _ 0.5 14.3 (-7.85) hby _
          (fun p => by rw [Placement.apply_unrotated])) ?_ ?_ <;> norm_num [abs_of_pos]
    · refine Mesh.Extent.of_eq _ _ _ _ _ _
        (Mesh.Extent.affine _ _ 0.5 1.2 x bx _
          (fun p => by rw [Placement.apply_unrotated])) ?_ ?_ <;> norm_num [abs_of_pos]
    · refine Mesh.Extent.of_eq _ _ _ _ _ _
        (Mesh.Extent.affine _ _ 0.5 1.2 z bz _
          (fun p => by rw [Placement.apply_unrotated])) ?_ ?_ <;> norm_num [abs_of_pos]
    · rcases hx with rfl | rfl <;> norm_num
    · rcases hx with rfl | rfl <;> norm_num
    · rcases hz with rfl | rfl <;> norm_num
    · rcases hz with rfl | rfl <;> norm_num

/-! ### The mouse and its end caps -/

theorem RenderScene.mouseEnds_eq (cylinderLength mouseYaw : ℝ) (mousePosition : glm.vec3 ℝ) :
    RenderScene.mouseEnds Real.cos Real.sin Real.sqrt Real.pi cylinderLength mouseYaw
        mousePosition
      = (⟨mousePosition.x + Real.cos (glm.radians Real.pi mouseYaw) * (cylinderLength * 0.5),
          mousePosition.y,
          mousePosition.z - Real.sin (glm.radians Real.pi mouseYaw) * (cylinderLength * 0.5)⟩,
         ⟨mousePosition.x - Real.cos (glm.radians Real.pi mouseYaw) * (cylinderLength * 0.5),
          mousePosition.y,
          mousePosition.z
            + Real.sin (glm.radians Real.pi mouseYaw) * (cylinderLength * 0.5)⟩) := by
  simp only [RenderScene.mouseEnds, Prod.mk.injEq, glm.vec3.add, glm.vec3.ofVec4,
    glm.vec3.mk.injEq]
  refine ⟨⟨?_, ?_, ?_⟩, ⟨?_, ?_, ?_⟩⟩ <;>
    simp [glm.rotate, glm.normalize, glm.dot, glm.point, Matrix.mulVec, Matrix.dotProduct,
      Fin.sum_univ_four] <;>
    ring

theorem RenderScene.mouse_placements {α : Type} [Field α] (cosf sinf sqrtf : α → α) (kPi : α)
    (m_pShaderManager : Option ShaderManager) :
    Call.placements (RenderScene.mouse cosf sinf sqrtf kPi m_pShaderManager) none
      = [(DrawCall.DrawCylinderMesh,
            some ⟨⟨(0.113 - 0.057) * 15, 0.021 * 15, 0.057 * 15⟩, 0, -45, 0,
              ⟨-1.04, -0.05 + 0.021 * 15 * 0.5, 1.13⟩, SetTransformations.defaultOffset⟩),
         (DrawCall.DrawHemisphereMesh,
            some ⟨⟨0.057 * 15, 0.021 * 15, 0.057 * 15⟩, 0, -45, 0,
              (RenderScene.mouseEnds cosf sinf sqrtf kPi ((0.113 - 0.057) * 15) (-45)
                ⟨-1.04, -0.05 + 0.021 * 15 * 0.5, 1.13⟩).1,
              SetTransformations.defaultOffset⟩),
         (DrawCall.DrawHemisphereMesh,
            some ⟨⟨0.057 * 15, 0.021 * 15, 0.057 * 15⟩, 0, -45 + 180, 0,
              (RenderScene.mouseEnds cosf sinf sqrtf kPi ((0.113 - 0.057) * 15) (-45)
                ⟨-1.04, -0.05 + 0.021 * 15 * 0.5, 1.13⟩).2,
              SetTransformations.defaultOffset⟩)] := by
  cases m_pShaderManager <;> rfl

/-- C30: the mouse of `RenderScene` draws the body cylinder with scale
(cylinderLength, h, w), Y rotation `mouseYaw` and position `mousePosition`, and the two
hemispheres at `frontPosition` and `backPosition`, the second turned by a further 180
degrees. Over the reals, for every yaw, body length, height, width, position and cap scale,
the body's model matrix maps the local end centres (0.5, 0, 0) and (-0.5, 0, 0) of the
cylinder mesh to `frontPosition` and `backPosition`, the hemispheres' model matrices map
the local origin to those same points, and frontPosition + backPosition is twice
`mousePosition`. -/
theorem mouse_caps_attached (m_pShaderManager : Option ShaderManager)
    (cylinderLength h w mouseYaw : ℝ) (mousePosition capScale : glm.vec3 ℝ) :
    Call.placements
        (RenderScene.mouse Real.cos Real.sin Real.sqrt Real.pi m_pShaderManager) none
      = [(DrawCall.DrawCylinderMesh,
            some ⟨⟨(0.113 - 0.057) * 15, 0.021 * 15, 0.057 * 15⟩, 0, -45, 0,
              ⟨-1.04, -0.05 + 0.021 * 15 * 0.5, 1.13⟩, SetTransformations.defaultOffset⟩),
         (DrawCall.DrawHemisphereMesh,
            some ⟨⟨0.057 * 15, 0.021 * 15, 0.057 * 15⟩, 0, -45, 0,
              (RenderScene.mouseEnds Real.cos Real.sin Real.sqrt Real.pi
                ((0.113 - 0.057) * 15) (-45) ⟨-1.04, -0.05 + 0.021 * 15 * 0.5, 1.13⟩).1,
              SetTransformations.defaultOffset⟩),
         (DrawCall.DrawHemisphereMesh,
            some ⟨⟨0.057 * 15, 0.021 * 15, 0.057 * 15⟩, 0, -45 + 180, 0,
              (RenderScene.mouseEnds Real.cos Real.sin Real.sqrt Real.pi
                ((0.113 - 0.057) * 15) (-45) ⟨-1.04, -0.05 + 0.021 * 15 * 0.5, 1.13⟩).2,
              SetTransformations.defaultOffset⟩)] ∧
    (⟨⟨cylinderLength, h, w⟩, 0, mouseYaw, 0, mousePosition,
        SetTransformations.defaultOffset⟩ : Placement ℝ).apply
        Real.cos Real.sin Real.sqrt Real.pi ⟨0.5, 0, 0⟩
      = (RenderScene.mouseEnds Real.cos Real.sin Real.sqrt Real.pi cylinderLength mouseYaw
          mousePosition).1 ∧
    (⟨⟨cylinderLength, h, w⟩, 0, mouseYaw, 0, mousePosition,
        SetTransformations.defaultOffset⟩ : Placement ℝ).apply
        Real.cos Real.sin Real.sqrt Real.pi ⟨-0.5, 0, 0⟩
      = (RenderScene.mouseEnds Real.cos Real.sin Real.sqrt Real.pi cylinderLength mouseYaw
          mousePosition).2 ∧
    (⟨capScale, 0, mouseYaw, 0,
        (RenderScene.mouseEnds Real.cos Real.sin Real.sqrt Real.pi cylinderLength mouseYaw
          mousePosition).1,
        SetTransformations.defaultOffset⟩ : Placement ℝ).apply
        Real.cos Real.sin Real.sqrt Real.pi ⟨0, 0, 0⟩
      = (RenderScene.mouseEnds Real.cos Real.sin Real.sqrt Real.pi cylinderLength mouseYaw
          mousePosition).1 ∧
    (⟨capScale, 0, mouseYaw + 180, 0,
        (RenderScene.mouseEnds Real.cos Real.sin Real.sqrt Real.pi cylinderLength mouseYaw
          mousePosition).2,
        SetTransformations.defaultOffset⟩ : Placement ℝ).apply
        Real.cos Real.sin Real.sqrt Real.pi ⟨0, 0, 0⟩
      = (RenderScene.mouseEnds Real.cos Real.sin Real.sqrt Real.pi cylinderLength mouseYaw
          mousePosition).2 ∧
    (RenderScene.mouseEnds Real.cos Real.sin Real.sqrt Real.pi cylinderLength mouseYaw
        mousePosition).1.add
      (RenderScene.mouseEnds Real.cos Real.sin Real.sqrt Real.pi cylinderLength mouseYaw
        mousePosition).2
      = ⟨2 * mousePosition.x, 2 * mousePosition.y, 2 * mousePosition.z⟩ ∧
    (∀ v, v ∈ (LoadCylinderMesh Real.cos Real.sin Real.pi).drawn →
      (v.position.x = 0.5 ∨ v.position.x = -0.5) ∧
      v.position.y ^ 2 + v.position.z ^ 2 = 0.25) := by
  refine ⟨RenderScene.mouse_placements Real.cos Real.sin Real.sqrt Real.pi m_pShaderManager,
    ?_, ?_, ?_, ?_, ?_, ?_⟩
  · rw [Placement.apply_eq, RenderScene.mouseEnds_eq]
    simp only [specModel, specRotateX, specRotateY, specRotateZ, specScale, glm.vec3.add,
      SetTransformations.defaultOffset, glm.vec3.mk.injEq]
    refine ⟨?_, ?_, ?_⟩
    all_goals first
      | (simp [glm.radians]; ring)
      | simp [glm.radians]
  · rw [Placement.apply_eq, RenderScene.mouseEnds_eq]
    simp only [specModel, specRotateX, specRotateY, specRotateZ, specScale, glm.vec3.add,
      SetTransformations.defaultOffset, glm.vec3.mk.injEq]
    refine ⟨?_, ?_, ?_⟩
    all_goals first
      | (simp [glm.radians]; ring)
      | simp [glm.radians]
  · rw [Placement.apply_eq]
    simp [specModel, specRotateX, specRotateY, specRotateZ, specScale, glm.vec3.add,
      SetTransformations.defaultOffset]
  · rw [Placement.apply_eq]
    simp [specModel, specRotateX, specRotateY, specRotateZ, specScale, glm.vec3.add,
      SetTransformations.defaultOffset]
  · rw [RenderScene.mouseEnds_eq]
    simp only [glm.vec3.add, glm.vec3.mk.injEq]
    refine ⟨?_, ?_, ?_⟩ <;> ring
  · intro v hv
    rw [LoadCylinderMesh_drawn] at hv
    obtain ⟨hx, a, hy, hz⟩ := cylinderVertices_coords v hv
    refine ⟨hx, ?_⟩
    rw [hy, hz]
    linear_combination (0.25 : ℝ) * (Real.cos_sq_add_sin_sq a)

end CS330
